import Mathlib

/-!
# Aethernet autonomous runtime core — shallow embedding

This file embeds, in Lean, the parts of the `aethernet` TypeScript runtime
that the verified properties talk about:

* `packages/core-runtime/src/autonomy/validation.ts` — the brain-output validator;
* the redaction layer of the state store (`redactText` / `redactUnknown`);
* `packages/core-runtime/src/runtime.ts` — wallet session handling, the
  self-modification engine with rollback points, the brain-action executor
  gates, alert evaluation, the orchestrator tick and the daemon loop.

Free-form text (summaries, messages, file contents, paths) is modelled as
`List Char` so that trimming, substring search and the redaction scanners can
be reasoned about directly.  Short enumeration-like identifiers (action types,
severities, incident codes, KV keys) stay as `String`.  Timestamps are `Nat`
milliseconds (`Date.now()`).  External collaborators (the LM brain, the
messaging transport, the compute provider) are parameters supplying the
outcome of each call, exactly where the source awaits them.
-/

namespace Aethernet

/-- Character-list strings, the representation used for free text. -/
abbrev Str := List Char

/-- Conversion from a Lean string literal to the `Str` representation. -/
def str (s : String) : Str := s.data

/-- JS `String.prototype.trim` whitespace test (the characters that matter
for the texts the runtime produces). -/
def isJsSpace (c : Char) : Bool :=
  c = ' ' || c = '\t' || c = '\n' || c = '\r' || c = '\x0b' || c = '\x0c'

/-- JS `value.trim()`: drop whitespace at both ends. -/
def jsTrim (l : Str) : Str :=
  ((l.dropWhile isJsSpace).reverse.dropWhile isJsSpace).reverse

/-- `needle` occurs at the start of `hay` (JS `String.prototype.startsWith`). -/
def segAt : Str → Str → Bool
  | [], _ => true
  | _ :: _, [] => false
  | a :: as, b :: bs => a = b && segAt as bs

/-- `hay.includes(needle)` (JS substring search). -/
def containsSeg (needle : Str) : Str → Bool
  | [] => segAt needle []
  | c :: rest => segAt needle (c :: rest) || containsSeg needle rest

/-! ## Brain turn outputs (`shared-types` / `validation.ts`) -/

/-- A JSON-ish parameter value, as far as the runtime inspects params. -/
inductive ParamVal where
  | pstr (s : Str)
  | pnum (n : Int)
  | pbool (b : Bool)
  | pnull
  deriving DecidableEq, Repr

/-- An action's `params` bag: a string-keyed record. -/
abbrev ActionParams := List (String × ParamVal)

/-- The raw `params` field of an action as it arrives from JSON: either a
real object or some non-object value (which the validator normalizes away,
`action.params && typeof action.params === "object"`). -/
inductive ParamsField where
  | obj (entries : ActionParams)
  | nonObj (v : ParamVal)
  deriving DecidableEq, Repr

/-- One entry of `nextActions`. -/
structure BrainActionRaw where
  type : String
  reason : Option String
  params : Option ParamsField
  deriving DecidableEq, Repr

/-- `memoryWrites.facts` entry. -/
structure MemoryFactWrite where
  key : Str
  value : Str
  confidence : Option Int
  source : Option Str
  deriving DecidableEq, Repr

/-- `memoryWrites.episodes` entry. -/
structure MemoryEpisodeWrite where
  summary : Str
  outcome : Option Str
  actionType : Option Str
  deriving DecidableEq, Repr

/-- The optional `memoryWrites` bundle of a turn output. -/
structure MemoryWrites where
  facts : Option (List MemoryFactWrite)
  episodes : Option (List MemoryEpisodeWrite)
  deriving DecidableEq, Repr

/-- `BrainTurnOutput`.  `none` in `summary` / `nextActions` / `sleepMs`
models a missing or wrongly-typed JSON field (the validator guards each with
`typeof` / `Array.isArray` / `Number.isFinite`). -/
structure BrainTurnOutput where
  summary : Option Str
  nextActions : Option (List BrainActionRaw)
  memoryWrites : Option MemoryWrites
  sleepMs : Option Int
  integrity : Option String
  deriving DecidableEq, Repr

/-! ## The turn validator (`autonomy/validation.ts`) -/

structure ValidationLimits where
  maxActions : Int
  maxSleepMs : Int
  deriving DecidableEq, Repr

structure ValidationOptions where
  strictAllowlist : Bool
  allowlist : List String
  deriving DecidableEq, Repr

structure BrainOutputValidationResult where
  output : BrainTurnOutput
  malformed : Bool
  errors : List String
  deriving DecidableEq, Repr

/-- The per-action normalization done by the validator's `.map`:
`{type, reason, params: params && typeof params === "object" ? params : undefined}`. -/
def normalizeAction (a : BrainActionRaw) : BrainActionRaw :=
  { type := a.type
    reason := a.reason
    params := match a.params with
      | some (.obj entries) => some (.obj entries)
      | _ => none }

/-- The synthesized action when no action survives filtering:
`[{type: "noop", reason: "no_actions"}]`. -/
def noopNoActions : BrainActionRaw :=
  { type := "noop", reason := some "no_actions", params := none }

/-- `output.nextActions.slice(0, Math.max(1, maxActions)).map(normalize)`. -/
def slicedActions (output : BrainTurnOutput) (limits : ValidationLimits) :
    List BrainActionRaw :=
  ((output.nextActions.getD []).take (max 1 limits.maxActions).toNat).map normalizeAction

/-- The actions surviving the allowlist filter. -/
def keptActions (output : BrainTurnOutput) (limits : ValidationLimits)
    (options : ValidationOptions) : List BrainActionRaw :=
  (slicedActions output limits).filter (fun a => options.allowlist.contains a.type)

/-- `action_not_allowed:<type>` errors, in action order. -/
def allowlistErrors (output : BrainTurnOutput) (limits : ValidationLimits)
    (options : ValidationOptions) : List String :=
  ((slicedActions output limits).filter
      (fun a => !(options.allowlist.contains a.type))).map
      (fun a => "action_not_allowed:" ++ a.type)

/-- `typeof output.summary !== "string" || !output.summary.trim()`. -/
def summaryMissing (output : BrainTurnOutput) : Bool :=
  match output.summary with
  | some s => (jsTrim s).isEmpty
  | none => true

/-- The validator's error list, in the order the source pushes them. -/
def validationErrors (output : BrainTurnOutput) (limits : ValidationLimits)
    (options : ValidationOptions) : List String :=
  allowlistErrors output limits options
    ++ (if summaryMissing output then ["missing_summary"] else [])
    ++ (if output.nextActions.isNone then ["missing_actions"] else [])
    ++ (if output.integrity = some "malformed" then ["provider_marked_malformed"] else [])

/-- `malformed = strictAllowlist ? errors.length > 0 : errors.some(structural)`. -/
def validationMalformed (output : BrainTurnOutput) (limits : ValidationLimits)
    (options : ValidationOptions) : Bool :=
  if options.strictAllowlist then !(validationErrors output limits options).isEmpty
  else (validationErrors output limits options).any
    (fun e => e = "missing_summary" || e = "missing_actions")

/-- `output.summary?.trim() || "Autonomous turn completed."`. -/
def validatedSummary (output : BrainTurnOutput) : Str :=
  match output.summary with
  | some s => if (jsTrim s).isEmpty then str "Autonomous turn completed." else jsTrim s
  | none => str "Autonomous turn completed."

/-- `filteredActions.length ? filteredActions : [noop]`. -/
def finalActions (output : BrainTurnOutput) (limits : ValidationLimits)
    (options : ValidationOptions) : List BrainActionRaw :=
  if (keptActions output limits options).isEmpty then [noopNoActions]
  else keptActions output limits options

/-- Clamp of `sleepMs` into `[0, maxSleepMs]` when numeric, else absent. -/
def validatedSleepMs (output : BrainTurnOutput) (limits : ValidationLimits) : Option Int :=
  match output.sleepMs with
  | some n => some (max 0 (min n limits.maxSleepMs))
  | none => none

/-- `validateBrainTurnOutput` (`autonomy/validation.ts`, lines 20–74). -/
def validateBrainTurnOutput (output : BrainTurnOutput) (limits : ValidationLimits)
    (options : ValidationOptions) : BrainOutputValidationResult :=
  { malformed := validationMalformed output limits options
    errors := validationErrors output limits options
    output :=
      { summary := some (validatedSummary output)
        nextActions := some (finalActions output limits options)
        memoryWrites := output.memoryWrites
        sleepMs := validatedSleepMs output limits
        integrity := some (if validationMalformed output limits options
          then "malformed" else "ok") } }

/-! ### List and trim support lemmas -/

theorem map_eq_self_of_mem {α : Type} (f : α → α) (l : List α)
    (h : ∀ a ∈ l, f a = a) : l.map f = l := by
  induction l with
  | nil => rfl
  | cons a as ih =>
    simp only [List.map_cons, h a (List.mem_cons_self a as),
      ih (fun b hb => h b (List.mem_cons_of_mem a hb))]

theorem dropWhile_dropWhile {α : Type} (p : α → Bool) (l : List α) :
    List.dropWhile p (List.dropWhile p l) = List.dropWhile p l := by
  induction l with
  | nil => rfl
  | cons c rest ih =>
    by_cases h : p c
    · simp [List.dropWhile_cons, h, ih]
    · simp [List.dropWhile_cons, h]

theorem dropWhile_head_false {α : Type} (p : α → Bool) :
    ∀ (l : List α) (c : α) (rest : List α), List.dropWhile p l = c :: rest → p c = false := by
  intro l
  induction l with
  | nil => intro c rest h; cases h
  | cons a as ih =>
    intro c rest h
    rw [List.dropWhile_cons] at h
    by_cases hp : p a
    · simp only [hp, if_true] at h
      exact ih c rest h
    · simp only [hp, if_false] at h
      cases h
      simpa using hp

theorem dropWhile_cons_self {α : Type} (p : α → Bool) (c : α) (t : List α)
    (h : List.dropWhile p (c :: t) = c :: t) : p c = false := by
  by_cases hp : p c
  · rw [List.dropWhile_cons, if_pos hp] at h
    have hlen := (List.dropWhile_sublist (l := t) (p := p)).length_le
    rw [h] at hlen
    simp at hlen
  · simpa using hp

/-- Trimming whitespace from the right only. -/
def rtrimWs (l : Str) : Str := (l.reverse.dropWhile isJsSpace).reverse

theorem jsTrim_eq_rtrim_drop (l : Str) :
    jsTrim l = rtrimWs (l.dropWhile isJsSpace) := rfl

theorem rtrimWs_append (l : Str) :
    l = rtrimWs l ++ (l.reverse.takeWhile isJsSpace).reverse := by
  have h := congrArg List.reverse (List.takeWhile_append_dropWhile isJsSpace l.reverse)
  simp only [List.reverse_append, List.reverse_reverse] at h
  exact h.symm

theorem rtrimWs_idem (l : Str) : rtrimWs (rtrimWs l) = rtrimWs l := by
  unfold rtrimWs
  rw [List.reverse_reverse, dropWhile_dropWhile]

theorem dropWhile_rtrimWs (l : Str) (h : List.dropWhile isJsSpace l = l) :
    List.dropWhile isJsSpace (rtrimWs l) = rtrimWs l := by
  cases hr : rtrimWs l with
  | nil => rfl
  | cons c r =>
    have hl : l = c :: (r ++ (l.reverse.takeWhile isJsSpace).reverse) := by
      have := rtrimWs_append l
      rw [hr] at this
      simpa using this
    have hc : isJsSpace c = false := by
      apply dropWhile_cons_self isJsSpace c (r ++ (l.reverse.takeWhile isJsSpace).reverse)
      rw [← hl, h]
    simp [List.dropWhile_cons, hc]

theorem jsTrim_idem (l : Str) : jsTrim (jsTrim l) = jsTrim l := by
  have hfront : List.dropWhile isJsSpace (l.dropWhile isJsSpace) = l.dropWhile isJsSpace :=
    dropWhile_dropWhile _ _
  rw [jsTrim_eq_rtrim_drop l, jsTrim_eq_rtrim_drop,
    dropWhile_rtrimWs _ hfront, rtrimWs_idem]

/-! ### C7 support lemmas on the validator -/

theorem normalizeAction_idem (a : BrainActionRaw) :
    normalizeAction (normalizeAction a) = normalizeAction a := by
  rcases a with ⟨t, r, p⟩
  rcases p with _ | pf
  · rfl
  · rcases pf <;> rfl

theorem validatedSummary_fixed (o : BrainTurnOutput) :
    jsTrim (validatedSummary o) = validatedSummary o := by
  rcases o with ⟨os, na, mw, sl, ig⟩
  cases os with
  | none =>
    show jsTrim (str "Autonomous turn completed.") = str "Autonomous turn completed."
    decide
  | some s =>
    show jsTrim (if (jsTrim s).isEmpty then str "Autonomous turn completed." else jsTrim s)
      = (if (jsTrim s).isEmpty then str "Autonomous turn completed." else jsTrim s)
    by_cases he : (jsTrim s).isEmpty = true
    · rw [if_pos he]; decide
    · rw [if_neg he]; exact jsTrim_idem s

theorem validatedSummary_nonempty (o : BrainTurnOutput) :
    (validatedSummary o).isEmpty = false := by
  rcases o with ⟨os, na, mw, sl, ig⟩
  cases os with
  | none =>
    show (str "Autonomous turn completed.").isEmpty = false
    decide
  | some s =>
    show (if (jsTrim s).isEmpty then str "Autonomous turn completed." else jsTrim s).isEmpty = false
    by_cases he : (jsTrim s).isEmpty = true
    · rw [if_pos he]; decide
    · rw [if_neg he]
      simpa using he

theorem mem_keptActions_allow {o : BrainTurnOutput} {L : ValidationLimits}
    {P : ValidationOptions} {a : BrainActionRaw} (h : a ∈ keptActions o L P) :
    P.allowlist.contains a.type = true :=
  (List.mem_filter.mp h).2

theorem mem_keptActions_norm {o : BrainTurnOutput} {L : ValidationLimits}
    {P : ValidationOptions} {a : BrainActionRaw} (h : a ∈ keptActions o L P) :
    normalizeAction a = a := by
  have hs : a ∈ slicedActions o L := (List.mem_filter.mp h).1
  unfold slicedActions at hs
  obtain ⟨b, _, hb⟩ := List.mem_map.mp hs
  rw [← hb]
  exact normalizeAction_idem b

theorem keptActions_length_le (o : BrainTurnOutput) (L : ValidationLimits)
    (P : ValidationOptions) :
    (keptActions o L P).length ≤ (max 1 L.maxActions).toNat := by
  unfold keptActions slicedActions
  calc _ ≤ (((o.nextActions.getD []).take (max 1 L.maxActions).toNat).map
              normalizeAction).length := List.length_filter_le _ _
    _ = ((o.nextActions.getD []).take (max 1 L.maxActions).toNat).length :=
        List.length_map _ _
    _ ≤ (max 1 L.maxActions).toNat := by
        rw [List.length_take]; exact Nat.min_le_left _ _

theorem one_le_maxActions_toNat (L : ValidationLimits) :
    1 ≤ (max 1 L.maxActions).toNat := by
  have h : (1 : Int) ≤ max 1 L.maxActions := le_max_left _ _
  omega

theorem mem_finalActions {o : BrainTurnOutput} {L : ValidationLimits}
    {P : ValidationOptions} {a : BrainActionRaw}
    (h : a ∈ finalActions o L P) : a = noopNoActions ∨ a ∈ keptActions o L P := by
  unfold finalActions at h
  by_cases he : (keptActions o L P).isEmpty
  · rw [if_pos he] at h
    left
    simpa using h
  · rw [if_neg he] at h
    exact Or.inr h

theorem finalActions_length_le (o : BrainTurnOutput) (L : ValidationLimits)
    (P : ValidationOptions) :
    (finalActions o L P).length ≤ (max 1 L.maxActions).toNat := by
  unfold finalActions
  by_cases he : (keptActions o L P).isEmpty
  · rw [if_pos he]
    exact one_le_maxActions_toNat L
  · rw [if_neg he]
    exact keptActions_length_le o L P

theorem finalActions_ne_nil (o : BrainTurnOutput) (L : ValidationLimits)
    (P : ValidationOptions) : (finalActions o L P).isEmpty = false := by
  unfold finalActions
  by_cases he : (keptActions o L P).isEmpty
  · rw [if_pos he]; rfl
  · rw [if_neg he]; simpa using he

theorem slicedActions_second (o : BrainTurnOutput) (L : ValidationLimits)
    (P : ValidationOptions) :
    slicedActions (validateBrainTurnOutput o L P).output L = finalActions o L P := by
  show (((some (finalActions o L P)).getD []).take (max 1 L.maxActions).toNat).map
      normalizeAction = finalActions o L P
  rw [Option.getD_some, List.take_of_length_le (finalActions_length_le o L P)]
  apply map_eq_self_of_mem
  intro a ha
  rcases mem_finalActions ha with h | h
  · rw [h]; rfl
  · exact mem_keptActions_norm h

theorem keptActions_second (o : BrainTurnOutput) (L : ValidationLimits)
    (P : ValidationOptions) (hnoop : P.allowlist.contains "noop" = true) :
    keptActions (validateBrainTurnOutput o L P).output L P = finalActions o L P := by
  unfold keptActions
  rw [slicedActions_second]
  apply List.filter_eq_self.mpr
  intro a ha
  rcases mem_finalActions ha with h | h
  · rw [h]; simpa using hnoop
  · simpa using mem_keptActions_allow h

theorem allowlistErrors_second (o : BrainTurnOutput) (L : ValidationLimits)
    (P : ValidationOptions) (hnoop : P.allowlist.contains "noop" = true) :
    allowlistErrors (validateBrainTurnOutput o L P).output L P = [] := by
  unfold allowlistErrors
  rw [slicedActions_second]
  rw [List.filter_eq_nil_iff.mpr, List.map_nil]
  intro a ha
  rcases mem_finalActions ha with h | h
  · rw [h]; simpa using hnoop
  · simpa using mem_keptActions_allow h

theorem summaryMissing_second (o : BrainTurnOutput) (L : ValidationLimits)
    (P : ValidationOptions) :
    summaryMissing (validateBrainTurnOutput o L P).output = false := by
  show (jsTrim (validatedSummary o)).isEmpty = false
  rw [validatedSummary_fixed]
  exact validatedSummary_nonempty o

theorem validate_output_integrity (o : BrainTurnOutput) (L : ValidationLimits)
    (P : ValidationOptions) :
    (validateBrainTurnOutput o L P).output.integrity
      = some (if validationMalformed o L P then "malformed" else "ok") := rfl

theorem validationErrors_second (o : BrainTurnOutput) (L : ValidationLimits)
    (P : ValidationOptions) (hnoop : P.allowlist.contains "noop" = true) :
    validationErrors (validateBrainTurnOutput o L P).output L P
      = (if validationMalformed o L P then ["provider_marked_malformed"] else []) := by
  unfold validationErrors
  rw [allowlistErrors_second o L P hnoop, summaryMissing_second o L P]
  simp only [validate_output_integrity]
  rcases Bool.eq_false_or_eq_true (validationMalformed o L P) with hm | hm <;>
    simp [hm, validateBrainTurnOutput]

theorem validationMalformed_second (o : BrainTurnOutput) (L : ValidationLimits)
    (P : ValidationOptions) (hnoop : P.allowlist.contains "noop" = true) :
    validationMalformed (validateBrainTurnOutput o L P).output L P
      = (P.strictAllowlist && validationMalformed o L P) := by
  rw [show validationMalformed (validateBrainTurnOutput o L P).output L P
      = (if P.strictAllowlist
         then !(validationErrors (validateBrainTurnOutput o L P).output L P).isEmpty
         else (validationErrors (validateBrainTurnOutput o L P).output L P).any
           (fun e => e = "missing_summary" || e = "missing_actions")) from rfl]
  rw [validationErrors_second o L P hnoop]
  cases hm : validationMalformed o L P <;> cases hs : P.strictAllowlist <;> simp

theorem validatedSummary_second (o : BrainTurnOutput) (L : ValidationLimits)
    (P : ValidationOptions) :
    validatedSummary (validateBrainTurnOutput o L P).output = validatedSummary o := by
  show (if (jsTrim (validatedSummary o)).isEmpty then str "Autonomous turn completed."
    else jsTrim (validatedSummary o)) = validatedSummary o
  rw [validatedSummary_fixed, if_neg]
  rw [validatedSummary_nonempty o]
  simp

theorem finalActions_second (o : BrainTurnOutput) (L : ValidationLimits)
    (P : ValidationOptions) (hnoop : P.allowlist.contains "noop" = true) :
    finalActions (validateBrainTurnOutput o L P).output L P = finalActions o L P := by
  unfold finalActions
  rw [keptActions_second o L P hnoop]
  rw [show (finalActions o L P).isEmpty = false from finalActions_ne_nil o L P]
  simp [finalActions]

theorem validatedSleepMs_second (o : BrainTurnOutput) (L : ValidationLimits)
    (P : ValidationOptions) :
    validatedSleepMs (validateBrainTurnOutput o L P).output L = validatedSleepMs o L := by
  show validatedSleepMs
    { summary := _, nextActions := _, memoryWrites := _,
      sleepMs := validatedSleepMs o L, integrity := _ } L = validatedSleepMs o L
  unfold validatedSleepMs
  cases hs : o.sleepMs with
  | none => rfl
  | some n =>
    show some (max 0 (min (max 0 (min n L.maxSleepMs)) L.maxSleepMs)) = _
    congr 1
    omega

/-- `{b with integrity := i}` is `b` itself when `i` is already its tag. -/
theorem withIntegrity_self (b : BrainTurnOutput) (i : Option String)
    (h : b.integrity = i) : { b with integrity := i } = b := by
  cases b
  cases h
  rfl

/-- The limits the runtime passes to the validator under default config
(`maxActionsPerTurn = 6`, `maxSleepMs = 300000`). -/
def runtimeLimits : ValidationLimits := { maxActions := 6, maxSleepMs := 300000 }

/-- `ALLOWED_AUTONOMY_ACTIONS` (`runtime.ts`, lines 54–63). -/
def allowedAutonomyActions : List String :=
  ["send_message", "replicate", "self_modify", "record_fact",
   "record_episode", "invoke_tool", "sleep", "noop"]

/-- The strict validator policy the runtime uses by default. -/
def strictOptions : ValidationOptions :=
  { strictAllowlist := true, allowlist := allowedAutonomyActions }

/-- A provider-marked-malformed output: well-formed summary and actions but
`integrity = "malformed"` (exactly what the brain client returns on parse
failure). -/
def idemCxOutput : BrainTurnOutput :=
  { summary := some (str "go")
    nextActions := some [{ type := "noop", reason := none, params := none }]
    memoryWrites := none
    sleepMs := none
    integrity := some "malformed" }

/-- **C7 counterexample.** The claim "running the validator a second time on
the output produced by `validate(o)` yields a byte-equal output and
`malformed = false`" fails: with the strict policy, an output whose provider
marked it `malformed` validates to an output that still carries
`integrity = "malformed"`, so the second pass records the
`provider_marked_malformed` error again and reports `malformed = true`. -/
theorem validator_idempotence_fails :
    ¬ ((validateBrainTurnOutput
          (validateBrainTurnOutput idemCxOutput runtimeLimits strictOptions).output
          runtimeLimits strictOptions).output
        = (validateBrainTurnOutput idemCxOutput runtimeLimits strictOptions).output
      ∧ (validateBrainTurnOutput
          (validateBrainTurnOutput idemCxOutput runtimeLimits strictOptions).output
          runtimeLimits strictOptions).malformed = false) := by
  decide

/-- **C7 (amended).** Running the validator a second time on the output of
`validate(o)` (same limits, same policy, `noop` allowed) yields an output
that is byte-equal except possibly in the `integrity` tag, and reports
`malformed` exactly when the policy is strict and the first pass was already
malformed; in particular, when the first pass is clean the validator is
idempotent and the second pass reports `malformed = false`. -/
theorem validator_second_pass (o : BrainTurnOutput) (L : ValidationLimits)
    (P : ValidationOptions) (hnoop : P.allowlist.contains "noop" = true) :
    (validateBrainTurnOutput (validateBrainTurnOutput o L P).output L P).malformed
        = (P.strictAllowlist && (validateBrainTurnOutput o L P).malformed)
    ∧ (validateBrainTurnOutput (validateBrainTurnOutput o L P).output L P).output
        = { (validateBrainTurnOutput o L P).output with
            integrity := some
              (if P.strictAllowlist && (validateBrainTurnOutput o L P).malformed
               then "malformed" else "ok") }
    ∧ ((validateBrainTurnOutput o L P).malformed = false →
        (validateBrainTurnOutput (validateBrainTurnOutput o L P).output L P).output
            = (validateBrainTurnOutput o L P).output
        ∧ (validateBrainTurnOutput (validateBrainTurnOutput o L P).output L P).malformed
            = false) := by
  have hm : (validateBrainTurnOutput (validateBrainTurnOutput o L P).output L P).malformed
      = (P.strictAllowlist && (validateBrainTurnOutput o L P).malformed) :=
    validationMalformed_second o L P hnoop
  have hout : (validateBrainTurnOutput (validateBrainTurnOutput o L P).output L P).output
      = { (validateBrainTurnOutput o L P).output with
          integrity := some
            (if P.strictAllowlist && (validateBrainTurnOutput o L P).malformed
             then "malformed" else "ok") } := by
    show ({ summary := some (validatedSummary (validateBrainTurnOutput o L P).output)
            nextActions := some (finalActions (validateBrainTurnOutput o L P).output L P)
            memoryWrites := (validateBrainTurnOutput o L P).output.memoryWrites
            sleepMs := validatedSleepMs (validateBrainTurnOutput o L P).output L
            integrity := some
              (if validationMalformed (validateBrainTurnOutput o L P).output L P
               then "malformed" else "ok") } : BrainTurnOutput) = _
    rw [validatedSummary_second o L P, finalActions_second o L P hnoop,
      validatedSleepMs_second o L P, validationMalformed_second o L P hnoop]
    rfl
  refine ⟨hm, hout, fun hclean => ⟨?_, ?_⟩⟩
  · rw [hout, hclean, Bool.and_false]
    apply withIntegrity_self
    rw [validate_output_integrity]
    rw [show validationMalformed o L P = false from hclean]
  · rw [hm, hclean, Bool.and_false]

/-- Witness for `validator_second_pass` at a concrete input. -/
theorem validator_second_pass_witness :
    (validateBrainTurnOutput
        (validateBrainTurnOutput idemCxOutput runtimeLimits strictOptions).output
        runtimeLimits strictOptions).malformed
      = (strictOptions.strictAllowlist
          && (validateBrainTurnOutput idemCxOutput runtimeLimits strictOptions).malformed) :=
  (validator_second_pass idemCxOutput runtimeLimits strictOptions (by decide)).1

example :
    (validateBrainTurnOutput
      { summary := some (str "go")
        nextActions := some [{ type := "exec", reason := none, params := none },
                             { type := "noop", reason := none, params := none }]
        memoryWrites := none
        sleepMs := none
        integrity := none }
      { maxActions := 6, maxSleepMs := 300000 }
      { strictAllowlist := true,
        allowlist := ["send_message", "replicate", "self_modify", "record_fact",
                      "record_episode", "invoke_tool", "sleep", "noop"] }).errors
    = ["action_not_allowed:exec"] := by decide

example :
    (validateBrainTurnOutput
      { summary := some (str "  go  ")
        nextActions := some []
        memoryWrites := none
        sleepMs := some 999999999
        integrity := none }
      { maxActions := 6, maxSleepMs := 300000 }
      { strictAllowlist := true, allowlist := ["noop"] }).output
    = { summary := some (str "go")
        nextActions := some [{ type := "noop", reason := some "no_actions", params := none }]
        memoryWrites := none
        sleepMs := some 300000
        integrity := some "ok" } := by decide

/-! ## Redaction (`packages/state`, part of `AethernetDatabase`)

`redactText` applies the four `SECRET_VALUE_PATTERNS` regexes in order with
`String.replace(pattern, "[REDACTED]")`; `redactUnknown` walks a JSON value,
replacing values under secret-looking keys and redacting string leaves.

The regex character classes `\w` and the Bearer/hex token classes are ASCII
in JS (no `u` flag); they are modelled exactly.  `\s` is modelled by its
ASCII range (the texts the runtime produces are ASCII). -/

/-- JS regex `\s` (ASCII range), by code point. -/
def isWsCh (c : Char) : Bool :=
  c.toNat = 32 || c.toNat = 9 || c.toNat = 10 || c.toNat = 13
    || c.toNat = 11 || c.toNat = 12

/-- JS regex `\w` = `[A-Za-z0-9_]`, by code point. -/
def isWordCh (c : Char) : Bool :=
  (97 ≤ c.toNat && c.toNat ≤ 122) || (65 ≤ c.toNat && c.toNat ≤ 90)
    || (48 ≤ c.toNat && c.toNat ≤ 57) || c.toNat = 95

/-- The Bearer token class `[A-Za-z0-9._-]`, by code point. -/
def isTokenCh (c : Char) : Bool :=
  (97 ≤ c.toNat && c.toNat ≤ 122) || (65 ≤ c.toNat && c.toNat ≤ 90)
    || (48 ≤ c.toNat && c.toNat ≤ 57) || c.toNat = 46 || c.toNat = 95 || c.toNat = 45

/-- The hex class `[a-fA-F0-9]`, by code point. -/
def isHexCh (c : Char) : Bool :=
  (97 ≤ c.toNat && c.toNat ≤ 102) || (65 ≤ c.toNat && c.toNat ≤ 70)
    || (48 ≤ c.toNat && c.toNat ≤ 57)

/-- The header-value class `[^,\s]`. -/
def isHdrValCh (c : Char) : Bool := !(c = ',') && !(isWsCh c)

/-- `\b` before a pattern whose first character is a word character: holds
at the start of input or after a non-word character. -/
def atWordBoundary (prev : Option Char) : Bool :=
  match prev with
  | none => true
  | some c => !(isWordCh c)

/-- Case-insensitive literal match (for the `i` flag); returns the rest of
the input on success. -/
def matchSegCI : Str → Str → Option Str
  | [], rest => some rest
  | _ :: _, [] => none
  | l :: ls, c :: cs => if l.toLower = c.toLower then matchSegCI ls cs else none

/-- A matcher: given the previous character (for `\b`) and the remaining
input, the length of the match starting here, if any. -/
abbrev Matcher := Option Char → Str → Option Nat

/-- `/\bBearer\s+[A-Za-z0-9._-]+/gi` as a matcher (greedy runs; the classes
are disjoint from `\s`, so maximal-munch equals the regex semantics). -/
def bearerMatch : Matcher := fun prev s =>
  if !atWordBoundary prev then none
  else match matchSegCI (str "Bearer") s with
    | none => none
    | some r1 =>
      let ws := r1.takeWhile isWsCh
      if ws.isEmpty then none
      else
        let r2 := r1.drop ws.length
        let tok := r2.takeWhile isTokenCh
        if tok.isEmpty then none
        else some (6 + ws.length + tok.length)

/-- `/\b0x[a-fA-F0-9]{64}\b/g` as a matcher. -/
def hexMatch : Matcher := fun prev s =>
  if !atWordBoundary prev then none
  else match s with
    | c0 :: c1 :: rest =>
      if c0 = '0' && c1 = 'x' then
        if (rest.take 64).length = 64 && (rest.take 64).all isHexCh then
          match rest.drop 64 with
          | [] => some 66
          | d :: _ => if isWordCh d then none else some 66
        else none
      else none
    | _ => none

/-- One alternative of a header pattern:
`<name>\s*:\s*[^,\s]+` (case-insensitive name). -/
def hdrMatchOne (name : Str) (s : Str) : Option Nat :=
  match matchSegCI name s with
  | none => none
  | some r1 =>
    let ws1 := r1.takeWhile isWsCh
    match r1.drop ws1.length with
    | c :: r3 =>
      if c = ':' then
        let ws2 := r3.takeWhile isWsCh
        let run := (r3.drop ws2.length).takeWhile isHdrValCh
        if run.isEmpty then none
        else some (name.length + ws1.length + 1 + ws2.length + run.length)
      else none
    | [] => none

/-- `/(x-erc8128-signature|x-request-signature)\s*:\s*[^,\s]+/gi`. -/
def hdrSigMatch : Matcher := fun _ s =>
  (hdrMatchOne (str "x-erc8128-signature") s).orElse
    (fun _ => hdrMatchOne (str "x-request-signature") s)

/-- `/(x-erc8128-nonce|x-request-nonce)\s*:\s*[^,\s]+/gi`. -/
def hdrNonceMatch : Matcher := fun _ s =>
  (hdrMatchOne (str "x-erc8128-nonce") s).orElse
    (fun _ => hdrMatchOne (str "x-request-nonce") s)

/-- The replacement text `REDACTED = "[REDACTED]"`. -/
def redactedText : Str := str "[REDACTED]"

/-- `value.replace(pattern, "[REDACTED]")` with a global regex: scan left to
right over the input; each non-overlapping match is replaced; matching
continues on the input after the match (JS `replace` matches against the
original string, not the partially built result).  The scan is written with
explicit fuel (one unit per consumed character) so it reduces structurally;
`scanReplace` supplies enough fuel for the whole input. -/
def scanReplaceF (m : Matcher) : Nat → Option Char → Str → Str
  | 0, _, s => s
  | _ + 1, _, [] => []
  | fuel + 1, prev, c :: rest =>
    match m prev (c :: rest) with
    | some (n + 1) =>
      redactedText ++ scanReplaceF m fuel (((c :: rest).take (n + 1)).getLast?) (rest.drop n)
    | _ => c :: scanReplaceF m fuel (some c) rest

def scanReplace (m : Matcher) (prev : Option Char) (s : Str) : Str :=
  scanReplaceF m s.length prev s

/-- `redactText` (`packages/state`): the fold of the four
`SECRET_VALUE_PATTERNS` replacements, in source order. -/
def redactText (value : Str) : Str :=
  scanReplace hdrNonceMatch none
    (scanReplace hdrSigMatch none
      (scanReplace hexMatch none
        (scanReplace bearerMatch none value)))

/-- `SECRET_KEY_PATTERN.test(key)`: the alternation
`(api[_-]?key|private[_-]?key|passphrase|authorization|auth[_-]?header|secret|token|ciphertext|salt|iv|tag|signature)`
with the `i` flag, expanded into its finitely many alternatives. -/
def secretKeyTest (k : String) : Bool :=
  let low := k.data.map Char.toLower
  [str "api_key", str "api-key", str "apikey",
   str "private_key", str "private-key", str "privatekey",
   str "passphrase", str "authorization",
   str "auth_header", str "auth-header", str "authheader",
   str "secret", str "token", str "ciphertext",
   str "salt", str "iv", str "tag", str "signature"].any
    (fun p => containsSeg p low)

/-- A JSON value as stored in metadata columns. -/
inductive JsonVal where
  | jstr (s : Str)
  | jnum (n : Int)
  | jbool (b : Bool)
  | jnull
  | jarr (items : List JsonVal)
  | jobj (entries : List (String × JsonVal))

mutual

/-- `redactUnknown` (`packages/state`): strings through `redactText`,
arrays element-wise, objects with secret-matching keys forced to
`"[REDACTED]"`, other values unchanged. -/
def redactUnknown : JsonVal → JsonVal
  | .jstr s => .jstr (redactText s)
  | .jnum n => .jnum n
  | .jbool b => .jbool b
  | .jnull => .jnull
  | .jarr items => .jarr (redactUnknownList items)
  | .jobj entries => .jobj (redactUnknownEntries entries)

def redactUnknownList : List JsonVal → List JsonVal
  | [] => []
  | v :: vs => redactUnknown v :: redactUnknownList vs

def redactUnknownEntries : List (String × JsonVal) → List (String × JsonVal)
  | [] => []
  | (k, v) :: rest =>
    (if secretKeyTest k then (k, .jstr redactedText) else (k, redactUnknown v))
      :: redactUnknownEntries rest

end

/-! ### Redaction proof infrastructure -/

/-- Matcher well-formedness: matches are nonempty and fit the input. -/
def MatcherWf (m : Matcher) : Prop :=
  ∀ prev s n, m prev s = some n → 1 ≤ n ∧ n ≤ s.length

/-- The replace-scan as a relation: `out` is the result of replacing every
match of `m` in the input, threading the previous character. -/
inductive ReplacedFrom (m : Matcher) : Option Char → Str → Str → Prop where
  | nil (prev : Option Char) : ReplacedFrom m prev [] []
  | keep (prev : Option Char) (c : Char) (rest out : Str) :
      m prev (c :: rest) = none →
      ReplacedFrom m (some c) rest out →
      ReplacedFrom m prev (c :: rest) (c :: out)
  | repl (prev : Option Char) (c : Char) (rest : Str) (n : Nat) (out : Str) :
      m prev (c :: rest) = some (n + 1) →
      ReplacedFrom m (((c :: rest).take (n + 1)).getLast?) (rest.drop n) out →
      ReplacedFrom m prev (c :: rest) (redactedText ++ out)

/-- There is a match of `m` at some position of the input (the position's
previous character threaded from `prev`). -/
def hasMatch (m : Matcher) : Option Char → Str → Bool
  | _, [] => false
  | prev, c :: rest => (m prev (c :: rest)).isSome || hasMatch m (some c) rest

theorem hasMatch_cons (m : Matcher) (prev : Option Char) (c : Char) (rest : Str) :
    hasMatch m prev (c :: rest)
      = ((m prev (c :: rest)).isSome || hasMatch m (some c) rest) := rfl

theorem scanReplaceF_rel (m : Matcher) (hwf : MatcherWf m) :
    ∀ (fuel : Nat) (prev : Option Char) (s : Str), s.length ≤ fuel →
      ReplacedFrom m prev s (scanReplaceF m fuel prev s) := by
  intro fuel
  induction fuel with
  | zero =>
    intro prev s hlen
    have hs : s = [] := List.length_eq_zero.mp (Nat.le_zero.mp hlen)
    subst hs
    exact ReplacedFrom.nil prev
  | succ f ih =>
    intro prev s hlen
    match s with
    | [] => exact ReplacedFrom.nil prev
    | c :: rest =>
      cases hm : m prev (c :: rest) with
      | none =>
        have : scanReplaceF m (f + 1) prev (c :: rest)
            = c :: scanReplaceF m f (some c) rest := by
          simp [scanReplaceF, hm]
        rw [this]
        exact ReplacedFrom.keep prev c rest _ hm
          (ih (some c) rest (by simp only [List.length_cons] at hlen; omega))
      | some n =>
        obtain ⟨h1, h2⟩ := hwf prev (c :: rest) n hm
        obtain ⟨k, rfl⟩ : ∃ k, n = k + 1 := ⟨n - 1, by omega⟩
        have : scanReplaceF m (f + 1) prev (c :: rest)
            = redactedText
              ++ scanReplaceF m f (((c :: rest).take (k + 1)).getLast?) (rest.drop k) := by
          simp [scanReplaceF, hm]
        rw [this]
        refine ReplacedFrom.repl prev c rest k _ hm (ih _ _ ?_)
        have : (rest.drop k).length = rest.length - k := List.length_drop k rest
        simp only [List.length_cons] at hlen
        omega

theorem scanReplace_rel (m : Matcher) (hwf : MatcherWf m) (prev : Option Char) (s : Str) :
    ReplacedFrom m prev s (scanReplace m prev s) :=
  scanReplaceF_rel m hwf s.length prev s (le_refl _)

/-- Skipping a block none of whose characters can start a match. -/
theorem hasMatch_block (m : Matcher) (startCond : Char → Bool)
    (hstart : ∀ p d u, (m p (d :: u)).isSome = true → startCond d = true) :
    ∀ (blk : Str) (p : Option Char) (r : Str), (∀ d ∈ blk, startCond d = false) →
      hasMatch m p (blk ++ r) = hasMatch m (blk.foldl (fun _ d => some d) p) r := by
  intro blk
  induction blk with
  | nil => intro p r _; rfl
  | cons d bs ih =>
    intro p r hblk
    rw [List.cons_append, hasMatch_cons]
    have hd : (m p (d :: (bs ++ r))).isSome = false := by
      cases hsome : (m p (d :: (bs ++ r))).isSome
      · rfl
      · have := hstart p d (bs ++ r) hsome
        rw [hblk d (List.mem_cons_self d bs)] at this
        cases this
    rw [hd, Bool.false_or, ih (some d) r (fun e he => hblk e (List.mem_cons_of_mem d he))]
    rfl

/-- A failed scan has no match at any later position either. -/
theorem hasMatch_suffix_false (m : Matcher) :
    ∀ (x : Str) (p : Option Char) (y : Str), hasMatch m p (x ++ y) = false →
      hasMatch m (x.foldl (fun _ d => some d) p) y = false := by
  intro x
  induction x with
  | nil => intro p y h; exact h
  | cons d bs ih =>
    intro p y h
    rw [List.cons_append, hasMatch_cons, Bool.or_eq_false_iff] at h
    exact ih (some d) y h.2

theorem foldl_some_getLast? {l : Str} (p : Option Char) (h : l ≠ []) :
    l.foldl (fun _ d => some d) p = l.getLast? := by
  induction l generalizing p with
  | nil => cases h rfl
  | cons c rest ih =>
    cases rest with
    | nil => rfl
    | cons e u =>
      show List.foldl (fun _ d => some d) (some c) (e :: u) = (c :: e :: u).getLast?
      rw [ih (some c) (by simp), List.getLast?_cons_cons]

/-- Splitting an append against a pattern decomposition: either the pattern
part fits inside `x`, or the distinguished character `b` occurs in it. -/
theorem append_split_or_mem {α : Type} (x L R : List α) (b : α) (yr : List α)
    (h : x ++ b :: yr = L ++ R) : (∃ rem, x = L ++ rem) ∨ b ∈ L := by
  induction L generalizing x with
  | nil => exact Or.inl ⟨x, rfl⟩
  | cons d L' ih =>
    cases x with
    | nil =>
      simp only [List.nil_append, List.cons_append] at h
      injection h with h1 h2
      exact Or.inr (h1 ▸ List.mem_cons_self d L')
    | cons e x' =>
      simp only [List.cons_append] at h
      injection h with h1 h2
      rcases ih x' h2 with ⟨rem, rfl⟩ | hmem
      · exact Or.inl ⟨rem, by rw [h1]; rfl⟩
      · exact Or.inr (List.mem_cons_of_mem _ hmem)

/-! ### Character-class and literal-matching lemmas -/

theorem ws_not_token {c : Char} (h : isWsCh c = true) : isTokenCh c = false := by
  unfold isWsCh at h
  unfold isTokenCh
  simp only [Bool.or_eq_true, Bool.and_eq_true, decide_eq_true_eq,
    Bool.or_eq_false_iff, Bool.and_eq_false_iff, decide_eq_false_iff_not] at h ⊢
  omega

theorem token_not_ws {c : Char} (h : isTokenCh c = true) : isWsCh c = false := by
  cases hw : isWsCh c
  · rfl
  · rw [ws_not_token hw] at h; cases h

theorem hex_word {c : Char} (h : isHexCh c = true) : isWordCh c = true := by
  unfold isHexCh at h
  unfold isWordCh
  simp only [Bool.or_eq_true, Bool.and_eq_true, decide_eq_true_eq] at h ⊢
  omega

theorem toLower_eq_b {c : Char} (h : c.toLower = 'b') : c = 'b' ∨ c = 'B' := by
  unfold Char.toLower at h
  by_cases hr : c.toNat ≥ 65 ∧ c.toNat ≤ 90
  · rw [if_pos hr] at h
    have hc := (Char.ofNat_toNat c).symm
    obtain ⟨h1, h2⟩ := hr
    generalize hgen : c.toNat = n at h h1 h2 hc
    interval_cases n <;>
      first
      | exact absurd h (by decide)
      | (right; exact hc.trans (by decide))
  · rw [if_neg hr] at h
    exact Or.inl h

theorem toLower_b_token {d : Char} (h : d.toLower = 'b') : isTokenCh d = true := by
  rcases toLower_eq_b h with rfl | rfl <;> decide

theorem toLower_b_word {d : Char} (h : d.toLower = 'b') : isWordCh d = true := by
  rcases toLower_eq_b h with rfl | rfl <;> decide

/-- Case-insensitive segment equality (same length, `toLower`-equal). -/
def ciEqSeg : Str → Str → Bool
  | [], [] => true
  | a :: as, b :: bs => (a.toLower = b.toLower) && ciEqSeg as bs
  | _, _ => false

theorem ciEqSeg_length : ∀ {pat lit : Str}, ciEqSeg pat lit = true → lit.length = pat.length := by
  intro pat
  induction pat with
  | nil => intro lit h; cases lit with
    | nil => rfl
    | cons b bs => cases h
  | cons a as ih =>
    intro lit h
    cases lit with
    | nil => cases h
    | cons b bs =>
      simp only [ciEqSeg, Bool.and_eq_true] at h
      simp [ih h.2]

theorem ciEqSeg_mem : ∀ {pat lit : Str}, ciEqSeg pat lit = true → ∀ c ∈ lit,
    ∃ pc ∈ pat, pc.toLower = c.toLower := by
  intro pat
  induction pat with
  | nil => intro lit h c hc; cases lit with
    | nil => cases hc
    | cons b bs => cases h
  | cons a as ih =>
    intro lit h c hc
    cases lit with
    | nil => cases h
    | cons b bs =>
      simp only [ciEqSeg, Bool.and_eq_true, decide_eq_true_eq] at h
      rcases List.mem_cons.mp hc with rfl | hc'
      · exact ⟨a, List.mem_cons_self a as, h.1⟩
      · obtain ⟨pc, hpc, hpceq⟩ := ih h.2 c hc'
        exact ⟨pc, List.mem_cons_of_mem a hpc, hpceq⟩

theorem matchSegCI_decomp : ∀ {pat s r : Str}, matchSegCI pat s = some r →
    ∃ lit, s = lit ++ r ∧ ciEqSeg pat lit = true := by
  intro pat
  induction pat with
  | nil =>
    intro s r h
    cases s with
    | nil => cases h; exact ⟨[], rfl, rfl⟩
    | cons c cs => cases h; exact ⟨[], rfl, rfl⟩
  | cons a as ih =>
    intro s r h
    cases s with
    | nil => cases h
    | cons c cs =>
      unfold matchSegCI at h
      by_cases he : a.toLower = c.toLower
      · rw [if_pos he] at h
        obtain ⟨lit, rfl, hci⟩ := ih h
        exact ⟨c :: lit, rfl, by simp [ciEqSeg, he, hci]⟩
      · rw [if_neg he] at h
        cases h

theorem matchSegCI_of_ciEq : ∀ {pat lit : Str}, ciEqSeg pat lit = true →
    ∀ r, matchSegCI pat (lit ++ r) = some r := by
  intro pat
  induction pat with
  | nil => intro lit h r; cases lit with
    | nil => rfl
    | cons b bs => cases h
  | cons a as ih =>
    intro lit h r
    cases lit with
    | nil => cases h
    | cons b bs =>
      simp only [ciEqSeg, Bool.and_eq_true, decide_eq_true_eq] at h
      show matchSegCI (a :: as) (b :: (bs ++ r)) = some r
      unfold matchSegCI
      rw [if_pos h.1]
      exact ih h.2 r

theorem drop_takeWhile_length (p : Char → Bool) (l : Str) :
    l.drop (l.takeWhile p).length = l.dropWhile p := by
  nth_rewrite 2 [← List.takeWhile_append_dropWhile p l]
  rw [List.drop_left]

theorem takeWhile_ne_nil_head {p : Char → Bool} {l : Str}
    (h : (l.takeWhile p).isEmpty = false) : ∃ c rest, l = c :: rest ∧ p c = true := by
  cases l with
  | nil => cases h
  | cons c rest =>
    refine ⟨c, rest, rfl, ?_⟩
    by_cases hp : p c = true
    · exact hp
    · simp [List.takeWhile_cons, hp] at h

theorem takeWhile_append_all {p : Char → Bool} :
    ∀ {ws : Str} {c : Char} {rest : Str}, (∀ w ∈ ws, p w = true) → p c = false →
      (ws ++ c :: rest).takeWhile p = ws := by
  intro ws
  induction ws with
  | nil =>
    intro c rest _ hc
    simp [List.takeWhile_cons, hc]
  | cons w ws' ih =>
    intro c rest hws hc
    have hw : p w = true := hws w (List.mem_cons_self w ws')
    simp only [List.cons_append, List.takeWhile_cons, hw, if_true]
    rw [ih (fun x hx => hws x (List.mem_cons_of_mem w hx)) hc]

theorem mem_takeWhile_pred {p : Char → Bool} {l : Str} {c : Char}
    (h : c ∈ l.takeWhile p) : p c = true := by
  induction l with
  | nil => cases h
  | cons d rest ih =>
    rw [List.takeWhile_cons] at h
    by_cases hd : p d = true
    · rw [if_pos (by simp [hd])] at h
      rcases List.mem_cons.mp h with rfl | h'
      · exact hd
      · exact ih h'
    · rw [if_neg (by simpa using hd)] at h
      cases h

/-- Canonical decomposition of a replaced string: either nothing was
replaced, or there is a kept prefix, a first replaced match, and a tail. -/
theorem ReplacedFrom.decomp {m : Matcher} {p : Option Char} {t out : Str}
    (h : ReplacedFrom m p t out) :
    out = t ∨ ∃ (a t₂ o₂ : Str), t = a ++ t₂ ∧ out = a ++ redactedText ++ o₂
      ∧ (m (a.foldl (fun _ d => some d) p) t₂).isSome = true ∧ t₂ ≠ [] := by
  induction h with
  | nil prev => exact Or.inl rfl
  | keep prev c rest outt hm hrel ih =>
    rcases ih with rfl | ⟨a, t₂, o₂, h1, h2, h3, h4⟩
    · exact Or.inl rfl
    · refine Or.inr ⟨c :: a, t₂, o₂, by rw [h1]; rfl, by rw [h2]; rfl, ?_, h4⟩
      rw [List.foldl_cons]
      exact h3
  | repl prev c rest n outt hm hrel ih =>
    exact Or.inr ⟨[], c :: rest, outt, rfl, rfl, by rw [List.foldl_nil, hm]; rfl, by simp⟩

/-! ### Bearer matcher lemmas -/

/-- What a Bearer match requires of the input: a case-insensitive `Bearer`
literal, at least one whitespace character, then at least one token
character. -/
def BearerShape (s : Str) : Prop :=
  ∃ lit ws c rest, s = lit ++ ws ++ c :: rest ∧ ciEqSeg (str "Bearer") lit = true
    ∧ ws ≠ [] ∧ (∀ w ∈ ws, isWsCh w = true) ∧ isTokenCh c = true

theorem bearerMatch_isSome_iff {p : Option Char} {s : Str} :
    (bearerMatch p s).isSome = true ↔ (atWordBoundary p = true ∧ BearerShape s) := by
  constructor
  · intro h
    unfold bearerMatch at h
    by_cases hb : atWordBoundary p = true
    · rw [if_neg (by simp [hb])] at h
      refine ⟨hb, ?_⟩
      cases hseg : matchSegCI (str "Bearer") s with
      | none => rw [hseg] at h; cases h
      | some r1 =>
        rw [hseg] at h
        simp only at h
        by_cases h1 : (r1.takeWhile isWsCh).isEmpty
        · rw [if_pos h1] at h; cases h
        · rw [if_neg h1] at h
          by_cases h2 :
              ((r1.drop (r1.takeWhile isWsCh).length).takeWhile isTokenCh).isEmpty
          · rw [if_pos h2] at h; cases h
          · obtain ⟨lit, rfl, hci⟩ := matchSegCI_decomp hseg
            obtain ⟨c, rest, hr2, hc⟩ :=
              takeWhile_ne_nil_head (l := r1.drop (r1.takeWhile isWsCh).length)
                (by simpa using h2)
            rw [drop_takeWhile_length] at hr2
            have hr1 : r1 = r1.takeWhile isWsCh ++ (c :: rest) := by
              rw [← hr2, List.takeWhile_append_dropWhile]
            refine ⟨lit, r1.takeWhile isWsCh, c, rest, ?_, hci, ?_, ?_, hc⟩
            · conv_lhs => rw [hr1]
              rw [← List.append_assoc]
            · simpa using h1
            · exact fun w hw => mem_takeWhile_pred hw
    · rw [if_pos (by simpa using hb)] at h
      cases h
  · rintro ⟨hb, lit, ws, c, rest, rfl, hci, hwsne, hws, hc⟩
    unfold bearerMatch
    rw [if_neg (by simp [hb])]
    have hseg : matchSegCI (str "Bearer") (lit ++ (ws ++ c :: rest)) = some (ws ++ c :: rest) :=
      matchSegCI_of_ciEq hci _
    rw [List.append_assoc, hseg]
    simp only
    have htw : (ws ++ c :: rest).takeWhile isWsCh = ws :=
      takeWhile_append_all hws (token_not_ws hc)
    rw [htw]
    rw [if_neg (by simpa using hwsne)]
    rw [List.drop_left]
    have htok : ((c :: rest).takeWhile isTokenCh).isEmpty = false := by
      rw [List.takeWhile_cons, if_pos (by simp [hc])]
      rfl
    rw [if_neg (by simp [htok])]
    rfl

theorem bearerMatch_wf : MatcherWf bearerMatch := by
  intro prev s n h
  unfold bearerMatch at h
  by_cases hb : atWordBoundary prev = true
  · rw [if_neg (by simp [hb])] at h
    cases hseg : matchSegCI (str "Bearer") s with
    | none => rw [hseg] at h; cases h
    | some r1 =>
      rw [hseg] at h
      simp only at h
      by_cases h1 : (r1.takeWhile isWsCh).isEmpty
      · rw [if_pos h1] at h; cases h
      · rw [if_neg h1] at h
        by_cases h2 :
            ((r1.drop (r1.takeWhile isWsCh).length).takeWhile isTokenCh).isEmpty
        · rw [if_pos h2] at h; cases h
        · rw [if_neg h2] at h
          injection h with hn
          obtain ⟨lit, rfl, hci⟩ := matchSegCI_decomp hseg
          have hlit : lit.length = 6 := ciEqSeg_length hci
          have hws_le : (r1.takeWhile isWsCh).length ≤ r1.length :=
            List.Sublist.length_le (List.takeWhile_sublist _)
          have htok_le :
              ((r1.drop (r1.takeWhile isWsCh).length).takeWhile isTokenCh).length
                ≤ (r1.drop (r1.takeWhile isWsCh).length).length :=
            List.Sublist.length_le (List.takeWhile_sublist _)
          rw [List.length_drop] at htok_le
          rw [List.length_append, hlit]
          omega
  · rw [if_pos (by simpa using hb)] at h
    cases h

theorem bearer_boundary {p : Option Char} {s : Str}
    (h : (bearerMatch p s).isSome = true) : atWordBoundary p = true :=
  (bearerMatch_isSome_iff.mp h).1

theorem bearer_start {p : Option Char} {d : Char} {u : Str}
    (h : (bearerMatch p (d :: u)).isSome = true) : d.toLower = 'b' := by
  obtain ⟨-, lit, ws, c, rest, heq, hci, -, -, -⟩ := bearerMatch_isSome_iff.mp h
  cases lit with
  | nil => cases hci
  | cons l0 lit' =>
    simp only [List.cons_append] at heq
    injection heq with h1 _
    simp only [ciEqSeg, Bool.and_eq_true, decide_eq_true_eq] at hci
    rw [h1]
    exact hci.1.symm.trans (by decide)

theorem bearer_after {p : Option Char} {s : Str} {n : Nat}
    (hm : bearerMatch p s = some (n + 1)) :
    ∀ d u, s.drop (n + 1) = d :: u → isTokenCh d = false := by
  intro d u hdrop
  unfold bearerMatch at hm
  by_cases hb : atWordBoundary p = true
  · rw [if_neg (by simp [hb])] at hm
    cases hseg : matchSegCI (str "Bearer") s with
    | none => rw [hseg] at hm; cases hm
    | some r1 =>
      rw [hseg] at hm
      simp only at hm
      by_cases h1 : (r1.takeWhile isWsCh).isEmpty
      · rw [if_pos h1] at hm; cases hm
      · rw [if_neg h1] at hm
        by_cases h2 :
            ((r1.drop (r1.takeWhile isWsCh).length).takeWhile isTokenCh).isEmpty
        · rw [if_pos h2] at hm; cases hm
        · rw [if_neg h2] at hm
          injection hm with hn
          obtain ⟨lit, rfl, hci⟩ := matchSegCI_decomp hseg
          have hlit : lit.length = 6 := ciEqSeg_length hci
          have hsum : n + 1 = lit.length
              + ((r1.takeWhile isWsCh).length
                + ((r1.drop (r1.takeWhile isWsCh).length).takeWhile isTokenCh).length) := by
            rw [hlit]
            omega
          rw [hsum, List.drop_append] at hdrop
          rw [← List.drop_drop, drop_takeWhile_length] at hdrop
          rw [drop_takeWhile_length] at hdrop
          exact dropWhile_head_false isTokenCh _ d u hdrop
  · rw [if_pos (by simpa using hb)] at hm
    cases hm

theorem redactedText_head :
    redactedText = '[' :: str "REDACTED]" := rfl

/-- A position kept by any replacement scan cannot acquire a Bearer match:
the replacement block `[REDACTED]` can neither contain nor border the
literal/whitespace/token prefix a Bearer match needs. -/
theorem bearer_keep {Q : Matcher} {p : Option Char} {c : Char} {t out : Str}
    (hm : bearerMatch p (c :: t) = none)
    (hrel : ReplacedFrom Q (some c) t out) :
    bearerMatch p (c :: out) = none := by
  cases hres : bearerMatch p (c :: out) with
  | none => rfl
  | some k =>
    exfalso
    have hhit : (bearerMatch p (c :: out)).isSome = true := by rw [hres]; rfl
    obtain ⟨hb, lit, ws, ch, rest, heq, hci, hwsne, hws, hch⟩ :=
      bearerMatch_isSome_iff.mp hhit
    have hchars : ∀ d, d ∈ (lit ++ ws) ++ [ch] → d ≠ '[' := by
      intro d hd hdeq
      subst hdeq
      rcases List.mem_append.mp hd with hd' | hd'
      · rcases List.mem_append.mp hd' with hd'' | hd''
        · obtain ⟨pc, hpc, hpceq⟩ := ciEqSeg_mem hci _ hd''
          have : pc ∈ ['B', 'e', 'a', 'r', 'e', 'r'] := hpc
          simp only [List.mem_cons, List.not_mem_nil, or_false] at this
          rcases this with rfl|rfl|rfl|rfl|rfl|rfl <;> exact absurd hpceq (by decide)
        · exact absurd (hws _ hd'') (by decide)
      · simp only [List.mem_singleton] at hd'
        subst hd'
        exact absurd hch (by decide)
    rcases ReplacedFrom.decomp hrel with hout | ⟨a, t₂, o₂, ht, hout, hj, hne⟩
    · subst hout
      rw [hm] at hres
      cases hres
    · have hco : c :: out = (c :: a) ++ '[' :: (str "REDACTED]" ++ o₂) := by
        rw [hout, redactedText_head]
        simp [List.append_assoc]
      have heq' : (c :: a) ++ '[' :: (str "REDACTED]" ++ o₂)
          = ((lit ++ ws) ++ [ch]) ++ rest := by
        rw [← hco, heq, ← List.append_cons]
      rcases append_split_or_mem (c :: a) ((lit ++ ws) ++ [ch]) rest '['
          (str "REDACTED]" ++ o₂) heq' with ⟨rem, hx⟩ | hmem
      · have hhit_t : (bearerMatch p (c :: t)).isSome = true := by
          apply bearerMatch_isSome_iff.mpr
          refine ⟨hb, lit, ws, ch, rem ++ t₂, ?_, hci, hwsne, hws, hch⟩
          have : c :: t = (c :: a) ++ t₂ := by rw [ht]; rfl
          rw [this, hx]
          simp only [List.append_assoc, List.singleton_append, List.cons_append,
            List.nil_append]
        rw [hm] at hhit_t
        cases hhit_t
      · exact hchars '[' hmem rfl

/-- The only characters that can start a Bearer match. -/
def bearerStart (d : Char) : Bool := d.toLower = 'b'

theorem bearerStart_of_isSome : ∀ (p : Option Char) (d : Char) (u : Str),
    (bearerMatch p (d :: u)).isSome = true → bearerStart d = true := by
  intro p d u h
  unfold bearerStart
  simp only [decide_eq_true_eq]
  exact bearer_start h

theorem bearerStart_redacted : ∀ d ∈ redactedText, bearerStart d = false := by decide

theorem not_token_not_bearerStart {d : Char} (h : isTokenCh d = false) :
    bearerStart d = false := by
  cases hb : bearerStart d
  · rfl
  · unfold bearerStart at hb
    simp only [decide_eq_true_eq] at hb
    rw [toLower_b_token hb] at h
    cases h

/-- The position right at the start of a replaced tail matches for every
previous character or for none: the head is either a kept character that
cannot start a match, or the `[` of a replacement block. -/
theorem hasMatch_indep (m Q : Matcher) (startCond : Char → Bool)
    (hstart : ∀ p d u, (m p (d :: u)).isSome = true → startCond d = true)
    (hrepl : ∀ d ∈ redactedText, startCond d = false)
    {prev' : Option Char} {t' outt : Str} (hrel : ReplacedFrom Q prev' t' outt)
    (hhead : ∀ d u, t' = d :: u → startCond d = false) (q : Option Char) :
    hasMatch m q outt = hasMatch m prev' outt := by
  cases hrel with
  | nil => rfl
  | keep p2 c2 rest2 out2 hm2 hrel2 =>
    rw [hasMatch_cons, hasMatch_cons]
    have hc2 : startCond c2 = false := hhead c2 rest2 rfl
    have hnone : ∀ r, (m r (c2 :: out2)).isSome = false := by
      intro r
      cases hs : (m r (c2 :: out2)).isSome
      · rfl
      · rw [hstart r c2 out2 hs] at hc2; cases hc2
    rw [hnone q, hnone prev']
  | repl p2 c2 rest2 n2 out2 hm2 hrel2 =>
    rw [hasMatch_block m startCond hstart redactedText q out2 hrepl,
      hasMatch_block m startCond hstart redactedText prev' out2 hrepl]
    have hq : redactedText.foldl (fun _ d => some d) q = some ']' := rfl
    have hp : redactedText.foldl (fun _ d => some d) prev' = some ']' := rfl
    rw [hq, hp]

/-- After the Bearer replacement pass, no Bearer match remains. -/
theorem bearer_no_match_self :
    ∀ {p : Option Char} {s out : Str}, ReplacedFrom bearerMatch p s out →
      hasMatch bearerMatch p out = false := by
  intro p s out h
  induction h with
  | nil prev => rfl
  | keep prev c rest outt hm hrel ih =>
    rw [hasMatch_cons, bearer_keep hm hrel]
    simpa using ih
  | repl prev c rest n outt hm hrel ih =>
    rw [hasMatch_block bearerMatch bearerStart bearerStart_of_isSome
      redactedText prev outt bearerStart_redacted]
    rw [show redactedText.foldl (fun _ d => some d) prev = some ']' from rfl]
    rw [hasMatch_indep bearerMatch bearerMatch bearerStart bearerStart_of_isSome
      bearerStart_redacted hrel
      (fun d u hd => not_token_not_bearerStart (bearer_after hm d u hd))]
    exact ih

/-- Replacing matches of another pattern cannot introduce a Bearer match:
the block characters cannot take part in one, and the character after any
replaced match cannot start one. -/
theorem bearer_preserved (Q : Matcher)
    (hQafter : ∀ (p : Option Char) (c : Char) (t : Str) (n : Nat),
      Q p (c :: t) = some (n + 1) →
      ∀ d u, (c :: t).drop (n + 1) = d :: u → bearerStart d = false) :
    ∀ {p : Option Char} {t out : Str}, ReplacedFrom Q p t out →
      hasMatch bearerMatch p t = false → hasMatch bearerMatch p out = false := by
  intro p t out hrel
  induction hrel with
  | nil prev => intro h; rfl
  | keep prev c rest outt hm hrel2 ih =>
    intro h
    rw [hasMatch_cons, Bool.or_eq_false_iff] at h
    rw [hasMatch_cons]
    have hnone : bearerMatch prev (c :: rest) = none := by
      cases hb : bearerMatch prev (c :: rest)
      · rfl
      · rw [hb] at h
        cases h.1
    rw [bearer_keep hnone hrel2]
    simp only [Option.isSome_none, Bool.false_or]
    exact ih h.2
  | repl prev c rest n outt hm hrel2 ih =>
    intro h
    rw [hasMatch_block bearerMatch bearerStart bearerStart_of_isSome
      redactedText prev outt bearerStart_redacted]
    rw [show redactedText.foldl (fun _ d => some d) prev = some ']' from rfl]
    rw [hasMatch_indep bearerMatch Q bearerStart bearerStart_of_isSome
      bearerStart_redacted hrel2 (fun d u hd => hQafter prev c rest n hm d u hd)]
    have hsplit : ((c :: rest).take (n + 1)) ++ rest.drop n = c :: rest :=
      List.take_append_drop (n + 1) (c :: rest)
    rw [← hsplit] at h
    have htail := hasMatch_suffix_false bearerMatch _ _ _ h
    have htake_ne : (c :: rest).take (n + 1) ≠ [] := by simp
    rw [foldl_some_getLast? prev htake_ne] at htail
    exact ih htail

/-! ### Hex matcher lemmas -/

/-- What a hex match requires of the input: `0x`, exactly 64 hex digits,
and then no word character. -/
def HexShape (s : Str) : Prop :=
  ∃ h64 rest, s = '0' :: 'x' :: (h64 ++ rest) ∧ h64.length = 64
    ∧ (∀ d ∈ h64, isHexCh d = true)
    ∧ (rest = [] ∨ ∃ d u, rest = d :: u ∧ isWordCh d = false)

theorem hexMatch_eq_some_iff {p : Option Char} {s : Str} {n : Nat} :
    hexMatch p s = some n → n = 66 := by
  intro h
  unfold hexMatch at h
  by_cases hb : atWordBoundary p = true
  · rw [if_neg (by simp [hb])] at h
    match s with
    | [] => cases h
    | [c0] => cases h
    | c0 :: c1 :: rest =>
      simp only at h
      by_cases hg : (c0 = '0' && c1 = 'x') = true
      · rw [if_pos hg] at h
        by_cases hh : ((rest.take 64).length = 64 && (rest.take 64).all isHexCh) = true
        · rw [if_pos hh] at h
          cases hd : rest.drop 64 with
          | nil => rw [hd] at h; injection h with h; omega
          | cons d u =>
            rw [hd] at h
            simp only at h
            by_cases hw : isWordCh d = true
            · rw [if_pos hw] at h; cases h
            · rw [if_neg hw] at h; injection h with h; omega
        · rw [if_neg hh] at h; cases h
      · rw [if_neg hg] at h; cases h
  · rw [if_pos (by simpa using hb)] at h
    cases h

theorem hexMatch_isSome_iff {p : Option Char} {s : Str} :
    (hexMatch p s).isSome = true ↔ (atWordBoundary p = true ∧ HexShape s) := by
  constructor
  · intro h
    unfold hexMatch at h
    by_cases hb : atWordBoundary p = true
    · rw [if_neg (by simp [hb])] at h
      refine ⟨hb, ?_⟩
      match s with
      | [] => cases h
      | [c0] => cases h
      | c0 :: c1 :: rest =>
        simp only at h
        by_cases hg : (c0 = '0' && c1 = 'x') = true
        · rw [if_pos hg] at h
          by_cases hh : ((rest.take 64).length = 64 && (rest.take 64).all isHexCh) = true
          · rw [if_pos hh] at h
            simp only [Bool.and_eq_true, decide_eq_true_eq] at hg hh
            refine ⟨rest.take 64, rest.drop 64, ?_, hh.1, ?_, ?_⟩
            · rw [hg.1, hg.2, List.take_append_drop]
            · intro d hd
              exact List.all_eq_true.mp hh.2 d hd
            · cases hd : rest.drop 64 with
              | nil => exact Or.inl rfl
              | cons d u =>
                rw [hd] at h
                simp only at h
                by_cases hw : isWordCh d = true
                · rw [if_pos hw] at h; cases h
                · exact Or.inr ⟨d, u, rfl, by simpa using hw⟩
          · rw [if_neg hh] at h; cases h
        · rw [if_neg hg] at h; cases h
    · rw [if_pos (by simpa using hb)] at h
      cases h
  · rintro ⟨hb, h64, rest, rfl, hlen, hhex, htrail⟩
    unfold hexMatch
    rw [if_neg (by simp [hb])]
    simp only
    rw [if_pos (by decide)]
    have htake : (h64 ++ rest).take 64 = h64 := by
      rw [← hlen]; exact List.take_left h64 rest
    have hdrop : (h64 ++ rest).drop 64 = rest := by
      rw [← hlen]; exact List.drop_left h64 rest
    rw [if_pos (by
      rw [htake]
      simp only [Bool.and_eq_true, decide_eq_true_eq]
      exact ⟨hlen, List.all_eq_true.mpr (fun d hd => hhex d hd)⟩)]
    rw [hdrop]
    rcases htrail with rfl | ⟨d, u, rfl, hw⟩
    · rfl
    · show (if isWordCh d = true then (none : Option Nat) else some 66).isSome = true
      rw [if_neg (by simp [hw])]
      rfl

theorem hexMatch_wf : MatcherWf hexMatch := by
  intro prev s n h
  have h66 := hexMatch_eq_some_iff h
  subst h66
  refine ⟨by omega, ?_⟩
  have hs : (hexMatch prev s).isSome = true := by rw [h]; rfl
  obtain ⟨-, h64, rest, rfl, hlen, -, -⟩ := hexMatch_isSome_iff.mp hs
  simp only [List.length_cons, List.length_append]
  omega

theorem hex_boundary {p : Option Char} {s : Str}
    (h : (hexMatch p s).isSome = true) : atWordBoundary p = true :=
  (hexMatch_isSome_iff.mp h).1

/-- The only character that can start a hex match. -/
def hexStart (d : Char) : Bool := d = '0'

theorem hexStart_of_isSome : ∀ (p : Option Char) (d : Char) (u : Str),
    (hexMatch p (d :: u)).isSome = true → hexStart d = true := by
  intro p d u h
  obtain ⟨-, h64, rest, heq, -, -, -⟩ := hexMatch_isSome_iff.mp h
  injection heq with h1 _
  simp [hexStart, h1]

theorem hexStart_redacted : ∀ d ∈ redactedText, hexStart d = false := by decide

theorem not_word_not_hexStart {d : Char} (h : isWordCh d = false) :
    hexStart d = false := by
  cases hb : hexStart d
  · rfl
  · unfold hexStart at hb
    simp only [decide_eq_true_eq] at hb
    subst hb
    cases h

theorem hex_after {p : Option Char} {s : Str} {n : Nat}
    (hm : hexMatch p s = some (n + 1)) :
    ∀ d u, s.drop (n + 1) = d :: u → isWordCh d = false := by
  intro d u hdrop
  have h66 := hexMatch_eq_some_iff hm
  have hs : (hexMatch p s).isSome = true := by rw [hm]; rfl
  obtain ⟨-, h64, rest, rfl, hlen, -, htrail⟩ := hexMatch_isSome_iff.mp hs
  have hdrop66 : ('0' :: 'x' :: (h64 ++ rest)).drop (n + 1) = rest := by
    rw [h66]
    show (h64 ++ rest).drop 64 = rest
    rw [← hlen]
    exact List.drop_left h64 rest
  rw [hdrop66] at hdrop
  rcases htrail with rfl | ⟨d', u', heq, hw⟩
  · cases hdrop
  · rw [heq] at hdrop
    injection hdrop with h1 _
    rw [h1] at hw
    exact hw

/-- A position kept by the hex scan cannot acquire a hex match from later
replacements: the block characters cannot appear inside the `0x`+64-hex
region, and at an exact junction the replaced match's own leading `\b`
would have been violated. -/
theorem hex_keep {p : Option Char} {c : Char} {t out : Str}
    (hm : hexMatch p (c :: t) = none)
    (hrel : ReplacedFrom hexMatch (some c) t out) :
    hexMatch p (c :: out) = none := by
  cases hres : hexMatch p (c :: out) with
  | none => rfl
  | some k =>
    exfalso
    have hhit : (hexMatch p (c :: out)).isSome = true := by rw [hres]; rfl
    obtain ⟨hb, h64, rest, heq, hlen, hhex, htrail⟩ := hexMatch_isSome_iff.mp hhit
    rcases ReplacedFrom.decomp hrel with hout | ⟨a, t₂, o₂, ht, hout, hj, hne⟩
    · subst hout
      rw [hm] at hres
      cases hres
    · have hco : c :: out = (c :: a) ++ '[' :: (str "REDACTED]" ++ o₂) := by
        rw [hout, redactedText_head]
        simp [List.append_assoc]
      have heq' : (c :: a) ++ '[' :: (str "REDACTED]" ++ o₂)
          = ('0' :: 'x' :: h64) ++ rest := by
        rw [← hco, heq]
        simp [List.cons_append]
      rcases append_split_or_mem (c :: a) ('0' :: 'x' :: h64) rest '['
          (str "REDACTED]" ++ o₂) heq' with ⟨rem, hx⟩ | hmem
      · have hrest : rest = rem ++ '[' :: (str "REDACTED]" ++ o₂) := by
          apply @List.append_cancel_left _ ('0' :: 'x' :: h64)
          rw [← heq', hx]
          simp [List.append_assoc]
        cases rem with
        | nil =>
          obtain ⟨e, u, rfl⟩ : ∃ e u, t₂ = e :: u := by
            cases t₂ with
            | nil => cases hne rfl
            | cons e u => exact ⟨e, u, rfl⟩
          have hjb : atWordBoundary (a.foldl (fun _ d => some d) (some c)) = true :=
            hex_boundary hj
          have hfold : a.foldl (fun _ d => some d) (some c) = (c :: a).getLast? := by
            have hstep : (c :: a).foldl (fun _ d => some d) p
                = a.foldl (fun _ d => some d) (some c) := rfl
            rw [← hstep]
            exact foldl_some_getLast? p (by simp)
          have hca : c :: a = '0' :: 'x' :: h64 := by simpa using hx
          obtain ⟨h0, h64t, rfl⟩ : ∃ h0 h64t, h64 = h0 :: h64t := by
            cases h64 with
            | nil => cases hlen
            | cons h0 h64t => exact ⟨h0, h64t, rfl⟩
          obtain ⟨dl, hdl⟩ : ∃ dl, (h0 :: h64t).getLast? = some dl :=
            Option.isSome_iff_exists.mp (by
              rw [List.getLast?_isSome]
              simp)
          have hlast : (c :: a).getLast? = some dl := by
            rw [hca, List.getLast?_cons_cons, List.getLast?_cons_cons]
            exact hdl
          rw [hfold, hlast] at hjb
          have hdw : isWordCh dl = true :=
            hex_word (hhex dl (List.mem_of_getLast?_eq_some hdl))
          simp [atWordBoundary, hdw] at hjb
        | cons d rem' =>
          have hdnw : isWordCh d = false := by
            rcases htrail with hnil | ⟨d', u', heqr, hw⟩
            · rw [hrest] at hnil
              cases hnil
            · rw [hrest] at heqr
              simp only [List.cons_append] at heqr
              injection heqr with h1 _
              rw [← h1] at hw
              exact hw
          have hhit_t : (hexMatch p (c :: t)).isSome = true := by
            apply hexMatch_isSome_iff.mpr
            refine ⟨hb, h64, d :: (rem' ++ t₂), ?_, hlen, hhex, Or.inr ⟨d, rem' ++ t₂, rfl, hdnw⟩⟩
            have hct : c :: t = (c :: a) ++ t₂ := by rw [ht]; rfl
            rw [hct, hx]
            simp [List.append_assoc, List.cons_append]
          rw [hm] at hhit_t
          cases hhit_t
      · simp only [List.mem_cons] at hmem
        rcases hmem with h1 | h1 | h1
        · cases h1
        · cases h1
        · exact absurd (hex_word (hhex '[' h1)) (by decide)

/-- After the hex replacement pass, no hex match remains. -/
theorem hex_no_match_self :
    ∀ {p : Option Char} {s out : Str}, ReplacedFrom hexMatch p s out →
      hasMatch hexMatch p out = false := by
  intro p s out h
  induction h with
  | nil prev => rfl
  | keep prev c rest outt hm hrel ih =>
    rw [hasMatch_cons, hex_keep hm hrel]
    simp only [Option.isSome_none, Bool.false_or]
    exact ih
  | repl prev c rest n outt hm hrel ih =>
    rw [hasMatch_block hexMatch hexStart hexStart_of_isSome
      redactedText prev outt hexStart_redacted]
    rw [show redactedText.foldl (fun _ d => some d) prev = some ']' from rfl]
    rw [hasMatch_indep hexMatch hexMatch hexStart hexStart_of_isSome
      hexStart_redacted hrel
      (fun d u hd => not_word_not_hexStart (hex_after hm d u hd))]
    exact ih

/-! ### Header matcher lemmas -/

theorem hdrMatchOne_wf {name s : Str} {n : Nat} (h : hdrMatchOne name s = some n) :
    1 ≤ n ∧ n ≤ s.length := by
  unfold hdrMatchOne at h
  cases hseg : matchSegCI name s with
  | none => rw [hseg] at h; cases h
  | some r1 =>
    rw [hseg] at h
    simp only at h
    cases hdc : r1.drop (r1.takeWhile isWsCh).length with
    | nil => rw [hdc] at h; cases h
    | cons c r3 =>
      rw [hdc] at h
      simp only at h
      by_cases hc : c = ':'
      · rw [if_pos hc] at h
        by_cases hrun : ((r3.drop (r3.takeWhile isWsCh).length).takeWhile isHdrValCh).isEmpty
        · rw [if_pos hrun] at h; cases h
        · rw [if_neg hrun] at h
          injection h with hn
          obtain ⟨lit, rfl, hci⟩ := matchSegCI_decomp hseg
          have hlit := ciEqSeg_length hci
          have hr1len : (c :: r3).length ≤ r1.length - (r1.takeWhile isWsCh).length := by
            rw [← hdc, List.length_drop]
          have hws1 : (r1.takeWhile isWsCh).length ≤ r1.length :=
            List.Sublist.length_le (List.takeWhile_sublist _)
          have hws2 : (r3.takeWhile isWsCh).length ≤ r3.length :=
            List.Sublist.length_le (List.takeWhile_sublist _)
          have hrle :
              ((r3.drop (r3.takeWhile isWsCh).length).takeWhile isHdrValCh).length
                ≤ (r3.drop (r3.takeWhile isWsCh).length).length :=
            List.Sublist.length_le (List.takeWhile_sublist _)
          rw [List.length_drop] at hrle
          simp only [List.length_cons] at hr1len
          rw [List.length_append, hlit]
          omega
      · rw [if_neg hc] at h; cases h

theorem hdrMatchOne_after {name s : Str} {n : Nat}
    (h : hdrMatchOne name s = some (n + 1)) :
    ∀ d u, s.drop (n + 1) = d :: u → isHdrValCh d = false := by
  intro d u hdrop
  unfold hdrMatchOne at h
  cases hseg : matchSegCI name s with
  | none => rw [hseg] at h; cases h
  | some r1 =>
    rw [hseg] at h
    simp only at h
    cases hdc : r1.drop (r1.takeWhile isWsCh).length with
    | nil => rw [hdc] at h; cases h
    | cons c r3 =>
      rw [hdc] at h
      simp only at h
      by_cases hc : c = ':'
      · rw [if_pos hc] at h
        by_cases hrun : ((r3.drop (r3.takeWhile isWsCh).length).takeWhile isHdrValCh).isEmpty
        · rw [if_pos hrun] at h; cases h
        · rw [if_neg hrun] at h
          injection h with hn
          obtain ⟨lit, rfl, hci⟩ := matchSegCI_decomp hseg
          have hlit := ciEqSeg_length hci
          have hr1 : r1 = r1.takeWhile isWsCh ++ (c :: r3) := by
            conv_lhs => rw [← List.takeWhile_append_dropWhile isWsCh r1]
            rw [← drop_takeWhile_length isWsCh r1, hdc]
          have hdrop' : (lit ++ r1).drop (n + 1)
              = (r3.drop (r3.takeWhile isWsCh).length).drop
                  ((r3.drop (r3.takeWhile isWsCh).length).takeWhile isHdrValCh).length := by
            have hsum : n + 1 = lit.length + ((r1.takeWhile isWsCh).length
                + (((r3.takeWhile isWsCh).length
                  + ((r3.drop (r3.takeWhile isWsCh).length).takeWhile isHdrValCh).length)
                    + 1)) := by
              rw [hlit]
              omega
            rw [hsum, List.drop_append, ← List.drop_drop, hdc, List.drop_succ_cons,
              ← List.drop_drop]
          rw [hdrop'] at hdrop
          rw [drop_takeWhile_length] at hdrop
          exact dropWhile_head_false isHdrValCh _ d u hdrop
      · rw [if_neg hc] at h; cases h

theorem not_hdrVal_not_bearerStart {d : Char} (h : isHdrValCh d = false) :
    bearerStart d = false := by
  cases hb : bearerStart d
  · rfl
  · unfold bearerStart at hb
    simp only [decide_eq_true_eq] at hb
    rcases toLower_eq_b hb with rfl | rfl <;> cases h

theorem not_word_not_bearerStart {d : Char} (h : isWordCh d = false) :
    bearerStart d = false := by
  cases hb : bearerStart d
  · rfl
  · unfold bearerStart at hb
    simp only [decide_eq_true_eq] at hb
    rw [toLower_b_word hb] at h
    cases h

theorem orElse_some {a : Option Nat} {f : Unit → Option Nat} {n : Nat}
    (h : (a.orElse f) = some n) : a = some n ∨ f () = some n := by
  cases a with
  | none => exact Or.inr h
  | some k =>
    left
    rw [show (Option.some k).orElse f = some k from rfl] at h
    exact h

theorem hdrSigMatch_wf : MatcherWf hdrSigMatch := by
  intro prev s n h
  rcases orElse_some h with h' | h' <;> exact hdrMatchOne_wf h'

theorem hdrNonceMatch_wf : MatcherWf hdrNonceMatch := by
  intro prev s n h
  rcases orElse_some h with h' | h' <;> exact hdrMatchOne_wf h'

theorem hdrSigMatch_after : ∀ (p : Option Char) (c : Char) (t : Str) (n : Nat),
    hdrSigMatch p (c :: t) = some (n + 1) →
    ∀ d u, (c :: t).drop (n + 1) = d :: u → bearerStart d = false := by
  intro p c t n h d u hd
  rcases orElse_some h with h' | h' <;>
    exact not_hdrVal_not_bearerStart (hdrMatchOne_after h' d u hd)

theorem hdrNonceMatch_after : ∀ (p : Option Char) (c : Char) (t : Str) (n : Nat),
    hdrNonceMatch p (c :: t) = some (n + 1) →
    ∀ d u, (c :: t).drop (n + 1) = d :: u → bearerStart d = false := by
  intro p c t n h d u hd
  rcases orElse_some h with h' | h' <;>
    exact not_hdrVal_not_bearerStart (hdrMatchOne_after h' d u hd)

theorem hexMatch_after_bearer : ∀ (p : Option Char) (c : Char) (t : Str) (n : Nat),
    hexMatch p (c :: t) = some (n + 1) →
    ∀ d u, (c :: t).drop (n + 1) = d :: u → bearerStart d = false := by
  intro p c t n h d u hd
  exact not_word_not_bearerStart (hex_after h d u hd)

/-! ### The redaction guarantees -/

/-- `redactText` leaves no anchored Bearer occurrence: the Bearer pass
removes them all and the later passes cannot re-create one. -/
theorem redactText_no_bearer (s : Str) :
    hasMatch bearerMatch none (redactText s) = false := by
  unfold redactText
  have h1 : hasMatch bearerMatch none (scanReplace bearerMatch none s) = false :=
    bearer_no_match_self (scanReplace_rel bearerMatch bearerMatch_wf none s)
  have h2 := bearer_preserved hexMatch hexMatch_after_bearer
    (scanReplace_rel hexMatch hexMatch_wf none (scanReplace bearerMatch none s)) h1
  have h3 := bearer_preserved hdrSigMatch hdrSigMatch_after
    (scanReplace_rel hdrSigMatch hdrSigMatch_wf none
      (scanReplace hexMatch none (scanReplace bearerMatch none s))) h2
  exact bearer_preserved hdrNonceMatch hdrNonceMatch_after
    (scanReplace_rel hdrNonceMatch hdrNonceMatch_wf none _) h3

/-- Immediately after the hex pass, no anchored hex occurrence remains.  The
later header passes can re-expose one by replacing the word characters that
followed a 64-hex run with the non-word `[` of the redaction marker. -/
theorem hexPass_no_hex (s : Str) :
    hasMatch hexMatch none (scanReplace hexMatch none (scanReplace bearerMatch none s))
      = false :=
  hex_no_match_self (scanReplace_rel hexMatch hexMatch_wf none _)

/-- A value that is exactly the `"[REDACTED]"` string leaf. -/
def isRedactedLeaf : JsonVal → Bool
  | .jstr s => s = redactedText
  | _ => false

mutual

/-- Every value stored under a secret-matching key is the redacted leaf. -/
def secretsRedacted : JsonVal → Bool
  | .jstr _ => true
  | .jnum _ => true
  | .jbool _ => true
  | .jnull => true
  | .jarr items => secretsRedactedList items
  | .jobj entries => secretsRedactedEntries entries

def secretsRedactedList : List JsonVal → Bool
  | [] => true
  | v :: vs => secretsRedacted v && secretsRedactedList vs

def secretsRedactedEntries : List (String × JsonVal) → Bool
  | [] => true
  | (k, v) :: rest =>
    (if secretKeyTest k then isRedactedLeaf v else secretsRedacted v)
      && secretsRedactedEntries rest

end

mutual

/-- Every string leaf is free of anchored Bearer matches. -/
def noBearerTexts : JsonVal → Bool
  | .jstr s => !(hasMatch bearerMatch none s)
  | .jnum _ => true
  | .jbool _ => true
  | .jnull => true
  | .jarr items => noBearerTextsList items
  | .jobj entries => noBearerTextsEntries entries

def noBearerTextsList : List JsonVal → Bool
  | [] => true
  | v :: vs => noBearerTexts v && noBearerTextsList vs

def noBearerTextsEntries : List (String × JsonVal) → Bool
  | [] => true
  | (_, v) :: rest => noBearerTexts v && noBearerTextsEntries rest

end

mutual

theorem secretsRedacted_redactUnknown :
    ∀ v : JsonVal, secretsRedacted (redactUnknown v) = true
  | .jstr _ => rfl
  | .jnum _ => rfl
  | .jbool _ => rfl
  | .jnull => rfl
  | .jarr items => secretsRedactedList_redactUnknown items
  | .jobj entries => secretsRedactedEntries_redactUnknown entries

theorem secretsRedactedList_redactUnknown :
    ∀ l : List JsonVal, secretsRedactedList (redactUnknownList l) = true
  | [] => rfl
  | v :: vs => by
    show (secretsRedacted (redactUnknown v) && secretsRedactedList (redactUnknownList vs))
      = true
    rw [secretsRedacted_redactUnknown v, secretsRedactedList_redactUnknown vs]
    rfl

theorem secretsRedactedEntries_redactUnknown :
    ∀ l : List (String × JsonVal), secretsRedactedEntries (redactUnknownEntries l) = true
  | [] => rfl
  | (k, v) :: rest => by
    show secretsRedactedEntries
        ((if secretKeyTest k then (k, .jstr redactedText) else (k, redactUnknown v))
          :: redactUnknownEntries rest) = true
    by_cases hk : secretKeyTest k = true
    · rw [if_pos hk]
      show ((if secretKeyTest k then isRedactedLeaf (.jstr redactedText)
          else secretsRedacted (.jstr redactedText))
        && secretsRedactedEntries (redactUnknownEntries rest)) = true
      rw [if_pos hk, secretsRedactedEntries_redactUnknown rest]
      rfl
    · rw [if_neg hk]
      show ((if secretKeyTest k then isRedactedLeaf (redactUnknown v)
          else secretsRedacted (redactUnknown v))
        && secretsRedactedEntries (redactUnknownEntries rest)) = true
      rw [if_neg hk, secretsRedacted_redactUnknown v,
        secretsRedactedEntries_redactUnknown rest]
      rfl

end

mutual

theorem noBearerTexts_redactUnknown :
    ∀ v : JsonVal, noBearerTexts (redactUnknown v) = true
  | .jstr s => by
    show (!(hasMatch bearerMatch none (redactText s))) = true
    rw [redactText_no_bearer s]
    rfl
  | .jnum _ => rfl
  | .jbool _ => rfl
  | .jnull => rfl
  | .jarr items => noBearerTextsList_redactUnknown items
  | .jobj entries => noBearerTextsEntries_redactUnknown entries

theorem noBearerTextsList_redactUnknown :
    ∀ l : List JsonVal, noBearerTextsList (redactUnknownList l) = true
  | [] => rfl
  | v :: vs => by
    show (noBearerTexts (redactUnknown v) && noBearerTextsList (redactUnknownList vs)) = true
    rw [noBearerTexts_redactUnknown v, noBearerTextsList_redactUnknown vs]
    rfl

theorem noBearerTextsEntries_redactUnknown :
    ∀ l : List (String × JsonVal), noBearerTextsEntries (redactUnknownEntries l) = true
  | [] => rfl
  | (k, v) :: rest => by
    by_cases hk : secretKeyTest k = true
    · show noBearerTextsEntries
        ((if secretKeyTest k then (k, .jstr redactedText) else (k, redactUnknown v))
          :: redactUnknownEntries rest) = true
      rw [if_pos hk]
      show (noBearerTexts (.jstr redactedText)
        && noBearerTextsEntries (redactUnknownEntries rest)) = true
      rw [noBearerTextsEntries_redactUnknown rest]
      simp [noBearerTexts]
      decide
    · show noBearerTextsEntries
        ((if secretKeyTest k then (k, .jstr redactedText) else (k, redactUnknown v))
          :: redactUnknownEntries rest) = true
      rw [if_neg hk]
      show (noBearerTexts (redactUnknown v)
        && noBearerTextsEntries (redactUnknownEntries rest)) = true
      rw [noBearerTexts_redactUnknown v, noBearerTextsEntries_redactUnknown rest]
      rfl

end

/-! ### Decimal strings (JS `String(n)` / `Number(s)` for naturals) -/

def digitChar : Nat → Char
  | 0 => '0' | 1 => '1' | 2 => '2' | 3 => '3' | 4 => '4'
  | 5 => '5' | 6 => '6' | 7 => '7' | 8 => '8' | _ => '9'

def natToStrF : Nat → Nat → Str
  | 0, _ => []
  | fuel + 1, n =>
    if n < 10 then [digitChar n]
    else natToStrF fuel (n / 10) ++ [digitChar (n % 10)]

/-- JS `String(n)` for a natural number. -/
def natToStr (n : Nat) : Str := natToStrF (n + 1) n

def parseNatAux : Str → Nat → Option Nat
  | [], acc => some acc
  | c :: rest, acc =>
    if 48 ≤ c.toNat ∧ c.toNat ≤ 57 then parseNatAux rest (acc * 10 + (c.toNat - 48))
    else none

/-- JS `Number(s)` restricted to nonnegative decimal integers; `none` stands
for `NaN`. -/
def parseNat (s : Str) : Option Nat := parseNatAux s 0

theorem digitChar_toNat {d : Nat} (h : d < 10) : (digitChar d).toNat = 48 + d := by
  interval_cases d <;> rfl

theorem parseNatAux_append {a : Str} {acc v : Nat} (b : Str)
    (h : parseNatAux a acc = some v) : parseNatAux (a ++ b) acc = parseNatAux b v := by
  induction a generalizing acc with
  | nil =>
    injection h with h
    rw [h]
    rfl
  | cons c rest ih =>
    rw [List.cons_append]
    unfold parseNatAux at h
    by_cases hc : 48 ≤ c.toNat ∧ c.toNat ≤ 57
    · rw [if_pos hc] at h
      show (if 48 ≤ c.toNat ∧ c.toNat ≤ 57 then
          parseNatAux (rest ++ b) (acc * 10 + (c.toNat - 48)) else none) = parseNatAux b v
      rw [if_pos hc]
      exact ih h
    · rw [if_neg hc] at h
      cases h

theorem natToStrF_parse : ∀ (fuel n : Nat), n < fuel →
    parseNat (natToStrF fuel n) = some n := by
  intro fuel
  induction fuel with
  | zero => intro n h; omega
  | succ f ih =>
    intro n h
    unfold natToStrF
    by_cases h10 : n < 10
    · rw [if_pos h10]
      unfold parseNat parseNatAux
      rw [if_pos (by rw [digitChar_toNat h10]; omega)]
      rw [digitChar_toNat h10]
      show parseNatAux [] (0 * 10 + (48 + n - 48)) = some n
      unfold parseNatAux
      congr 1
      omega
    · rw [if_neg h10]
      have hdiv : n / 10 < f := by omega
      have hpre := ih (n / 10) hdiv
      unfold parseNat at hpre ⊢
      rw [parseNatAux_append _ hpre]
      unfold parseNatAux
      rw [if_pos (by rw [digitChar_toNat (Nat.mod_lt n (by omega))]; omega)]
      rw [digitChar_toNat (Nat.mod_lt n (by omega))]
      show parseNatAux [] (n / 10 * 10 + (48 + n % 10 - 48)) = some n
      unfold parseNatAux
      congr 1
      omega

/-- `Number(String(n)) = n`. -/
theorem parseNat_natToStr (n : Nat) : parseNat (natToStr n) = some n :=
  natToStrF_parse (n + 1) n (by omega)

example : natToStr 2026 = str "2026" := by decide
example : parseNat (str "451") = some 451 := by decide

example : redactText (str "Bearer abc123") = str "[REDACTED]" := by decide
example : redactText (str "token Bearer abc, done") = str "token [REDACTED], done" := by decide
example : redactText (str "xBearer abc") = str "xBearer abc" := by decide
example : redactText (str "x-request-nonce: 42,ok") = str "[REDACTED],ok" := by decide
example :
    secretKeyTest "apiKey" = true ∧ secretKeyTest "PRIVATE-KEY" = true
      ∧ secretKeyTest "count" = false := by decide

/-! ### The state store (`AethernetDatabase`, src/unnamed/part_018)

Rows carry identifiers and enum-like columns as `String`, free text as `Str`,
JSON metadata as `JsonVal` and ISO timestamps as `Nat` milliseconds.  SQLite
tables become Lean lists in insertion order; `ulid()` identifiers and
`new Date()` clock reads are passed in by the caller. -/

structure AuditEntry where
  id : String
  timestamp : Nat
  category : String
  action : String
  details : Option Str

structure TurnRow where
  id : String
  timestamp : Nat
  state : String
  input : Option Str
  output : Option Str
  metadata : JsonVal

structure IncidentRow where
  id : String
  code : String
  severity : String
  category : String
  message : Str
  metadata : JsonVal
  timestamp : Nat

structure AlertRow where
  id : String
  code : String
  severity : String
  route : String
  message : Str
  metadata : JsonVal
  timestamp : Nat

structure TelemetryRow where
  id : String
  turnId : String
  survivalTier : String
  estimatedUsd : Nat
  queueDepth : Nat
  spendProxyUsd : Nat
  actionsTotal : Nat
  actionFailures : Nat
  brainDurationMs : Nat
  brainFailures : Nat
  metadata : JsonVal
  createdAt : Nat

structure UnlockSessionRow where
  id : String
  address : String
  createdAt : Nat
  expiresAt : Nat
  revokedAt : Option Nat

structure SelfModMutation where
  id : String
  path : String
  beforeHash : Option String
  afterHash : String
  reason : Option String
  createdAt : Nat

structure RollbackPoint where
  id : String
  mutationId : String
  path : String
  rollbackHash : String
  createdAt : Nat

structure EmergencyState where
  enabled : Bool
  reason : Option Str
  updatedAt : Nat

/-- A value held in the `kv` table.  The runtime writes either plain strings
(`setKV`) or, for the self-mod timestamp list, `JSON.stringify` of a number
array (`setJsonKV`); the constructor records which. -/
inductive KvVal where
  | s (v : String)
  | nums (v : List Nat)
deriving DecidableEq

structure AethernetDatabase where
  kv : List (String × KvVal)
  auditEntries : List AuditEntry
  turns : List TurnRow
  runtimeIncidents : List IncidentRow
  runtimeAlerts : List AlertRow
  turnTelemetry : List TelemetryRow
  unlockSessions : List UnlockSessionRow
  selfModMutations : List SelfModMutation
  selfModRollbacks : List RollbackPoint
  survivalSnapshots : List String
  emergency : EmergencyState

def emptyDb : AethernetDatabase :=
  { kv := [], auditEntries := [], turns := [], runtimeIncidents := []
  , runtimeAlerts := [], turnTelemetry := [], unlockSessions := []
  , selfModMutations := [], selfModRollbacks := [], survivalSnapshots := []
  , emergency := { enabled := false, reason := none, updatedAt := 0 } }

/-- `redactText(value?: string | null)` on an optional argument: `undefined`
stays `undefined`. -/
def redactTextOpt : Option Str → Option Str
  | none => none
  | some s => some (redactText s)

def getKVVal (db : AethernetDatabase) (key : String) : Option KvVal :=
  (db.kv.find? (fun p => p.1 = key)).map Prod.snd

/-- `JSON.stringify` of a number array, over naturals. -/
def jsonNumsBody : List Nat → Str
  | [] => []
  | [x] => natToStr x
  | x :: y :: xs => natToStr x ++ ',' :: jsonNumsBody (y :: xs)

def jsonNums (l : List Nat) : Str := '[' :: (jsonNumsBody l ++ [']'])

/-- `getKV`: the stored text of the row, if any. -/
def getKV (db : AethernetDatabase) (key : String) : Option String :=
  match getKVVal db key with
  | some (.s v) => some v
  | some (.nums l) => some (String.mk (jsonNums l))
  | none => none

def setKVVal (db : AethernetDatabase) (key : String) (value : KvVal) : AethernetDatabase :=
  { db with kv := (key, value) :: db.kv.filter (fun p => ¬ p.1 = key) }

/-- `setKV` upserts a plain string value. -/
def setKV (db : AethernetDatabase) (key : String) (value : String) : AethernetDatabase :=
  setKVVal db key (.s value)

/-- `setJsonKV` on a number array: store `JSON.stringify(value)`. -/
def setJsonNumsKV (db : AethernetDatabase) (key : String) (value : List Nat) : AethernetDatabase :=
  setKVVal db key (.nums value)

/-- `getLatestSurvivalSnapshot()?.tier`: the most recent survival tier. -/
def getLatestSurvivalTier (db : AethernetDatabase) : Option String :=
  db.survivalSnapshots.getLast?

def insertAudit (db : AethernetDatabase) (e : AuditEntry) : AethernetDatabase :=
  { db with auditEntries :=
      db.auditEntries ++ [{ e with details := redactTextOpt e.details }] }

def insertTurn (db : AethernetDatabase) (t : TurnRow) : AethernetDatabase :=
  { db with turns :=
      db.turns ++ [{ t with
        input := redactTextOpt t.input
        output := redactTextOpt t.output
        metadata := redactUnknown t.metadata }] }

def insertRuntimeIncident (db : AethernetDatabase) (r : IncidentRow) : AethernetDatabase :=
  { db with runtimeIncidents :=
      db.runtimeIncidents ++ [{ r with
        message := redactText r.message
        metadata := redactUnknown r.metadata }] }

def insertAlertEvent (db : AethernetDatabase) (a : AlertRow) : AethernetDatabase :=
  { db with runtimeAlerts :=
      db.runtimeAlerts ++ [{ a with
        message := redactText a.message
        metadata := redactUnknown a.metadata }] }

def insertTurnTelemetry (db : AethernetDatabase) (t : TelemetryRow) : AethernetDatabase :=
  { db with turnTelemetry :=
      db.turnTelemetry ++ [{ t with metadata := redactUnknown t.metadata }] }

def createUnlockSession (db : AethernetDatabase) (id address : String)
    (now expiresAt : Nat) : AethernetDatabase :=
  { db with unlockSessions := db.unlockSessions ++
      [{ id := id, address := address, createdAt := now, expiresAt := expiresAt
       , revokedAt := none }] }

/-- `revokeUnlockSessions()` with no address filter: stamp `revoked_at` on
every session not yet revoked. -/
def revokeUnlockSessions (db : AethernetDatabase) (now : Nat) : AethernetDatabase :=
  { db with unlockSessions := db.unlockSessions.map (fun s =>
      if s.revokedAt = none then { s with revokedAt := some now } else s) }

def insertSelfModMutation (db : AethernetDatabase) (m : SelfModMutation) : AethernetDatabase :=
  { db with selfModMutations := db.selfModMutations ++ [m] }

def insertRollbackPoint (db : AethernetDatabase) (r : RollbackPoint) : AethernetDatabase :=
  { db with selfModRollbacks := db.selfModRollbacks ++ [r] }

/-- Insert into a list kept in descending key order (stable for ties). -/
def insertDesc {α : Type} (key : α → Nat) (x : α) : List α → List α
  | [] => [x]
  | y :: ys => if key y < key x then x :: y :: ys else y :: insertDesc key x ys

/-- `ORDER BY <key> DESC`: descending insertion sort. -/
def sortDesc {α : Type} (key : α → Nat) : List α → List α
  | [] => []
  | x :: xs => insertDesc key x (sortDesc key xs)

/-- `ORDER BY created_at DESC LIMIT ?` over the rollback table. -/
def listRollbackPoints (db : AethernetDatabase) (limit : Nat) : List RollbackPoint :=
  ((sortDesc (fun r => r.createdAt) db.selfModRollbacks).take limit)

/-! ### C8: redaction at insertion -/

/-- A 64-character hex run. -/
def hex64a : Str := List.replicate 64 'a'

/-- An incident whose message carries a 0x-prefixed 64-hex secret directly
followed by a request-nonce header. -/
def cxIncident : IncidentRow :=
  { id := "i1", code := "ACTION_FAILED", severity := "error", category := "runtime"
  , message := str "0x" ++ hex64a ++ str "x-request-nonce: v"
  , metadata := .jobj [], timestamp := 0 }

/-- C8 counterexample: the persisted fields are not always free of
`0x`-prefixed 64-hex-digit substrings.  The hex pass runs before the header
passes, so when a later pass replaces the word characters that cancelled the
trailing `\b` of a 64-hex run, the stored incident message again contains a
full match of the hex secret pattern. -/
theorem redaction_hex_survives_insertion :
    (insertRuntimeIncident emptyDb cxIncident).runtimeIncidents.map IncidentRow.message
      = [str "0x" ++ hex64a ++ str "[REDACTED]"]
    ∧ hasMatch hexMatch none (str "0x" ++ hex64a ++ str "[REDACTED]") = true := by
  decide

/-- C8 (amended): every store insert persists `redactText` of its free-text
fields and `redactUnknown` of its metadata, and those outputs satisfy the
reachable guarantees: no anchored Bearer occurrence in any persisted text or
metadata string leaf, every metadata value under a secret-matching key forced
to the `"[REDACTED]"` leaf, and no anchored 64-hex occurrence at the point the
hex pass has run. -/
theorem redaction_at_insertion (db : AethernetDatabase) (r : IncidentRow)
    (a : AlertRow) (t : TurnRow) (s : Str) (m : JsonVal) :
    (insertRuntimeIncident db r).runtimeIncidents
      = db.runtimeIncidents
          ++ [{ r with message := redactText r.message,
                       metadata := redactUnknown r.metadata }]
    ∧ (insertAlertEvent db a).runtimeAlerts
      = db.runtimeAlerts
          ++ [{ a with message := redactText a.message,
                       metadata := redactUnknown a.metadata }]
    ∧ (insertTurn db t).turns
      = db.turns
          ++ [{ t with input := redactTextOpt t.input,
                       output := redactTextOpt t.output,
                       metadata := redactUnknown t.metadata }]
    ∧ hasMatch bearerMatch none (redactText s) = false
    ∧ hasMatch hexMatch none
        (scanReplace hexMatch none (scanReplace bearerMatch none s)) = false
    ∧ secretsRedacted (redactUnknown m) = true
    ∧ noBearerTexts (redactUnknown m) = true :=
  ⟨rfl, rfl, rfl, redactText_no_bearer s, hexPass_no_hex s,
    secretsRedacted_redactUnknown m, noBearerTexts_redactUnknown m⟩

/-! ### The wallet session (runtime.ts: `getAccount` / `lockWallet` /
`isWalletUnlocked`)

The runtime's wallet slice after `initialize()` has run: the in-memory signer
(`account`, by its address), the session deadline `unlockedUntil`, and the
store.  Clock reads and `ulid()` identifiers are passed in by the caller. -/

structure WalletState where
  account : Option String
  unlockedUntil : Option Nat
  db : AethernetDatabase

def walletLockedMsg : Str := str "Wallet is locked. Unlock first with aethernet wallet unlock."

/-- `lockWallet()`: drop the signer and deadline, revoke every open unlock
session, append a wallet lock audit row. -/
def lockWallet (w : WalletState) (now : Nat) (auditId : String) : WalletState :=
  { account := none
  , unlockedUntil := none
  , db := insertAudit (revokeUnlockSessions w.db now)
      { id := auditId, timestamp := now, category := "wallet", action := "lock"
      , details := some (str "wallet locked") } }

/-- `isWalletUnlocked()`: `Boolean(account) && Boolean(unlockedUntil && now < unlockedUntil)`. -/
def isWalletUnlocked (w : WalletState) (now : Nat) : Bool :=
  w.account.isSome
    && (match w.unlockedUntil with
        | some u => decide (now < u)
        | none => false)

/-- `getAccount()`: on a missing signer or an expired deadline, lock the
wallet and throw; otherwise return the signer.  The pair carries the runtime
state after the call. -/
def getAccount (w : WalletState) (now : Nat) (auditId : String) :
    WalletState × Except Str String :=
  if w.account.isNone
      || (w.unlockedUntil.isSome && decide (w.unlockedUntil.getD 0 ≤ now)) then
    (lockWallet w now auditId, .error walletLockedMsg)
  else
    (w, .ok (w.account.getD ""))

/-! ### C10: expired-TTL `getAccount` locks as a side effect -/

/-- C10: with the unlock TTL expired, `getAccount` throws an error whose
message contains "Wallet is locked", and as a side effect clears the
in-memory signer, revokes every unlock session row, and appends a wallet
lock audit row; afterwards `isWalletUnlocked` is false at every instant. -/
theorem getAccount_expired_locks (w : WalletState) (now u : Nat) (acct auditId : String)
    (hacct : w.account = some acct) (hu : w.unlockedUntil = some u) (hexp : u ≤ now) :
    (getAccount w now auditId).2 = .error walletLockedMsg
    ∧ containsSeg (str "Wallet is locked") walletLockedMsg = true
    ∧ (getAccount w now auditId).1.account = none
    ∧ (∀ s ∈ (getAccount w now auditId).1.db.unlockSessions, s.revokedAt ≠ none)
    ∧ (getAccount w now auditId).1.db.auditEntries
      = w.db.auditEntries
          ++ [{ id := auditId, timestamp := now, category := "wallet"
              , action := "lock", details := some (str "wallet locked") }]
    ∧ (∀ later : Nat, isWalletUnlocked (getAccount w now auditId).1 later = false) := by
  have hcond : (w.account.isNone
      || (w.unlockedUntil.isSome && decide (w.unlockedUntil.getD 0 ≤ now))) = true := by
    rw [hacct, hu]
    simp [hexp]
  refine ⟨?_, by decide, ?_, ?_, ?_, ?_⟩
  · rw [getAccount, if_pos hcond]
  · rw [getAccount, if_pos hcond]
    rfl
  · rw [getAccount, if_pos hcond]
    intro s hs
    simp only [lockWallet, insertAudit, revokeUnlockSessions] at hs
    rcases List.mem_map.mp hs with ⟨s0, _, heq⟩
    by_cases h0 : s0.revokedAt = none
    · rw [if_pos h0] at heq
      rw [← heq]
      simp
    · rw [if_neg h0] at heq
      rw [← heq]
      exact h0
  · rw [getAccount, if_pos hcond]
    rfl
  · intro later
    rw [getAccount, if_pos hcond]
    rfl

def c10Wallet : WalletState :=
  { account := some "0xabc"
  , unlockedUntil := some 5
  , db := createUnlockSession emptyDb "s1" "0xabc" 0 5 }

theorem getAccount_expired_locks_witness :
    (getAccount c10Wallet 10 "a1").2 = .error walletLockedMsg
    ∧ (getAccount c10Wallet 10 "a1").1.account = none
    ∧ (∀ s ∈ (getAccount c10Wallet 10 "a1").1.db.unlockSessions, s.revokedAt ≠ none)
    ∧ (∀ later : Nat, isWalletUnlocked (getAccount c10Wallet 10 "a1").1 later = false) := by
  have h := getAccount_expired_locks c10Wallet 10 5 "0xabc" "a1" rfl rfl (by decide)
  exact ⟨h.1, h.2.2.1, h.2.2.2.1, h.2.2.2.2.2⟩

/-! ### Self-modification (runtime.ts: `selfModify` / `rollbackSelfMod`)

The filesystem is an association list from resolved paths to contents.
`path.resolve`, `sha256` (via `hashFileSafe`), the config-driven
`isProtectedPath` / `isSelfModPathAllowed` predicates and the generated
backup path names stay oracle parameters in `SelfModCtx`: their outputs,
not their mechanics, drive the control flow under audit. -/

def fsExists (fs : List (String × Str)) (p : String) : Bool :=
  fs.any (fun e => e.1 = p)

def fsRead (fs : List (String × Str)) (p : String) : Option Str :=
  (fs.find? (fun e => e.1 = p)).map Prod.snd

def fsWrite (fs : List (String × Str)) (p : String) (c : Str) : List (String × Str) :=
  (p, c) :: fs.filter (fun e => ¬ e.1 = p)

def fsRemove (fs : List (String × Str)) (p : String) : List (String × Str) :=
  fs.filter (fun e => ¬ e.1 = p)

structure SelfModCtx where
  resolve : String → String
  hashFile : Str → String
  aggressiveSelfMod : Bool
  protectedPath : String → Bool
  allowedPath : String → Bool

structure RtState where
  fs : List (String × Str)
  db : AethernetDatabase

/-- `hashFileSafe` on a path: hash of the file's contents. -/
def hashFileSafe (ctx : SelfModCtx) (fs : List (String × Str)) (p : String) : String :=
  ctx.hashFile ((fsRead fs p).getD [])

def selfModWindowMs : Nat := 60 * 60 * 1000
def selfModLimitPerWindow : Nat := 6
def selfModRateTtlKey : String := "self_mod_timestamps_v1"
def selfModBackupKeyBase : String := "self_mod_backup_v1:"

/-- `assertMutableOperationAllowed(operation)`: `none` when allowed, else the
thrown message. -/
def assertMutableOperationAllowed (db : AethernetDatabase) (operation : Str) : Option Str :=
  if db.emergency.enabled then
    some (str "Cannot perform " ++ operation ++ str " while emergency stop is active")
  else if getLatestSurvivalTier db = some "dead" then
    some (str "Cannot perform " ++ operation ++ str " while runtime is in dead tier")
  else none

/-- `getSelfModTimestamps()`: the JSON array under the rate key, `[]` when the
value is absent or not an array. -/
def getSelfModTimestamps (db : AethernetDatabase) : List Nat :=
  match getKVVal db selfModRateTtlKey with
  | some (.nums l) => l
  | _ => []

def canPerformSelfMod (db : AethernetDatabase) (now : Nat) : Bool :=
  ((getSelfModTimestamps db).filter
      (fun v => decide (now - selfModWindowMs ≤ v))).length < selfModLimitPerWindow

def recordSelfModAttempt (db : AethernetDatabase) (now : Nat) : AethernetDatabase :=
  setJsonNumsKV db selfModRateTtlKey
    (((getSelfModTimestamps db).filter
        (fun v => decide (now - selfModWindowMs ≤ v))) ++ [now])

/-- `selfModify(targetPath, content)`.  `now` stands for the clock reads,
`mutId`/`rbId`/`auditId` for the generated `ulid()` identifiers and `bakPath`
for the generated backup file name.  The returned pair is the state after the
call together with the thrown message, if any; a throw leaves the state as it
was. -/
def selfModify (ctx : SelfModCtx) (st : RtState) (targetPath : String) (content : Str)
    (now : Nat) (mutId rbId auditId bakPath : String) : RtState × Option Str :=
  match assertMutableOperationAllowed st.db (str "self-modification") with
  | some e => (st, some e)
  | none =>
    if ¬ ctx.aggressiveSelfMod then
      (st, some (str "Self-modification is disabled in config"))
    else if ¬ canPerformSelfMod st.db now then
      (st, some (str "Self-modification denied: 6 writes/hour limit exceeded"))
    else if ctx.protectedPath targetPath then
      (st, some (str "Self-modification denied for protected path: " ++ targetPath.data))
    else
      let rp := ctx.resolve targetPath
      if ¬ ctx.allowedPath rp then
        (st, some (str "Self-modification denied for out-of-scope path: " ++ rp.data))
      else
        let beforeHash : Option String :=
          if fsExists st.fs rp then some (hashFileSafe ctx st.fs rp) else none
        let backupPath : Option String :=
          if fsExists st.fs rp then some bakPath else none
        let fs1 :=
          match backupPath with
          | some bp => fsWrite st.fs bp ((fsRead st.fs rp).getD [])
          | none => st.fs
        let fs2 := fsWrite fs1 rp content
        let afterHash := hashFileSafe ctx fs2 rp
        let db1 := recordSelfModAttempt st.db now
        let db2 := insertSelfModMutation db1
          { id := mutId, path := rp, beforeHash := beforeHash, afterHash := afterHash
          , reason := some "runtime self-modification", createdAt := now }
        let db3 := insertRollbackPoint db2
          { id := rbId, mutationId := mutId, path := rp
          , rollbackHash := beforeHash.getD afterHash, createdAt := now }
        let db4 := setKV db3 (selfModBackupKeyBase ++ mutId)
          (match backupPath with
           | some bp => bp
           | none => "__DELETE__")
        let db5 := insertAudit db4
          { id := auditId, timestamp := now, category := "self_mod"
          , action := "write_file", details := some rp.data }
        ({ fs := fs2, db := db5 }, none)

/-- One `selfModify` invocation: the arguments together with the clock value
and generated names of that call. -/
structure SelfModCall where
  targetPath : String
  content : Str
  now : Nat
  mutId : String
  rbId : String
  auditId : String
  bakPath : String

def applySelfModCall (ctx : SelfModCtx) (st : RtState) (c : SelfModCall) : RtState :=
  (selfModify ctx st c.targetPath c.content c.now c.mutId c.rbId c.auditId c.bakPath).1

def runSelfMods (ctx : SelfModCtx) : RtState → List SelfModCall → RtState
  | st, [] => st
  | st, c :: cs => runSelfMods ctx (applySelfModCall ctx st c) cs

/-- The `createdAt` stamps of the recorded mutation rows, in insertion order. -/
def mutTimes (db : AethernetDatabase) : List Nat :=
  db.selfModMutations.map (fun m => m.createdAt)

/-- At most 6 successful mutation rows inside any rolling one-hour window. -/
def WindowBounded (db : AethernetDatabase) : Prop :=
  ∀ w, ((mutTimes db).filter
      (fun t => decide (w ≤ t) && decide (t ≤ w + selfModWindowMs))).length
    ≤ selfModLimitPerWindow

def lastMutTime (db : AethernetDatabase) : Nat := ((mutTimes db).getLast?).getD 0

/-- The run-to-run invariant of the rate limiter: every recorded stamp is in
the past, the KV rate list is exactly the recorded stamps still inside the
window of the most recent success, and the window bound holds. -/
def RateInv (db : AethernetDatabase) (T : Nat) : Prop :=
  (∀ t ∈ mutTimes db, t ≤ T)
  ∧ getSelfModTimestamps db
      = (mutTimes db).filter (fun t => decide (lastMutTime db - selfModWindowMs ≤ t))
  ∧ WindowBounded db

/-- `rollbackSelfMod(pathValue)`. -/
def rollbackSelfMod (ctx : SelfModCtx) (st : RtState) (pathValue : String)
    (now : Nat) (auditId : String) : RtState × Option Str :=
  match assertMutableOperationAllowed st.db (str "self-mod rollback") with
  | some e => (st, some e)
  | none =>
    match (listRollbackPoints st.db 200).find?
        (fun point => point.path = ctx.resolve pathValue) with
    | none => (st, some (str "No rollback point found for path: " ++ pathValue.data))
    | some rollback =>
      let key := selfModBackupKeyBase ++ rollback.mutationId
      let backupPath := getKV st.db key
      let targetPath := rollback.path
      let applied : Option (List (String × Str)) :=
        if backupPath = some "__DELETE__" then
          some (if fsExists st.fs targetPath then fsRemove st.fs targetPath else st.fs)
        else
          match backupPath with
          | some bp =>
            if ¬ bp = "" ∧ fsExists st.fs bp = true then
              some (fsWrite st.fs targetPath ((fsRead st.fs bp).getD []))
            else none
          | none => none
      match applied with
      | none =>
        (st, some (str "Rollback data missing for mutation " ++ rollback.mutationId.data))
      | some fs' =>
        ({ fs := fs'
         , db := insertAudit st.db
             { id := auditId, timestamp := now, category := "self_mod"
             , action := "rollback_applied"
             , details := some (str "path=" ++ targetPath.data
                 ++ str " mutation=" ++ rollback.mutationId.data) } }, none)

/-! ### KV lookup lemmas -/

theorem find?_key_filter_ne {α : Type} (l : List (String × α)) (k k' : String) (h : ¬ k' = k) :
    (l.filter (fun p => ¬ p.1 = k')).find? (fun p => p.1 = k)
      = l.find? (fun p => p.1 = k) := by
  induction l with
  | nil => rfl
  | cons a t ih =>
    by_cases ha : a.1 = k'
    · have hak : ¬ (a.1 = k) := fun hk => h (by rw [← ha, hk])
      rw [List.filter_cons_of_neg (by simpa using ha),
        List.find?_cons_of_neg _ (by simpa using hak), ih]
    · rw [List.filter_cons_of_pos (by simpa using ha)]
      by_cases hak : a.1 = k
      · rw [List.find?_cons_of_pos _ (by simpa using hak),
          List.find?_cons_of_pos _ (by simpa using hak)]
      · rw [List.find?_cons_of_neg _ (by simpa using hak),
          List.find?_cons_of_neg _ (by simpa using hak), ih]

theorem getKVVal_setKVVal_same (db : AethernetDatabase) (k : String) (v : KvVal) :
    getKVVal (setKVVal db k v) k = some v := by
  have hkv : (setKVVal db k v).kv = (k, v) :: db.kv.filter (fun p => ¬ p.1 = k) := rfl
  unfold getKVVal
  rw [hkv, List.find?_cons_of_pos _ (by simp)]
  rfl

theorem getKVVal_setKVVal_ne (db : AethernetDatabase) (k k' : String) (v : KvVal)
    (h : ¬ k' = k) : getKVVal (setKVVal db k' v) k = getKVVal db k := by
  have hkv : (setKVVal db k' v).kv = (k', v) :: db.kv.filter (fun p => ¬ p.1 = k') := rfl
  unfold getKVVal
  rw [hkv, List.find?_cons_of_neg _ (by simpa using h),
    find?_key_filter_ne db.kv k k' h]

theorem backupKey_ne_rateKey (m : String) :
    ¬ (selfModBackupKeyBase ++ m = selfModRateTtlKey) := by
  intro h
  have hd : selfModBackupKeyBase.data ++ m.data = selfModRateTtlKey.data := by
    rw [← String.data_append, h]
  have h9 : (selfModBackupKeyBase.data ++ m.data)[9]? = selfModRateTtlKey.data[9]? := by
    rw [hd]
  rw [List.getElem?_append_left (by decide)] at h9
  exact absurd h9 (by decide)

theorem getSelfModTimestamps_setKV_backup (db : AethernetDatabase) (m v : String) :
    getSelfModTimestamps (setKV db (selfModBackupKeyBase ++ m) v)
      = getSelfModTimestamps db := by
  unfold getSelfModTimestamps setKV
  rw [getKVVal_setKVVal_ne db selfModRateTtlKey (selfModBackupKeyBase ++ m) _
    (backupKey_ne_rateKey m)]

theorem getSelfModTimestamps_record (db : AethernetDatabase) (now : Nat) :
    getSelfModTimestamps (recordSelfModAttempt db now)
      = ((getSelfModTimestamps db).filter
          (fun v => decide (now - selfModWindowMs ≤ v))) ++ [now] := by
  unfold recordSelfModAttempt setJsonNumsKV
  unfold getSelfModTimestamps
  rw [getKVVal_setKVVal_same]

theorem mutTimes_insertMut (db : AethernetDatabase) (m : SelfModMutation) :
    mutTimes (insertSelfModMutation db m) = mutTimes db ++ [m.createdAt] := by
  unfold mutTimes insertSelfModMutation
  rw [List.map_append]
  rfl

/-- The result of `selfModify` is either the unchanged input state (a throw)
or the state of a success, in which case the rate gate held and the mutation
table and the KV rate list were extended by the call's stamp. -/
theorem selfModify_state_shape (ctx : SelfModCtx) (st : RtState) (p : String)
    (content : Str) (now : Nat) (m r a b : String) :
    (selfModify ctx st p content now m r a b).1 = st
    ∨ (canPerformSelfMod st.db now = true
       ∧ mutTimes (selfModify ctx st p content now m r a b).1.db
         = mutTimes st.db ++ [now]
       ∧ getSelfModTimestamps (selfModify ctx st p content now m r a b).1.db
         = ((getSelfModTimestamps st.db).filter
             (fun v => decide (now - selfModWindowMs ≤ v))) ++ [now]) := by
  unfold selfModify
  cases hma : assertMutableOperationAllowed st.db (str "self-modification") with
  | some e => exact Or.inl rfl
  | none =>
    by_cases hagg : ctx.aggressiveSelfMod
    · rw [if_neg (by simpa using hagg)]
      by_cases hcan : canPerformSelfMod st.db now
      · rw [if_neg (by simpa using hcan)]
        by_cases hprot : ctx.protectedPath p
        · rw [if_pos (by simpa using hprot)]
          exact Or.inl rfl
        · rw [if_neg (by simpa using hprot)]
          by_cases hallow : ctx.allowedPath (ctx.resolve p)
          · rw [if_neg (by simpa using hallow)]
            refine Or.inr ⟨by simpa using hcan, ?_, ?_⟩
            · show mutTimes (insertAudit (setKV (insertRollbackPoint
                (insertSelfModMutation (recordSelfModAttempt st.db now) _) _) _ _) _)
                = mutTimes st.db ++ [now]
              rw [show ∀ (db : AethernetDatabase) (e : AuditEntry),
                  mutTimes (insertAudit db e) = mutTimes db from fun _ _ => rfl]
              rw [show ∀ (db : AethernetDatabase) (k v : String),
                  mutTimes (setKV db k v) = mutTimes db from fun _ _ _ => rfl]
              rw [show ∀ (db : AethernetDatabase) (q : RollbackPoint),
                  mutTimes (insertRollbackPoint db q) = mutTimes db from fun _ _ => rfl]
              rw [mutTimes_insertMut]
              rfl
            · show getSelfModTimestamps (insertAudit (setKV (insertRollbackPoint
                (insertSelfModMutation (recordSelfModAttempt st.db now) _) _)
                  (selfModBackupKeyBase ++ m) _) _)
                = _
              rw [show ∀ (db : AethernetDatabase) (e : AuditEntry),
                  getSelfModTimestamps (insertAudit db e) = getSelfModTimestamps db
                from fun _ _ => rfl]
              rw [getSelfModTimestamps_setKV_backup]
              rw [show ∀ (db : AethernetDatabase) (q : RollbackPoint),
                  getSelfModTimestamps (insertRollbackPoint db q) = getSelfModTimestamps db
                from fun _ _ => rfl]
              rw [show ∀ (db : AethernetDatabase) (q : SelfModMutation),
                  getSelfModTimestamps (insertSelfModMutation db q) = getSelfModTimestamps db
                from fun _ _ => rfl]
              exact getSelfModTimestamps_record st.db now
          · rw [if_pos (by simpa using hallow)]
            exact Or.inl rfl
      · rw [if_pos (by simpa using hcan)]
        exact Or.inl rfl
    · rw [if_pos (by simpa using hagg)]
      exact Or.inl rfl

theorem lastMutTime_le {db : AethernetDatabase} {T : Nat}
    (h1 : ∀ t ∈ mutTimes db, t ≤ T) : lastMutTime db ≤ T := by
  unfold lastMutTime
  cases hl : (mutTimes db).getLast? with
  | none => exact Nat.zero_le T
  | some x => exact h1 x (List.mem_of_getLast?_eq_some hl)

/-- Under the invariant, filtering the KV rate list down to the window of the
current instant gives exactly the recorded stamps inside that window. -/
theorem gate_collapse {db : AethernetDatabase} {T now : Nat}
    (hinv : RateInv db T) (hT : T ≤ now) :
    (getSelfModTimestamps db).filter (fun v => decide (now - selfModWindowMs ≤ v))
      = (mutTimes db).filter (fun v => decide (now - selfModWindowMs ≤ v)) := by
  rw [hinv.2.1, List.filter_filter]
  apply List.filter_congr
  intro t ht
  by_cases hnt : now - selfModWindowMs ≤ t
  · have hlast : lastMutTime db ≤ now := le_trans (lastMutTime_le hinv.1) hT
    have hlt : lastMutTime db - selfModWindowMs ≤ t := by omega
    simp [hnt, hlt]
  · simp [hnt]

theorem windowBounded_snoc {l : List Nat} {now : Nat}
    (hle : ∀ t ∈ l, t ≤ now)
    (hgate : (l.filter (fun t => decide (now - selfModWindowMs ≤ t))).length
      < selfModLimitPerWindow)
    (hwb : ∀ w,
      (l.filter (fun t => decide (w ≤ t) && decide (t ≤ w + selfModWindowMs))).length
        ≤ selfModLimitPerWindow) :
    ∀ w, ((l ++ [now]).filter
        (fun t => decide (w ≤ t) && decide (t ≤ w + selfModWindowMs))).length
      ≤ selfModLimitPerWindow := by
  intro w
  rw [List.filter_append, List.length_append]
  by_cases hin : w ≤ now ∧ now ≤ w + selfModWindowMs
  · have hsub : List.Sublist
        (l.filter (fun t => decide (w ≤ t) && decide (t ≤ w + selfModWindowMs)))
        (l.filter (fun t => decide (now - selfModWindowMs ≤ t))) := by
      apply List.monotone_filter_right
      intro t ht
      simp only [Bool.and_eq_true, decide_eq_true_eq] at ht ⊢
      omega
    have hlen := hsub.length_le
    have hone := List.length_filter_le
      (fun t => decide (w ≤ t) && decide (t ≤ w + selfModWindowMs)) [now]
    simp only [List.length_singleton] at hone
    omega
  · have hpred : (decide (w ≤ now) && decide (now ≤ w + selfModWindowMs)) = false := by
      by_cases h1 : w ≤ now
      · have h2 : ¬ now ≤ w + selfModWindowMs := fun hb => hin ⟨h1, hb⟩
        simp [h2]
      · simp [h1]
    have hz : ([now].filter
        (fun t => decide (w ≤ t) && decide (t ≤ w + selfModWindowMs))) = [] := by
      rw [List.filter_singleton, hpred]
      rfl
    rw [hz]
    simpa using hwb w

theorem rateInv_step (ctx : SelfModCtx) (st : RtState) (c : SelfModCall) {T : Nat}
    (h : RateInv st.db T) (hT : T ≤ c.now) :
    RateInv (applySelfModCall ctx st c).db c.now := by
  rcases selfModify_state_shape ctx st c.targetPath c.content c.now c.mutId c.rbId
      c.auditId c.bakPath with heq | ⟨hgate, hmut, hts⟩
  · unfold applySelfModCall
    rw [heq]
    exact ⟨fun t ht => le_trans (h.1 t ht) hT, h.2.1, h.2.2⟩
  · unfold applySelfModCall
    have hgate' : ((mutTimes st.db).filter
        (fun v => decide (c.now - selfModWindowMs ≤ v))).length
          < selfModLimitPerWindow := by
      have hg := of_decide_eq_true hgate
      rwa [gate_collapse h hT] at hg
    refine ⟨?_, ?_, ?_⟩
    · rw [hmut]
      intro t ht
      rcases List.mem_append.mp ht with h1 | h2
      · exact le_trans (h.1 t h1) hT
      · rw [List.mem_singleton.mp h2]
    · unfold lastMutTime
      rw [hts, hmut, List.getLast?_concat]
      show _ = ((mutTimes st.db ++ [c.now]).filter
        (fun t => decide (c.now - selfModWindowMs ≤ t)))
      rw [List.filter_append, gate_collapse h hT]
      have : ([c.now].filter (fun t => decide (c.now - selfModWindowMs ≤ t)))
          = [c.now] := by
        rw [List.filter_singleton]
        simp [Nat.sub_le]
      rw [this]
    · intro w
      rw [hmut]
      exact windowBounded_snoc (fun t ht => le_trans (h.1 t ht) hT) hgate' h.2.2 w

theorem rateInv_run (ctx : SelfModCtx) :
    ∀ (calls : List SelfModCall) (st : RtState) (T : Nat),
      RateInv st.db T → (∀ c0, calls.head? = some c0 → T ≤ c0.now) →
      List.Chain' (fun x y => x.now ≤ y.now) calls →
      WindowBounded (runSelfMods ctx st calls).db
  | [], _, _, h, _, _ => h.2.2
  | c :: cs, st, T, h, hhead, hchain => by
    have hTc : T ≤ c.now := hhead c rfl
    have h' := rateInv_step ctx st c h hTc
    show WindowBounded (runSelfMods ctx (applySelfModCall ctx st c) cs).db
    refine rateInv_run ctx cs _ c.now h' ?_ (List.Chain'.tail hchain)
    intro c0 hc0
    cases cs with
    | nil => cases hc0
    | cons d ds =>
      injection hc0 with hc0
      rw [← hc0]
      exact (List.chain'_cons.mp hchain).1

/-- C5: starting from a clean rate state and a monotone clock, every reachable
state holds at most 6 successful mutation rows inside any rolling one-hour
window, and an attempt made while the rate gate is closed returns the
unchanged state together with the exact denial message — no file write, no
new mutation row. -/
theorem selfMod_rate_limit (ctx : SelfModCtx) (st0 : RtState) (calls : List SelfModCall)
    (hkv : getSelfModTimestamps st0.db = [])
    (hmut0 : st0.db.selfModMutations = [])
    (hchain : List.Chain' (fun x y => x.now ≤ y.now) calls) :
    WindowBounded (runSelfMods ctx st0 calls).db
    ∧ (∀ (st : RtState) (p : String) (content : Str) (now : Nat) (m r a b : String),
        assertMutableOperationAllowed st.db (str "self-modification") = none →
        ctx.aggressiveSelfMod = true →
        canPerformSelfMod st.db now = false →
        selfModify ctx st p content now m r a b
          = (st, some (str "Self-modification denied: 6 writes/hour limit exceeded"))) := by
  constructor
  · have hmt : mutTimes st0.db = [] := by
      unfold mutTimes
      rw [hmut0]
      rfl
    refine rateInv_run ctx calls st0 0 ⟨?_, ?_, ?_⟩ (fun c0 _ => Nat.zero_le c0.now) hchain
    · intro t ht
      rw [hmt] at ht
      cases ht
    · rw [hkv, hmt]
      rfl
    · intro w
      rw [hmt]
      exact Nat.zero_le _
  · intro st p content now m r a b hma hagg hcan
    unfold selfModify
    rw [hma, if_neg (by simp [hagg]), if_pos (by simp [hcan])]

def cxSmCtx : SelfModCtx :=
  { resolve := id, hashFile := fun _ => "h", aggressiveSelfMod := true
  , protectedPath := fun _ => false, allowedPath := fun _ => true }

def cxSmSt : RtState :=
  { fs := []
  , db := setJsonNumsKV emptyDb selfModRateTtlKey [100, 100, 100, 100, 100, 100] }

theorem selfMod_rate_limit_witness :
    selfModify cxSmCtx cxSmSt "f" (str "x") 100 "m" "r" "a" "b"
      = (cxSmSt, some (str "Self-modification denied: 6 writes/hour limit exceeded")) :=
  (selfMod_rate_limit cxSmCtx ⟨[], emptyDb⟩ [] rfl rfl (by trivial)).2
    cxSmSt "f" (str "x") 100 "m" "r" "a" "b" rfl rfl (by decide)

/-! ### Filesystem lemmas -/

theorem fsRead_fsWrite_same (fs : List (String × Str)) (p : String) (c : Str) :
    fsRead (fsWrite fs p c) p = some c := by
  unfold fsRead fsWrite
  rw [List.find?_cons_of_pos _ (by simp)]
  rfl

theorem fsRead_fsWrite_ne (fs : List (String × Str)) (p' p : String) (c : Str)
    (h : ¬ p' = p) : fsRead (fsWrite fs p' c) p = fsRead fs p := by
  unfold fsRead fsWrite
  rw [List.find?_cons_of_neg _ (by simpa using h), find?_key_filter_ne fs p p' h]

theorem fsRead_fsRemove_same (fs : List (String × Str)) (p : String) :
    fsRead (fsRemove fs p) p = none := by
  unfold fsRead fsRemove
  have hn : (fs.filter (fun e => ¬ e.1 = p)).find? (fun e => e.1 = p) = none := by
    rw [List.find?_eq_none]
    intro x hx
    have hq := (List.mem_filter.mp hx).2
    simpa using hq
  rw [hn]
  rfl

theorem fsRead_of_not_exists (fs : List (String × Str)) (p : String)
    (h : fsExists fs p = false) : fsRead fs p = none := by
  unfold fsExists at h
  unfold fsRead
  have hn : fs.find? (fun e => e.1 = p) = none := by
    rw [List.find?_eq_none]
    intro x hx
    have := List.any_eq_false.mp h x hx
    simpa using this
  rw [hn]
  rfl

theorem fsExists_eq_isSome (fs : List (String × Str)) (p : String) :
    fsExists fs p = (fsRead fs p).isSome := by
  unfold fsExists fsRead
  induction fs with
  | nil => rfl
  | cons a t ih =>
    by_cases ha : a.1 = p
    · rw [List.any_cons, List.find?_cons_of_pos _ (by simpa using ha)]
      simp [ha]
    · rw [List.any_cons, List.find?_cons_of_neg _ (by simpa using ha)]
      simp only [ih]
      simp [ha]

/-! ### Shape of a successful `selfModify` -/

theorem selfModify_success_existing (ctx : SelfModCtx) (st : RtState) (p : String)
    (content : Str) (now : Nat) (mutId rbId auditId bakPath : String)
    (hma : assertMutableOperationAllowed st.db (str "self-modification") = none)
    (hagg : ctx.aggressiveSelfMod = true)
    (hcan : canPerformSelfMod st.db now = true)
    (hprot : ctx.protectedPath p = false)
    (hallow : ctx.allowedPath (ctx.resolve p) = true)
    (hex : fsExists st.fs (ctx.resolve p) = true) :
    selfModify ctx st p content now mutId rbId auditId bakPath
      = ({ fs := fsWrite (fsWrite st.fs bakPath ((fsRead st.fs (ctx.resolve p)).getD []))
              (ctx.resolve p) content
         , db := insertAudit (setKV (insertRollbackPoint (insertSelfModMutation
              (recordSelfModAttempt st.db now)
              { id := mutId, path := ctx.resolve p
              , beforeHash := some (hashFileSafe ctx st.fs (ctx.resolve p))
              , afterHash := hashFileSafe ctx
                  (fsWrite (fsWrite st.fs bakPath ((fsRead st.fs (ctx.resolve p)).getD []))
                    (ctx.resolve p) content) (ctx.resolve p)
              , reason := some "runtime self-modification", createdAt := now })
              { id := rbId, mutationId := mutId, path := ctx.resolve p
              , rollbackHash := hashFileSafe ctx st.fs (ctx.resolve p), createdAt := now })
              (selfModBackupKeyBase ++ mutId) bakPath)
              { id := auditId, timestamp := now, category := "self_mod"
              , action := "write_file", details := some (ctx.resolve p).data } }, none) := by
  unfold selfModify
  rw [hma, if_neg (by simp [hagg]), if_neg (by simp [hcan]),
    if_neg (by simp [hprot]), if_neg (by simp [hallow])]
  simp only [hex]
  rfl

theorem selfModify_success_missing (ctx : SelfModCtx) (st : RtState) (p : String)
    (content : Str) (now : Nat) (mutId rbId auditId bakPath : String)
    (hma : assertMutableOperationAllowed st.db (str "self-modification") = none)
    (hagg : ctx.aggressiveSelfMod = true)
    (hcan : canPerformSelfMod st.db now = true)
    (hprot : ctx.protectedPath p = false)
    (hallow : ctx.allowedPath (ctx.resolve p) = true)
    (hex : fsExists st.fs (ctx.resolve p) = false) :
    selfModify ctx st p content now mutId rbId auditId bakPath
      = ({ fs := fsWrite st.fs (ctx.resolve p) content
         , db := insertAudit (setKV (insertRollbackPoint (insertSelfModMutation
              (recordSelfModAttempt st.db now)
              { id := mutId, path := ctx.resolve p
              , beforeHash := none
              , afterHash := hashFileSafe ctx (fsWrite st.fs (ctx.resolve p) content)
                  (ctx.resolve p)
              , reason := some "runtime self-modification", createdAt := now })
              { id := rbId, mutationId := mutId, path := ctx.resolve p
              , rollbackHash := hashFileSafe ctx (fsWrite st.fs (ctx.resolve p) content)
                  (ctx.resolve p)
              , createdAt := now })
              (selfModBackupKeyBase ++ mutId) "__DELETE__")
              { id := auditId, timestamp := now, category := "self_mod"
              , action := "write_file", details := some (ctx.resolve p).data } }, none) := by
  unfold selfModify
  rw [hma, if_neg (by simp [hagg]), if_neg (by simp [hcan]),
    if_neg (by simp [hprot]), if_neg (by simp [hallow])]
  simp only [hex]
  rfl

/-! ### `ORDER BY created_at DESC` with a strictly newest row -/

theorem mem_insertDesc {α : Type} (key : α → Nat) (x a : α) :
    ∀ m : List α, a ∈ insertDesc key x m ↔ a = x ∨ a ∈ m
  | [] => by simp [insertDesc]
  | y :: ys => by
    unfold insertDesc
    by_cases h : key y < key x
    · rw [if_pos h]
      simp [or_comm, or_assoc, or_left_comm]
    · rw [if_neg h]
      simp only [List.mem_cons, mem_insertDesc key x a ys]
      constructor
      · rintro (h1 | h1 | h1)
        · exact Or.inr (Or.inl h1)
        · exact Or.inl h1
        · exact Or.inr (Or.inr h1)
      · rintro (h1 | h1 | h1)
        · exact Or.inr (Or.inl h1)
        · exact Or.inl h1
        · exact Or.inr (Or.inr h1)

theorem mem_sortDesc {α : Type} (key : α → Nat) (a : α) :
    ∀ l : List α, a ∈ sortDesc key l ↔ a ∈ l
  | [] => Iff.rfl
  | x :: xs => by
    unfold sortDesc
    rw [mem_insertDesc, mem_sortDesc key a xs]
    simp

theorem pairwise_insertDesc {α : Type} (key : α → Nat) (x : α) :
    ∀ m : List α, List.Pairwise (fun a b => key b ≤ key a) m →
      List.Pairwise (fun a b => key b ≤ key a) (insertDesc key x m)
  | [], _ => List.pairwise_singleton _ _
  | y :: ys, h => by
    unfold insertDesc
    obtain ⟨hy, hys⟩ := List.pairwise_cons.mp h
    by_cases hlt : key y < key x
    · rw [if_pos hlt]
      refine List.pairwise_cons.mpr ⟨?_, h⟩
      intro b hb
      rcases List.mem_cons.mp hb with hb | hb
      · rw [hb]
        omega
      · have := hy b hb
        omega
    · rw [if_neg hlt]
      refine List.pairwise_cons.mpr ⟨?_, pairwise_insertDesc key x ys hys⟩
      intro b hb
      rcases (mem_insertDesc key x b ys).mp hb with hb | hb
      · rw [hb]
        omega
      · exact hy b hb

theorem pairwise_sortDesc {α : Type} (key : α → Nat) :
    ∀ l : List α, List.Pairwise (fun a b => key b ≤ key a) (sortDesc key l)
  | [] => List.Pairwise.nil
  | x :: xs => pairwise_insertDesc key x (sortDesc key xs) (pairwise_sortDesc key xs)

theorem sortDesc_strict_max_head (old : List RollbackPoint) (x : RollbackPoint)
    (hfr : ∀ q ∈ old, q.createdAt < x.createdAt) :
    ∃ rest, sortDesc (fun r => r.createdAt) (old ++ [x]) = x :: rest := by
  have hxmem : x ∈ sortDesc (fun r => r.createdAt) (old ++ [x]) :=
    (mem_sortDesc _ x _).mpr (by simp)
  cases hms : sortDesc (fun r => r.createdAt) (old ++ [x]) with
  | nil =>
    rw [hms] at hxmem
    cases hxmem
  | cons hd tl =>
    rw [hms] at hxmem
    have hsorted := pairwise_sortDesc (fun r => r.createdAt) (old ++ [x])
    rw [hms] at hsorted
    have hhx : hd = x := by
      rcases List.mem_cons.mp hxmem with h1 | h2
      · exact h1.symm
      · have h1 : x.createdAt ≤ hd.createdAt := (List.pairwise_cons.mp hsorted).1 x h2
        have hmem : hd ∈ old ++ [x] := by
          have : hd ∈ sortDesc (fun r => r.createdAt) (old ++ [x]) := by
            rw [hms]
            exact List.mem_cons_self hd tl
          exact (mem_sortDesc _ hd _).mp this
        rcases List.mem_append.mp hmem with ho | hx1
        · have hlt := hfr hd ho
          omega
        · exact List.mem_singleton.mp hx1
    exact ⟨tl, by rw [hhx]⟩

theorem listRollbackPoints_strict_max (db' : AethernetDatabase)
    (old : List RollbackPoint) (x : RollbackPoint)
    (hdb : db'.selfModRollbacks = old ++ [x])
    (hfr : ∀ q ∈ old, q.createdAt < x.createdAt) :
    ∃ rest, listRollbackPoints db' 200 = x :: rest := by
  unfold listRollbackPoints
  rw [hdb]
  obtain ⟨rest, hr⟩ := sortDesc_strict_max_head old x hfr
  rw [hr]
  refine ⟨rest.take 199, ?_⟩
  rw [show (200 : Nat) = 199 + 1 from rfl, List.take_succ_cons]

theorem assertMutable_congr {db1 db2 : AethernetDatabase} (op1 op2 : Str)
    (he : db1.emergency = db2.emergency)
    (hs : db1.survivalSnapshots = db2.survivalSnapshots)
    (h : assertMutableOperationAllowed db2 op2 = none) :
    assertMutableOperationAllowed db1 op1 = none := by
  unfold assertMutableOperationAllowed getLatestSurvivalTier at h ⊢
  rw [he, hs]
  by_cases hb : db2.emergency.enabled
  · rw [if_pos hb] at h
    cases h
  · rw [if_neg hb] at h ⊢
    by_cases ht : db2.survivalSnapshots.getLast? = some "dead"
    · rw [if_pos ht] at h
      cases h
    · rw [if_neg ht]

theorem getKV_setKV_same (db : AethernetDatabase) (k v : String) :
    getKV (setKV db k v) k = some v := by
  unfold getKV setKV
  rw [getKVVal_setKVVal_same]

/-! ### Shape of `rollbackSelfMod` -/

theorem rollback_copy (ctx : SelfModCtx) (st' : RtState) (pv : String) (now3 : Nat)
    (aid3 : String) (rb : RollbackPoint) (bp : String)
    (hma' : assertMutableOperationAllowed st'.db (str "self-mod rollback") = none)
    (hfind : (listRollbackPoints st'.db 200).find?
      (fun point => point.path = ctx.resolve pv) = some rb)
    (hbp : getKV st'.db (selfModBackupKeyBase ++ rb.mutationId) = some bp)
    (hne : ¬ bp = "__DELETE__") (hbe : ¬ bp = "") (hex2 : fsExists st'.fs bp = true) :
    rollbackSelfMod ctx st' pv now3 aid3
      = ({ fs := fsWrite st'.fs rb.path ((fsRead st'.fs bp).getD [])
         , db := insertAudit st'.db
             { id := aid3, timestamp := now3, category := "self_mod"
             , action := "rollback_applied"
             , details := some (str "path=" ++ rb.path.data
                 ++ str " mutation=" ++ rb.mutationId.data) } }, none) := by
  unfold rollbackSelfMod
  simp only [hma', hfind, hbp, Option.some.injEq, eq_false hne, if_false]
  rw [if_pos (by exact ⟨hbe, hex2⟩)]

theorem rollback_delete (ctx : SelfModCtx) (st' : RtState) (pv : String) (now3 : Nat)
    (aid3 : String) (rb : RollbackPoint)
    (hma' : assertMutableOperationAllowed st'.db (str "self-mod rollback") = none)
    (hfind : (listRollbackPoints st'.db 200).find?
      (fun point => point.path = ctx.resolve pv) = some rb)
    (hbp : getKV st'.db (selfModBackupKeyBase ++ rb.mutationId) = some "__DELETE__") :
    rollbackSelfMod ctx st' pv now3 aid3
      = ({ fs := if fsExists st'.fs rb.path then fsRemove st'.fs rb.path else st'.fs
         , db := insertAudit st'.db
             { id := aid3, timestamp := now3, category := "self_mod"
             , action := "rollback_applied"
             , details := some (str "path=" ++ rb.path.data
                 ++ str " mutation=" ++ rb.mutationId.data) } }, none) := by
  unfold rollbackSelfMod
  simp only [hma', hfind, hbp, Option.some.injEq, if_true, eq_self_iff_true]

theorem rollback_missing (ctx : SelfModCtx) (st' : RtState) (pv : String) (now3 : Nat)
    (aid3 : String) (rb : RollbackPoint)
    (hma' : assertMutableOperationAllowed st'.db (str "self-mod rollback") = none)
    (hfind : (listRollbackPoints st'.db 200).find?
      (fun point => point.path = ctx.resolve pv) = some rb)
    (hbp : getKV st'.db (selfModBackupKeyBase ++ rb.mutationId) = none) :
    rollbackSelfMod ctx st' pv now3 aid3
      = (st', some (str "Rollback data missing for mutation " ++ rb.mutationId.data)) := by
  unfold rollbackSelfMod
  simp only [hma', hfind, hbp]
  rfl

/-! ### Failure shapes of `selfModify` -/

theorem selfModify_fail_ma (ctx : SelfModCtx) (st : RtState) (p : String) (content : Str)
    (now : Nat) (m r a b : String) (e : Str)
    (hma : assertMutableOperationAllowed st.db (str "self-modification") = some e) :
    selfModify ctx st p content now m r a b = (st, some e) := by
  unfold selfModify
  rw [hma]

theorem selfModify_fail_agg (ctx : SelfModCtx) (st : RtState) (p : String) (content : Str)
    (now : Nat) (m r a b : String)
    (hma : assertMutableOperationAllowed st.db (str "self-modification") = none)
    (hagg : ctx.aggressiveSelfMod = false) :
    selfModify ctx st p content now m r a b
      = (st, some (str "Self-modification is disabled in config")) := by
  unfold selfModify
  rw [hma, if_pos (by simp [hagg])]

theorem selfModify_fail_can (ctx : SelfModCtx) (st : RtState) (p : String) (content : Str)
    (now : Nat) (m r a b : String)
    (hma : assertMutableOperationAllowed st.db (str "self-modification") = none)
    (hagg : ctx.aggressiveSelfMod = true)
    (hcan : canPerformSelfMod st.db now = false) :
    selfModify ctx st p content now m r a b
      = (st, some (str "Self-modification denied: 6 writes/hour limit exceeded")) := by
  unfold selfModify
  rw [hma, if_neg (by simp [hagg]), if_pos (by simp [hcan])]

theorem selfModify_fail_prot (ctx : SelfModCtx) (st : RtState) (p : String) (content : Str)
    (now : Nat) (m r a b : String)
    (hma : assertMutableOperationAllowed st.db (str "self-modification") = none)
    (hagg : ctx.aggressiveSelfMod = true)
    (hcan : canPerformSelfMod st.db now = true)
    (hprot : ctx.protectedPath p = true) :
    selfModify ctx st p content now m r a b
      = (st, some (str "Self-modification denied for protected path: " ++ p.data)) := by
  unfold selfModify
  rw [hma, if_neg (by simp [hagg]), if_neg (by simp [hcan]), if_pos (by simp [hprot])]

theorem selfModify_fail_allow (ctx : SelfModCtx) (st : RtState) (p : String) (content : Str)
    (now : Nat) (m r a b : String)
    (hma : assertMutableOperationAllowed st.db (str "self-modification") = none)
    (hagg : ctx.aggressiveSelfMod = true)
    (hcan : canPerformSelfMod st.db now = true)
    (hprot : ctx.protectedPath p = false)
    (hallow : ctx.allowedPath (ctx.resolve p) = false) :
    selfModify ctx st p content now m r a b
      = (st, some (str "Self-modification denied for out-of-scope path: "
          ++ (ctx.resolve p).data)) := by
  unfold selfModify
  rw [hma, if_neg (by simp [hagg]), if_neg (by simp [hcan]),
    if_neg (by simp [hprot]), if_pos (by simp [hallow])]

/-- C6: after a successful `selfModify` on `p`, `rollbackSelfMod p` matches the
just-recorded rollback point (the most recent one for the resolved path) and
restores the target to its pre-image: the pre-image contents when the file
existed — whose hash is exactly the recorded `beforeHash` of the new mutation
row — and absence, via the `__DELETE__` sentinel, when it did not.  Whenever
the KV backup row of a matched rollback point is missing, `rollbackSelfMod`
instead throws the fatal rollback error with the unchanged state.  `hfresh`
says this call is newer than every earlier rollback row; the `hb*` hypotheses
record that generated backup names differ from the target, are non-empty and
are never the sentinel. -/
theorem rollback_after_selfModify (ctx : SelfModCtx) (st st1 : RtState) (p : String)
    (content : Str) (now now2 : Nat) (mutId rbId auditId bakPath aid2 : String)
    (hsm : selfModify ctx st p content now mutId rbId auditId bakPath = (st1, none))
    (hfresh : ∀ q ∈ st.db.selfModRollbacks, q.createdAt < now)
    (hb1 : ¬ bakPath = ctx.resolve p) (hb2 : ¬ bakPath = "")
    (hb3 : ¬ bakPath = "__DELETE__") :
    (rollbackSelfMod ctx st1 p now2 aid2).2 = none
    ∧ fsRead (rollbackSelfMod ctx st1 p now2 aid2).1.fs (ctx.resolve p)
      = fsRead st.fs (ctx.resolve p)
    ∧ (st1.db.selfModMutations.map (fun mm => mm.beforeHash)).getLast?
      = some ((fsRead st.fs (ctx.resolve p)).map ctx.hashFile)
    ∧ (∀ (st' : RtState) (pv : String) (now3 : Nat) (aid3 : String) (rb : RollbackPoint),
        assertMutableOperationAllowed st'.db (str "self-mod rollback") = none →
        (listRollbackPoints st'.db 200).find?
          (fun point => point.path = ctx.resolve pv) = some rb →
        getKV st'.db (selfModBackupKeyBase ++ rb.mutationId) = none →
        rollbackSelfMod ctx st' pv now3 aid3
          = (st', some (str "Rollback data missing for mutation "
              ++ rb.mutationId.data))) := by
  cases hma : assertMutableOperationAllowed st.db (str "self-modification") with
  | some e =>
    rw [selfModify_fail_ma ctx st p content now mutId rbId auditId bakPath e hma] at hsm
    simp at hsm
  | none =>
  cases hagg : ctx.aggressiveSelfMod with
  | false =>
    rw [selfModify_fail_agg ctx st p content now mutId rbId auditId bakPath hma hagg] at hsm
    simp at hsm
  | true =>
  cases hcan : canPerformSelfMod st.db now with
  | false =>
    rw [selfModify_fail_can ctx st p content now mutId rbId auditId bakPath
      hma hagg hcan] at hsm
    simp at hsm
  | true =>
  cases hprot : ctx.protectedPath p with
  | true =>
    rw [selfModify_fail_prot ctx st p content now mutId rbId auditId bakPath
      hma hagg hcan hprot] at hsm
    simp at hsm
  | false =>
  cases hallow : ctx.allowedPath (ctx.resolve p) with
  | false =>
    rw [selfModify_fail_allow ctx st p content now mutId rbId auditId bakPath
      hma hagg hcan hprot hallow] at hsm
    simp at hsm
  | true =>
  cases hex : fsExists st.fs (ctx.resolve p) with
  | true =>
    rw [selfModify_success_existing ctx st p content now mutId rbId auditId bakPath
      hma hagg hcan hprot hallow hex, Prod.mk.injEq] at hsm
    obtain ⟨hfst, -⟩ := hsm
    cases hread : fsRead st.fs (ctx.resolve p) with
    | none =>
      rw [fsExists_eq_isSome, hread] at hex
      cases hex
    | some c0 =>
      have hfs1 : st1.fs = fsWrite (fsWrite st.fs bakPath
          ((fsRead st.fs (ctx.resolve p)).getD [])) (ctx.resolve p) content := by
        rw [← hfst]
      have hrbs : st1.db.selfModRollbacks = st.db.selfModRollbacks
          ++ [{ id := rbId, mutationId := mutId, path := ctx.resolve p
              , rollbackHash := hashFileSafe ctx st.fs (ctx.resolve p)
              , createdAt := now }] := by
        rw [← hfst]
        rfl
      have hmuts : st1.db.selfModMutations = st.db.selfModMutations
          ++ [{ id := mutId, path := ctx.resolve p
              , beforeHash := some (hashFileSafe ctx st.fs (ctx.resolve p))
              , afterHash := hashFileSafe ctx
                  (fsWrite (fsWrite st.fs bakPath ((fsRead st.fs (ctx.resolve p)).getD []))
                    (ctx.resolve p) content) (ctx.resolve p)
              , reason := some "runtime self-modification", createdAt := now }] := by
        rw [← hfst]
        rfl
      have hem : st1.db.emergency = st.db.emergency := by
        rw [← hfst]
        rfl
      have hsv : st1.db.survivalSnapshots = st.db.survivalSnapshots := by
        rw [← hfst]
        rfl
      have hkv1 : getKV st1.db (selfModBackupKeyBase ++ mutId) = some bakPath := by
        rw [← hfst]
        exact getKV_setKV_same _ _ _
      have hma2 : assertMutableOperationAllowed st1.db (str "self-mod rollback") = none :=
        assertMutable_congr (str "self-mod rollback") (str "self-modification") hem hsv hma
      obtain ⟨rest, hlist⟩ := listRollbackPoints_strict_max st1.db
        st.db.selfModRollbacks _ hrbs hfresh
      have hfind : (listRollbackPoints st1.db 200).find?
          (fun point => point.path = ctx.resolve p)
          = some { id := rbId, mutationId := mutId, path := ctx.resolve p
                 , rollbackHash := hashFileSafe ctx st.fs (ctx.resolve p)
                 , createdAt := now } := by
        rw [hlist]
        exact List.find?_cons_of_pos _ (by simp)
      have hrb : fsRead st1.fs bakPath = some ((fsRead st.fs (ctx.resolve p)).getD []) := by
        rw [hfs1, fsRead_fsWrite_ne _ _ _ _ (fun hh => hb1 hh.symm), fsRead_fsWrite_same]
      have hex2 : fsExists st1.fs bakPath = true := by
        rw [fsExists_eq_isSome, hrb]
        rfl
      have hrc := rollback_copy ctx st1 p now2 aid2 _ bakPath hma2 hfind hkv1 hb3 hb2 hex2
      refine ⟨?_, ?_, ?_, ?_⟩
      · rw [hrc]
      · rw [hrc]
        show fsRead (fsWrite st1.fs (ctx.resolve p) ((fsRead st1.fs bakPath).getD []))
          (ctx.resolve p) = _
        rw [fsRead_fsWrite_same, hrb, hread]
        rfl
      · rw [hmuts, List.map_append]
        simp only [List.map_cons, List.map_nil]
        rw [List.getLast?_concat]
        unfold hashFileSafe
        rw [hread]
        rfl
      · intro st' pv now3 aid3 rb hma' hfind' hkv'
        exact rollback_missing ctx st' pv now3 aid3 rb hma' hfind' hkv'
  | false =>
    rw [selfModify_success_missing ctx st p content now mutId rbId auditId bakPath
      hma hagg hcan hprot hallow hex, Prod.mk.injEq] at hsm
    obtain ⟨hfst, -⟩ := hsm
    have hfs1 : st1.fs = fsWrite st.fs (ctx.resolve p) content := by
      rw [← hfst]
    have hrbs : st1.db.selfModRollbacks = st.db.selfModRollbacks
        ++ [{ id := rbId, mutationId := mutId, path := ctx.resolve p
            , rollbackHash := hashFileSafe ctx (fsWrite st.fs (ctx.resolve p) content)
                (ctx.resolve p)
            , createdAt := now }] := by
      rw [← hfst]
      rfl
    have hmuts : st1.db.selfModMutations = st.db.selfModMutations
        ++ [{ id := mutId, path := ctx.resolve p
            , beforeHash := none
            , afterHash := hashFileSafe ctx (fsWrite st.fs (ctx.resolve p) content)
                (ctx.resolve p)
            , reason := some "runtime self-modification", createdAt := now }] := by
      rw [← hfst]
      rfl
    have hem : st1.db.emergency = st.db.emergency := by
      rw [← hfst]
      rfl
    have hsv : st1.db.survivalSnapshots = st.db.survivalSnapshots := by
      rw [← hfst]
      rfl
    have hkv1 : getKV st1.db (selfModBackupKeyBase ++ mutId) = some "__DELETE__" := by
      rw [← hfst]
      exact getKV_setKV_same _ _ _
    have hma2 : assertMutableOperationAllowed st1.db (str "self-mod rollback") = none :=
      assertMutable_congr (str "self-mod rollback") (str "self-modification") hem hsv hma
    obtain ⟨rest, hlist⟩ := listRollbackPoints_strict_max st1.db
      st.db.selfModRollbacks _ hrbs hfresh
    have hfind : (listRollbackPoints st1.db 200).find?
        (fun point => point.path = ctx.resolve p)
        = some { id := rbId, mutationId := mutId, path := ctx.resolve p
               , rollbackHash := hashFileSafe ctx (fsWrite st.fs (ctx.resolve p) content)
                   (ctx.resolve p)
               , createdAt := now } := by
      rw [hlist]
      exact List.find?_cons_of_pos _ (by simp)
    have hrc := rollback_delete ctx st1 p now2 aid2 _ hma2 hfind hkv1
    have hex2 : fsExists st1.fs (ctx.resolve p) = true := by
      rw [hfs1, fsExists_eq_isSome, fsRead_fsWrite_same]
      rfl
    refine ⟨?_, ?_, ?_, ?_⟩
    · rw [hrc]
    · rw [hrc]
      show fsRead (if fsExists st1.fs (ctx.resolve p) = true then
          fsRemove st1.fs (ctx.resolve p) else st1.fs) (ctx.resolve p) = _
      rw [if_pos hex2, fsRead_fsRemove_same, fsRead_of_not_exists st.fs _ hex]
    · rw [hmuts, List.map_append]
      simp only [List.map_cons, List.map_nil]
      rw [List.getLast?_concat, fsRead_of_not_exists st.fs _ hex]
      rfl
    · intro st' pv now3 aid3 rb hma' hfind' hkv'
      exact rollback_missing ctx st' pv now3 aid3 rb hma' hfind' hkv'

def cxRbSt : RtState := { fs := [("f", str "old")], db := emptyDb }

theorem rollback_after_selfModify_witness :
    (rollbackSelfMod cxSmCtx
      (selfModify cxSmCtx cxRbSt "f" (str "new") 10 "m1" "r1" "a1" "bak").1 "f" 20 "a2").2
      = none
    ∧ fsRead (rollbackSelfMod cxSmCtx
        (selfModify cxSmCtx cxRbSt "f" (str "new") 10 "m1" "r1" "a1" "bak").1
        "f" 20 "a2").1.fs (cxSmCtx.resolve "f")
      = fsRead cxRbSt.fs (cxSmCtx.resolve "f") := by
  have h := rollback_after_selfModify cxSmCtx cxRbSt
    (selfModify cxSmCtx cxRbSt "f" (str "new") 10 "m1" "r1" "a1" "bak").1
    "f" (str "new") 10 20 "m1" "r1" "a1" "bak" "a2"
    rfl (by intro q hq; cases hq) (by decide) (by decide) (by decide)
  exact ⟨h.1, h.2.1⟩

/-! ### Alert evaluation (runtime.ts: `evaluateAndRouteAlerts`)

Each candidate is checked against a per-(severity, message) KV marker holding
the epoch-milliseconds of the last fired alert with that pair; a candidate
within 60 s of the marker is skipped, otherwise the marker is stamped, an
alert row is inserted and a mirror incident is recorded.  The console and
webhook deliveries do not touch the store and are not modeled. -/

structure AlertingConfig where
  enabled : Bool
  evaluationWindowMinutes : Nat
  criticalIncidentThreshold : Nat
  brainFailureThreshold : Nat
  queueDepthThreshold : Nat
  route : String

structure AlertCandidate where
  code : String
  severity : String
  message : Str
  metadata : JsonVal

def alertPairKey (sev : String) (msg : Str) : String :=
  "alert:last:" ++ sev ++ ":" ++ String.mk msg

/-- The KV marker key `alert:last:${severity}:${message}` of a candidate. -/
def alertMarkerKey (c : AlertCandidate) : String := alertPairKey c.severity c.message

def routeAlertFire (route : String) (db : AethernetDatabase) (c : AlertCandidate)
    (now : Nat) (alertId incId : String) : AethernetDatabase :=
  let db1 := setKV db (alertMarkerKey c) (String.mk (natToStr now))
  let db2 := insertAlertEvent db1
    { id := alertId, code := c.code, severity := c.severity, route := route
    , message := c.message, metadata := c.metadata, timestamp := now }
  insertRuntimeIncident db2
    { id := incId, code := c.code, severity := c.severity, category := "alert"
    , message := c.message, metadata := c.metadata, timestamp := now }

/-- One iteration of the candidate loop: `Number(getKV(markerKey) ?? "0")`,
skip when finite and fresher than 60 s, fire otherwise (a `NaN` marker never
suppresses). -/
def routeAlertCandidate (route : String) (db : AethernetDatabase) (c : AlertCandidate)
    (now : Nat) (alertId incId : String) : AethernetDatabase :=
  let last : Option Nat :=
    match getKV db (alertMarkerKey c) with
    | none => some 0
    | some v => parseNat v.data
  match last with
  | some l => if now - l < 60000 then db else routeAlertFire route db c now alertId incId
  | none => routeAlertFire route db c now alertId incId

/-- `listRuntimeIncidents(limit)`: `ORDER BY timestamp DESC LIMIT ?`. -/
def listRuntimeIncidents (db : AethernetDatabase) (limit : Nat) : List IncidentRow :=
  ((sortDesc (fun r => r.timestamp) db.runtimeIncidents).take limit)

def buildAlertCandidates (cfg : AlertingConfig) (db : AethernetDatabase) (now : Nat)
    (survivalTier : String) (queueDepth brainFailureStreak actionFailures : Nat) :
    List AlertCandidate :=
  let windowStart := now - cfg.evaluationWindowMinutes * 60000
  let incidents := (listRuntimeIncidents db 500).filter
    (fun i => decide (windowStart ≤ i.timestamp))
  let criticalCount := (incidents.filter (fun i => i.severity = "critical")).length
  (if survivalTier = "dead" then
    [{ code := "ALERT_TRIGGERED", severity := "critical"
     , message := str "Survival tier reached dead state."
     , metadata := .jobj [("survivalTier", .jstr survivalTier.data)] }]
  else [])
  ++ (if cfg.criticalIncidentThreshold ≤ criticalCount then
    [{ code := "ALERT_TRIGGERED", severity := "critical"
     , message := str "Critical incident threshold exceeded (" ++ natToStr criticalCount
         ++ str "/" ++ natToStr cfg.criticalIncidentThreshold ++ str ")."
     , metadata := .jobj [("criticalCount", .jnum criticalCount)
         , ("evaluationWindowMinutes", .jnum cfg.evaluationWindowMinutes)] }]
  else [])
  ++ (if cfg.brainFailureThreshold ≤ brainFailureStreak then
    [{ code := "ALERT_TRIGGERED", severity := "critical"
     , message := str "Brain failure streak threshold exceeded ("
         ++ natToStr brainFailureStreak ++ str "/" ++ natToStr cfg.brainFailureThreshold
         ++ str ")."
     , metadata := .jobj [("brainFailureStreak", .jnum brainFailureStreak)] }]
  else [])
  ++ (if cfg.queueDepthThreshold ≤ queueDepth then
    [{ code := "ALERT_TRIGGERED", severity := "warning"
     , message := str "Queue depth threshold exceeded (" ++ natToStr queueDepth
         ++ str "/" ++ natToStr cfg.queueDepthThreshold ++ str ")."
     , metadata := .jobj [("queueDepth", .jnum queueDepth)
         , ("actionFailures", .jnum actionFailures)] }]
  else [])

/-- `evaluateAndRouteAlerts` over the store: build the candidates, then run
the marker-gated loop; `ids` supplies the generated `ulid()` identifiers. -/
def evaluateAndRouteAlerts (cfg : AlertingConfig) (db : AethernetDatabase) (now : Nat)
    (survivalTier : String) (queueDepth brainFailureStreak actionFailures : Nat)
    (ids : Nat → String × String) : AethernetDatabase :=
  if cfg.enabled = false then db
  else
    (buildAlertCandidates cfg db now survivalTier queueDepth brainFailureStreak
      actionFailures).foldl
      (fun acc c => routeAlertCandidate cfg.route acc.2 c now (ids acc.1).1 (ids acc.1).2
        |> fun db' => (acc.1 + 1, db'))
      (0, db) |>.2

/-- One processed candidate, with its clock value and generated identifiers. -/
structure AlertStep where
  c : AlertCandidate
  now : Nat
  alertId : String
  incId : String

def runAlertSteps (route : String) : AethernetDatabase → List AlertStep → AethernetDatabase
  | db, [] => db
  | db, s :: rest =>
    runAlertSteps route (routeAlertCandidate route db s.c s.now s.alertId s.incId) rest

theorem alertPairKey_data_w (m : Str) :
    (alertPairKey "warning" m).data = str "alert:last:warning:" ++ m := rfl

theorem alertPairKey_data_c (m : Str) :
    (alertPairKey "critical" m).data = str "alert:last:critical:" ++ m := rfl

/-- For the two severities the runtime emits, the marker key determines the
`(severity, message)` pair. -/
theorem alertPairKey_inj {s1 s2 : String} {m1 m2 : Str}
    (h1 : s1 = "warning" ∨ s1 = "critical") (h2 : s2 = "warning" ∨ s2 = "critical")
    (h : alertPairKey s1 m1 = alertPairKey s2 m2) : s1 = s2 ∧ m1 = m2 := by
  have hd := congrArg String.data h
  rcases h1 with h1 | h1 <;> subst h1 <;> rcases h2 with h2 | h2 <;> subst h2
  · rw [alertPairKey_data_w, alertPairKey_data_w] at hd
    exact ⟨rfl, List.append_cancel_left hd⟩
  · rw [alertPairKey_data_w, alertPairKey_data_c] at hd
    have h11 : (str "alert:last:warning:" ++ m1)[11]?
        = (str "alert:last:critical:" ++ m2)[11]? := by rw [hd]
    rw [List.getElem?_append_left (by decide), List.getElem?_append_left (by decide)] at h11
    exact absurd h11 (by decide)
  · rw [alertPairKey_data_c, alertPairKey_data_w] at hd
    have h11 : (str "alert:last:critical:" ++ m1)[11]?
        = (str "alert:last:warning:" ++ m2)[11]? := by rw [hd]
    rw [List.getElem?_append_left (by decide), List.getElem?_append_left (by decide)] at h11
    exact absurd h11 (by decide)
  · rw [alertPairKey_data_c, alertPairKey_data_c] at hd
    exact ⟨rfl, List.append_cancel_left hd⟩

/-- Rows with the same `(severity, message)` pair are at least a minute
apart, in list order. -/
def AlertP (x y : AlertRow) : Prop :=
  x.severity = y.severity → x.message = y.message → x.timestamp + 60000 ≤ y.timestamp

/-- The marker of a pair is absent exactly while no row of the pair exists;
a present marker parses and bounds every row of the pair. -/
def MarkerOk (db : AethernetDatabase) (sev : String) (msg : Str) : Prop :=
  (getKV db (alertPairKey sev msg) = none
    ∧ ∀ a ∈ db.runtimeAlerts, a.severity = sev → a.message = msg → False)
  ∨ (∃ v t, getKV db (alertPairKey sev msg) = some v ∧ parseNat v.data = some t
      ∧ ∀ a ∈ db.runtimeAlerts, a.severity = sev → a.message = msg → a.timestamp ≤ t)

def AlertInv (db : AethernetDatabase) : Prop :=
  (∀ a ∈ db.runtimeAlerts, a.severity = "warning" ∨ a.severity = "critical")
  ∧ List.Pairwise AlertP db.runtimeAlerts
  ∧ ∀ (sev : String) (msg : Str), MarkerOk db sev msg

theorem routeAlertFire_shape (route : String) (db : AethernetDatabase)
    (c : AlertCandidate) (now : Nat) (aid iid : String) :
    (routeAlertFire route db c now aid iid).runtimeAlerts
      = db.runtimeAlerts
          ++ [{ id := aid, code := c.code, severity := c.severity,
                route := route, message := redactText c.message,
                metadata := redactUnknown c.metadata, timestamp := now }]
    ∧ (routeAlertFire route db c now aid iid).runtimeIncidents
      = db.runtimeIncidents
          ++ [{ id := iid, code := c.code, severity := c.severity,
                category := "alert", message := redactText c.message,
                metadata := redactUnknown c.metadata, timestamp := now }]
    ∧ getKV (routeAlertFire route db c now aid iid) (alertPairKey c.severity c.message)
      = some (String.mk (natToStr now)) := by
  refine ⟨rfl, rfl, ?_⟩
  show getKV (setKV db (alertMarkerKey c) (String.mk (natToStr now)))
    (alertPairKey c.severity c.message) = _
  exact getKV_setKV_same _ _ _

theorem routeAlertCandidate_fire_eq (route : String) (db : AethernetDatabase)
    (c : AlertCandidate) (now : Nat) (aid iid v : String) (t : Nat)
    (hm : getKV db (alertMarkerKey c) = some v) (hpt : parseNat v.data = some t)
    (hlt : ¬ now - t < 60000) :
    routeAlertCandidate route db c now aid iid = routeAlertFire route db c now aid iid := by
  unfold routeAlertCandidate
  simp only [hm, hpt]
  rw [if_neg hlt]

theorem routeAlertCandidate_suppressed (route : String) (db : AethernetDatabase)
    (c : AlertCandidate) (now : Nat) (aid iid v : String) (t : Nat)
    (hm : getKV db (alertMarkerKey c) = some v) (hpt : parseNat v.data = some t)
    (hlt : now - t < 60000) :
    routeAlertCandidate route db c now aid iid = db := by
  unfold routeAlertCandidate
  simp only [hm, hpt]
  rw [if_pos hlt]

theorem routeAlertCandidate_fresh (route : String) (db : AethernetDatabase)
    (c : AlertCandidate) (now : Nat) (aid iid : String)
    (hm : getKV db (alertMarkerKey c) = none) (hlt : ¬ now - 0 < 60000) :
    routeAlertCandidate route db c now aid iid = routeAlertFire route db c now aid iid := by
  unfold routeAlertCandidate
  simp only [hm]
  rw [if_neg hlt]

theorem alertInv_fire (route : String) (db : AethernetDatabase) (c : AlertCandidate)
    (now : Nat) (aid iid : String)
    (hinv : AlertInv db)
    (hws : c.severity = "warning" ∨ c.severity = "critical")
    (hred : redactText c.message = c.message)
    (hgap : ∀ a ∈ db.runtimeAlerts, a.severity = c.severity → a.message = c.message →
      a.timestamp + 60000 ≤ now) :
    AlertInv (routeAlertFire route db c now aid iid) := by
  obtain ⟨hws0, hpw, hmk⟩ := hinv
  obtain ⟨halts, -, hgkv⟩ := routeAlertFire_shape route db c now aid iid
  rw [hred] at halts
  refine ⟨?_, ?_, ?_⟩
  · rw [halts]
    intro a ha
    rcases List.mem_append.mp ha with hold | hnew
    · exact hws0 a hold
    · rw [List.mem_singleton.mp hnew]
      exact hws
  · rw [halts, List.pairwise_append]
    refine ⟨hpw, List.pairwise_singleton _ _, ?_⟩
    intro a ha b hb
    rw [List.mem_singleton.mp hb]
    intro hsev hmsg
    exact hgap a ha hsev hmsg
  · intro sev msg
    by_cases hkeq : alertPairKey sev msg = alertMarkerKey c
    · refine Or.inr ⟨String.mk (natToStr now), now, ?_, parseNat_natToStr now, ?_⟩
      · rw [hkeq]
        exact hgkv
      · rw [halts]
        intro a ha hse hmsg2
        rcases List.mem_append.mp ha with hold | hnew
        · have hsev_ws : sev = "warning" ∨ sev = "critical" := hse ▸ hws0 a hold
          obtain ⟨hseq, hmeq⟩ := alertPairKey_inj hsev_ws hws hkeq
          have := hgap a hold (by rw [hse, hseq]) (by rw [hmsg2, hmeq])
          omega
        · rw [List.mem_singleton.mp hnew]
    · have hg : getKV (routeAlertFire route db c now aid iid) (alertPairKey sev msg)
          = getKV db (alertPairKey sev msg) := by
        show getKV (setKV db (alertMarkerKey c) (String.mk (natToStr now)))
          (alertPairKey sev msg) = _
        unfold getKV setKV
        rw [getKVVal_setKVVal_ne _ _ _ _ (fun hh => hkeq hh.symm)]
      have hnomatch : ∀ (a : AlertRow),
          a ∈ [({ id := aid, code := c.code, severity := c.severity,
                  route := route, message := c.message,
                  metadata := redactUnknown c.metadata,
                  timestamp := now } : AlertRow)] →
          a.severity = sev → a.message = msg → False := by
        intro a ha hse hmsg2
        rw [List.mem_singleton.mp ha] at hse hmsg2
        exact hkeq (by rw [← hse, ← hmsg2]; rfl)
      rcases hmk sev msg with ⟨hgv, hrows⟩ | ⟨v, t, hgv, hpt, hrows⟩
      · refine Or.inl ⟨by rw [hg, hgv], ?_⟩
        rw [halts]
        intro a ha hse hmsg2
        rcases List.mem_append.mp ha with hold | hnew
        · exact hrows a hold hse hmsg2
        · exact hnomatch a hnew hse hmsg2
      · refine Or.inr ⟨v, t, by rw [hg, hgv], hpt, ?_⟩
        rw [halts]
        intro a ha hse hmsg2
        rcases List.mem_append.mp ha with hold | hnew
        · exact hrows a hold hse hmsg2
        · exact (hnomatch a hnew hse hmsg2).elim

theorem alertInv_step (route : String) (db : AethernetDatabase) (c : AlertCandidate)
    (now : Nat) (aid iid : String)
    (hinv : AlertInv db)
    (hws : c.severity = "warning" ∨ c.severity = "critical")
    (hred : redactText c.message = c.message) :
    AlertInv (routeAlertCandidate route db c now aid iid) := by
  cases hm : getKV db (alertMarkerKey c) with
  | none =>
    have hm' : getKV db (alertPairKey c.severity c.message) = none := hm
    by_cases hlt : now - 0 < 60000
    · have he : routeAlertCandidate route db c now aid iid = db := by
        unfold routeAlertCandidate
        simp only [hm]
        rw [if_pos hlt]
      rw [he]
      exact hinv
    · rw [routeAlertCandidate_fresh route db c now aid iid hm hlt]
      refine alertInv_fire route db c now aid iid hinv hws hred ?_
      intro a ha hse hmsg
      rcases hinv.2.2 c.severity c.message with ⟨hgv, hrows⟩ | ⟨v, t, hgv, -, -⟩
      · exact absurd (hrows a ha hse hmsg) (fun h => h)
      · rw [hm'] at hgv
        cases hgv
  | some v =>
    have hm' : getKV db (alertPairKey c.severity c.message) = some v := hm
    rcases hinv.2.2 c.severity c.message with ⟨hgv, -⟩ | ⟨v', t, hgv, hpt, hrows⟩
    · rw [hm'] at hgv
      cases hgv
    · rw [hm'] at hgv
      injection hgv with hv
      subst hv
      by_cases hlt : now - t < 60000
      · rw [routeAlertCandidate_suppressed route db c now aid iid v t hm hpt hlt]
        exact hinv
      · rw [routeAlertCandidate_fire_eq route db c now aid iid v t hm hpt hlt]
        refine alertInv_fire route db c now aid iid hinv hws hred ?_
        intro a ha hse hmsg
        have hat := hrows a ha hse hmsg
        omega

theorem alertInv_run (route : String) :
    ∀ (steps : List AlertStep) (db : AethernetDatabase), AlertInv db →
      (∀ s ∈ steps, (s.c.severity = "warning" ∨ s.c.severity = "critical")
        ∧ redactText s.c.message = s.c.message) →
      AlertInv (runAlertSteps route db steps)
  | [], _, h, _ => h
  | s :: rest, db, h, hs => by
    show AlertInv (runAlertSteps route
      (routeAlertCandidate route db s.c s.now s.alertId s.incId) rest)
    refine alertInv_run route rest _ ?_ (fun s' h' => hs s' (List.mem_cons_of_mem s h'))
    exact alertInv_step route db s.c s.now s.alertId s.incId h
      (hs s (List.mem_cons_self s rest)).1 (hs s (List.mem_cons_self s rest)).2

/-- C9: the evaluator's de-duplication and routing.  Over any run of the
candidate loop starting from a store with no alert rows and an empty `kv`
table, any two persisted alert rows carrying the same `(severity, message)`
pair are at least 60 s apart; a candidate whose marker is fresher than 60 s
leaves the store untouched; a candidate past its marker is persisted as one
alert row and mirrored as one incident with the candidate's code under
category `alert`; and every candidate the evaluator builds carries code
`ALERT_TRIGGERED` with severity `warning` or `critical`. -/
theorem alert_dedup (route : String) (db0 : AethernetDatabase) (steps : List AlertStep)
    (h0a : db0.runtimeAlerts = []) (h0k : db0.kv = [])
    (hsteps : ∀ s ∈ steps, (s.c.severity = "warning" ∨ s.c.severity = "critical")
        ∧ redactText s.c.message = s.c.message) :
    List.Pairwise AlertP (runAlertSteps route db0 steps).runtimeAlerts
    ∧ (∀ (db : AethernetDatabase) (c : AlertCandidate) (now t : Nat) (aid iid v : String),
        getKV db (alertMarkerKey c) = some v → parseNat v.data = some t →
        now - t < 60000 →
        routeAlertCandidate route db c now aid iid = db)
    ∧ (∀ (db : AethernetDatabase) (c : AlertCandidate) (now t : Nat) (aid iid v : String),
        getKV db (alertMarkerKey c) = some v → parseNat v.data = some t →
        ¬ now - t < 60000 →
        (routeAlertCandidate route db c now aid iid).runtimeAlerts
          = db.runtimeAlerts
              ++ [{ id := aid, code := c.code, severity := c.severity,
                    route := route, message := redactText c.message,
                    metadata := redactUnknown c.metadata, timestamp := now }]
        ∧ (routeAlertCandidate route db c now aid iid).runtimeIncidents
          = db.runtimeIncidents
              ++ [{ id := iid, code := c.code, severity := c.severity,
                    category := "alert", message := redactText c.message,
                    metadata := redactUnknown c.metadata, timestamp := now }])
    ∧ (∀ (cfg : AlertingConfig) (db : AethernetDatabase) (now : Nat) (tier : String)
        (qd bfs af : Nat) (c : AlertCandidate),
        c ∈ buildAlertCandidates cfg db now tier qd bfs af →
        c.code = "ALERT_TRIGGERED"
        ∧ (c.severity = "warning" ∨ c.severity = "critical")) := by
  refine ⟨?_, ?_, ?_, ?_⟩
  · refine (alertInv_run route steps db0 ⟨?_, ?_, ?_⟩ hsteps).2.1
    · rw [h0a]
      intro a ha
      cases ha
    · rw [h0a]
      exact List.Pairwise.nil
    · intro sev msg
      refine Or.inl ⟨?_, ?_⟩
      · unfold getKV getKVVal
        rw [h0k]
        rfl
      · rw [h0a]
        intro a ha
        cases ha
  · intro db c now t aid iid v hm hpt hlt
    exact routeAlertCandidate_suppressed route db c now aid iid v t hm hpt hlt
  · intro db c now t aid iid v hm hpt hlt
    rw [routeAlertCandidate_fire_eq route db c now aid iid v t hm hpt hlt]
    obtain ⟨h1, h2, -⟩ := routeAlertFire_shape route db c now aid iid
    exact ⟨h1, h2⟩
  · intro cfg db now tier qd bfs af c hc
    unfold buildAlertCandidates at hc
    rcases List.mem_append.mp hc with h123 | h4
    · rcases List.mem_append.mp h123 with h12 | h3
      · rcases List.mem_append.mp h12 with h1 | h2
        · by_cases ht : tier = "dead"
          · rw [if_pos ht] at h1
            rw [List.mem_singleton.mp h1]
            exact ⟨rfl, Or.inr rfl⟩
          · rw [if_neg ht] at h1
            cases h1
        · by_cases ht : cfg.criticalIncidentThreshold
              ≤ ((listRuntimeIncidents db 500).filter
                  (fun i => decide (now - cfg.evaluationWindowMinutes * 60000 ≤ i.timestamp))
                |>.filter (fun i => i.severity = "critical")).length
          · rw [if_pos ht] at h2
            rw [List.mem_singleton.mp h2]
            exact ⟨rfl, Or.inr rfl⟩
          · rw [if_neg ht] at h2
            cases h2
      · by_cases ht : cfg.brainFailureThreshold ≤ bfs
        · rw [if_pos ht] at h3
          rw [List.mem_singleton.mp h3]
          exact ⟨rfl, Or.inr rfl⟩
        · rw [if_neg ht] at h3
          cases h3
    · by_cases ht : cfg.queueDepthThreshold ≤ qd
      · rw [if_pos ht] at h4
        rw [List.mem_singleton.mp h4]
        exact ⟨rfl, Or.inl rfl⟩
      · rw [if_neg ht] at h4
        cases h4

def cxCand : AlertCandidate :=
  { code := "ALERT_TRIGGERED", severity := "critical"
  , message := str "Survival tier reached dead state."
  , metadata := .jobj [("survivalTier", .jstr (str "dead"))] }

def cxAlertDb : AethernetDatabase :=
  setKV emptyDb (alertMarkerKey cxCand) (String.mk (natToStr 100000))

theorem alert_dedup_witness :
    routeAlertCandidate "db" cxAlertDb cxCand 120000 "a1" "i1" = cxAlertDb
    ∧ List.Pairwise AlertP (runAlertSteps "db" emptyDb
        [{ c := cxCand, now := 100000, alertId := "a1", incId := "i1" }]).runtimeAlerts := by
  have h := alert_dedup "db" emptyDb
    [{ c := cxCand, now := 100000, alertId := "a1", incId := "i1" }] rfl rfl
    (by
      intro s hs
      rw [List.mem_singleton.mp hs]
      exact ⟨Or.inr rfl, by decide⟩)
  refine ⟨h.2.1 cxAlertDb cxCand 120000 100000 "a1" "i1" (String.mk (natToStr 100000))
    (getKV_setKV_same _ _ _) (parseNat_natToStr 100000) (by decide), h.1⟩

/-! ### Action execution gates (runtime.ts: `executeBrainAction` for
`send_message`, and `actionFailureCode`) -/

/-- `actionFailureCode(actionType, message)`. -/
def actionFailureCode (actionType : String) (message : Str) : String :=
  if containsSeg (str "Wallet is locked") message then "WALLET_LOCKED"
  else if containsSeg (str "unsupported chain") message
      || containsSeg (str "does not support") message then "CHAIN_CAPABILITY_BLOCKED"
  else if containsSeg (str "allowlist") message
      || containsSeg (str "disabled by autonomy policy") message then "ACTION_BLOCKED"
  else if actionType = "self_modify" && containsSeg (str "denied") message then
    "SECURITY_POLICY_VIOLATION"
  else "ACTION_FAILED"

def walletLockedSendMsg : Str :=
  str "Wallet is locked. Unlock before autonomous send_message actions."

def emergencySendMsg : Str :=
  str "Cannot perform messaging send while emergency stop is active"

/-- The `send_message` arm of `executeBrainAction`, as the sequence of gates
it runs through.  `chainCheck` stands for `assertActionChainCapability`
(`none` = passes, `some e` = its thrown message, resolved from the config
chain table) and `sendRest` for the transport steps of `sendMessage` after
its own gate.  The wallet gate reads `isWalletUnlocked()`; the
emergency/survival gate (`assertMutableOperationAllowed`) only runs inside
`sendMessage`, after it. -/
def executeSendMessage (db : AethernetDatabase) (w : WalletState) (now : Nat)
    (strict allowlisted : Bool) (chainCheck : Option Str)
    (toOk contentOk : Bool) (sendRest : Except Str String) : Except Str String :=
  if strict && !allowlisted then
    .error (str "Action send_message is not in the autonomy allowlist.")
  else
    match chainCheck with
    | some e => .error e
    | none =>
      if isWalletUnlocked w now = false then
        .error walletLockedSendMsg
      else if toOk = false || contentOk = false then
        .error (str "send_message requires string params.to and params.content")
      else
        match assertMutableOperationAllowed db (str "messaging send") with
        | some e => .error e
        | none => sendRest

instance {ε α : Type} [DecidableEq ε] [DecidableEq α] : DecidableEq (Except ε α) :=
  fun x y =>
    match x, y with
    | .ok a, .ok b =>
      if h : a = b then isTrue (by rw [h])
      else isFalse (by intro hh; cases hh; exact h rfl)
    | .error a, .error b =>
      if h : a = b then isTrue (by rw [h])
      else isFalse (by intro hh; cases hh; exact h rfl)
    | .ok _, .error _ => isFalse (by intro hh; cases hh)
    | .error _, .ok _ => isFalse (by intro hh; cases hh)

def cxEmergencyDb : AethernetDatabase :=
  { emptyDb with emergency := { enabled := true, reason := none, updatedAt := 0 } }

def cxLockedWallet : WalletState :=
  { account := none, unlockedUntil := none, db := cxEmergencyDb }

/-- C2 counterexample: with emergency stop enabled and no active unlock
session, an allowlisted `send_message` attempt is refused by the
wallet-session gate, not the emergency gate: the thrown message is the
wallet-locked one and `actionFailureCode` files it as `WALLET_LOCKED`, even
though the emergency stop is active. -/
theorem send_message_gate_order_fails :
    cxEmergencyDb.emergency.enabled = true
    ∧ isWalletUnlocked cxLockedWallet 50 = false
    ∧ executeSendMessage cxEmergencyDb cxLockedWallet 50 true true none true true
        (.ok "send_message:m1")
      = .error walletLockedSendMsg
    ∧ actionFailureCode "send_message" walletLockedSendMsg = "WALLET_LOCKED"
    ∧ actionFailureCode "send_message" emergencySendMsg = "ACTION_FAILED" := by
  decide

/-- C2 (amended): for `send_message` the executor checks the allowlist, the
chain capability, and then the wallet-session gate; the emergency/survival
gate runs only afterwards, inside `sendMessage`.  Hence with the earlier
gates passing, a locked wallet always wins over an active emergency stop and
is classified `WALLET_LOCKED`, while with an unlocked wallet an active
emergency stop yields the emergency refusal classified `ACTION_FAILED`. -/
theorem send_message_gate_order (db : AethernetDatabase) (w : WalletState) (now : Nat)
    (toOk contentOk : Bool) (sendRest : Except Str String)
    (hem : db.emergency.enabled = true) :
    (isWalletUnlocked w now = false →
      executeSendMessage db w now true true none toOk contentOk sendRest
        = .error walletLockedSendMsg
      ∧ actionFailureCode "send_message" walletLockedSendMsg = "WALLET_LOCKED")
    ∧ (isWalletUnlocked w now = true → toOk = true → contentOk = true →
      executeSendMessage db w now true true none toOk contentOk sendRest
        = .error (str "Cannot perform " ++ str "messaging send"
            ++ str " while emergency stop is active")
      ∧ actionFailureCode "send_message"
          (str "Cannot perform " ++ str "messaging send"
            ++ str " while emergency stop is active") = "ACTION_FAILED") := by
  constructor
  · intro hlock
    refine ⟨?_, by decide⟩
    unfold executeSendMessage
    rw [if_neg (by decide), hlock]
    rfl
  · intro hunlock hto hcontent
    refine ⟨?_, by decide⟩
    unfold executeSendMessage
    rw [if_neg (by decide), hunlock, hto, hcontent]
    show (match assertMutableOperationAllowed db (str "messaging send") with
      | some e => Except.error e
      | none => sendRest) = _
    unfold assertMutableOperationAllowed
    rw [if_pos hem]

theorem send_message_gate_order_witness :
    executeSendMessage cxEmergencyDb cxLockedWallet 50 true true none true true
        (.ok "send_message:m1")
      = .error walletLockedSendMsg := by
  have h := send_message_gate_order cxEmergencyDb cxLockedWallet 50 true true
    (.ok "send_message:m1") rfl
  exact (h.1 (by decide)).1

/-! ### The orchestrator tick (runtime.ts: `run`)

Translated over the store slice the claims under audit observe: the
emergency/survival/dry-run branches, the brain call and its two failure
shapes, validation, the failure streak KV, the fail-safe throw, the action
loop with its incidents, the turn/telemetry/audit inserts and the alert
evaluation.  Messaging inbox sync, memory writes and skill listing touch
tables outside this model and are not tracked; clock reads and `ulid()`
values come from the environment. -/

def brainFailureStreakKey : String := "brain_failure_streak_v1"

/-- `setAgentState(state)`: the `agent_state` and `last_state_update` keys. -/
def setAgentState (db : AethernetDatabase) (state : String) (now : Nat) : AethernetDatabase :=
  setKV (setKV db "agent_state" state) "last_state_update" (String.mk (natToStr now))

structure AutonomyConfig where
  maxActionsPerTurn : Int
  maxSleepMs : Int
  strictActionAllowlist : Bool
  maxBrainFailuresBeforeStop : Nat
  maxConsecutiveErrors : Nat
  defaultIntervalMs : Int

/-- The config defaults of `loadAgentConfig` with no env overrides. -/
def defaultAutonomy : AutonomyConfig :=
  { maxActionsPerTurn := 6, maxSleepMs := 300000, strictActionAllowlist := true
  , maxBrainFailuresBeforeStop := 5, maxConsecutiveErrors := 5
  , defaultIntervalMs := 30000 }

def defaultAlerting : AlertingConfig :=
  { enabled := true, evaluationWindowMinutes := 10, criticalIncidentThreshold := 1
  , brainFailureThreshold := 3, queueDepthThreshold := 100, route := "db" }

/-- The inputs and generated values of one tick: brain result (`error` = a
thrown request), per-action executor, clock and identifiers. -/
structure TickEnv where
  dryRun : Bool
  prompt : Option Str
  survivalTier : String
  inboundCount : Nat
  queueDepthAtStart : Nat
  estimatedUsd : Nat
  brain : Except Str BrainTurnOutput
  brainDurationMs : Nat
  exec : BrainActionRaw → Except Str Str
  turnId : String
  telemetryId : String
  ids : Nat → String
  alertIds : Nat → String × String
  now : Nat

/-- The `for (const action of executableActions)` loop: accumulate the store,
the action log, the failure count and the identifier index. -/
def runActionLoop (env : TickEnv) :
    AethernetDatabase × List Str × Nat × Nat → List BrainActionRaw
    → AethernetDatabase × List Str × Nat × Nat
  | acc, [] => acc
  | (db, log, fails, i), a :: rest =>
    match env.exec a with
    | .ok r => runActionLoop env (db, log ++ [r], fails, i + 1) rest
    | .error m =>
      runActionLoop env
        (insertRuntimeIncident db
          { id := env.ids i, code := actionFailureCode a.type m, severity := "warning"
          , category := "action", message := m
          , metadata := .jobj [("actionType", .jstr a.type.data)], timestamp := env.now },
         log ++ [str "action " ++ a.type.data ++ str " failed: " ++ m],
         fails + 1, i + 1) rest

def dryRunOutput : Str :=
  str "Dry run complete: runtime safeguards and autonomous loop skeleton executed."

/-- `setAgentState(survivalTier === "normal" ? "running" : survivalTier)`. -/
def tickDb1 (db : AethernetDatabase) (env : TickEnv) : AethernetDatabase :=
  setAgentState db
    (if env.survivalTier = "normal" then "running" else env.survivalTier) env.now

/-- The store after the brain call: a thrown request adds the
`BRAIN_REQUEST_FAILED` error incident. -/
def tickBrainDb (db1 : AethernetDatabase) (env : TickEnv) : AethernetDatabase :=
  match env.brain with
  | .ok _ => db1
  | .error msg =>
    insertRuntimeIncident db1
      { id := env.ids 1, code := "BRAIN_REQUEST_FAILED", severity := "error"
      , category := "brain", message := str "Brain generation failed: " ++ msg
      , metadata := .jobj [], timestamp := env.now }

/-- The brain output fed to validation: the provider value, or the synthetic
`Brain failure` noop turn on a thrown request. -/
def tickBrainOutput (env : TickEnv) : BrainTurnOutput :=
  match env.brain with
  | .ok o => o
  | .error msg =>
    { summary := some (str "Brain failure: " ++ msg)
    , nextActions := some
        [{ type := "noop", reason := some "brain_failure", params := none }]
    , memoryWrites := none, sleepMs := none, integrity := some "malformed" }

def tickBrainFailed0 (env : TickEnv) : Bool :=
  match env.brain with
  | .ok _ => false
  | .error _ => true

def tickLimits (cfg : AutonomyConfig) : ValidationLimits :=
  { maxActions := cfg.maxActionsPerTurn, maxSleepMs := cfg.maxSleepMs }

def tickOptions (cfg : AutonomyConfig) : ValidationOptions :=
  { strictAllowlist := cfg.strictActionAllowlist, allowlist := allowedAutonomyActions }

def tickValidation (cfg : AutonomyConfig) (env : TickEnv) : BrainOutputValidationResult :=
  validateBrainTurnOutput (tickBrainOutput env) (tickLimits cfg) (tickOptions cfg)

/-- The store after the `BRAIN_OUTPUT_MALFORMED` incident, if any. -/
def tickDbC (cfg : AutonomyConfig) (db : AethernetDatabase) (env : TickEnv) :
    AethernetDatabase :=
  if (tickValidation cfg env).malformed then
    insertRuntimeIncident (tickBrainDb (tickDb1 db env) env)
      { id := env.ids 2, code := "BRAIN_OUTPUT_MALFORMED", severity := "error"
      , category := "brain"
      , message := str "Brain output failed validation; turn forced into fail-closed mode."
      , metadata := .jobj [("validationErrors",
          .jarr ((tickValidation cfg env).errors.map (fun e => .jstr e.data)))]
      , timestamp := env.now }
  else tickBrainDb (tickDb1 db env) env

def tickBrainFailed (cfg : AutonomyConfig) (env : TickEnv) : Bool :=
  tickBrainFailed0 env || (tickValidation cfg env).malformed

/-- `incrementBrainFailureStreak()` / `resetBrainFailureStreak()` value. -/
def tickStreak (cfg : AutonomyConfig) (db : AethernetDatabase) (env : TickEnv) : Nat :=
  if tickBrainFailed cfg env then
    match getKV (tickDbC cfg db env) brainFailureStreakKey with
    | none => 1
    | some s =>
      match parseNat s.data with
      | some n => n + 1
      | none => 1
  else 0

def tickDbD (cfg : AutonomyConfig) (db : AethernetDatabase) (env : TickEnv) :
    AethernetDatabase :=
  setKV (tickDbC cfg db env) brainFailureStreakKey
    (String.mk (natToStr (tickStreak cfg db env)))

def tickExecutable (cfg : AutonomyConfig) (env : TickEnv) : List BrainActionRaw :=
  if (tickValidation cfg env).malformed then
    [{ type := "noop", reason := some "malformed_output", params := none }]
  else (tickValidation cfg env).output.nextActions.getD []

def tickLoop (cfg : AutonomyConfig) (db : AethernetDatabase) (env : TickEnv) :
    AethernetDatabase × List Str × Nat × Nat :=
  runActionLoop env (tickDbD cfg db env, [], 0, 4) (tickExecutable cfg env)

def tickSummary (cfg : AutonomyConfig) (env : TickEnv) : Str :=
  ((tickValidation cfg env).output.summary).getD []

def tickOutput (cfg : AutonomyConfig) (db : AethernetDatabase) (env : TickEnv) : Str :=
  str "Autonomy turn complete. Summary: " ++ tickSummary cfg env
    ++ str ". Actions: " ++ natToStr (tickLoop cfg db env).2.1.length
    ++ str ". Inbound: " ++ natToStr env.inboundCount ++ str "."

/-- The `autonomy_next_sleep_ms` write. -/
def tickDbF (cfg : AutonomyConfig) (db : AethernetDatabase) (env : TickEnv) :
    AethernetDatabase :=
  setKV (tickLoop cfg db env).1 "autonomy_next_sleep_ms"
    (String.mk (natToStr
      (((tickValidation cfg env).output.sleepMs).getD cfg.defaultIntervalMs).toNat))

def tickTurnRow (cfg : AutonomyConfig) (db : AethernetDatabase) (env : TickEnv) : TurnRow :=
  { id := env.turnId, timestamp := env.now, state := "running"
  , input := env.prompt, output := some (tickOutput cfg db env)
  , metadata := .jobj [("dryRun", .jbool false)
      , ("inboundMessageCount", .jnum env.inboundCount)
      , ("actionCount", .jnum (tickLoop cfg db env).2.1.length)
      , ("actionFailureCount", .jnum (tickLoop cfg db env).2.2.1)
      , ("actions", .jarr ((tickLoop cfg db env).2.1.map .jstr))
      , ("summary", .jstr (tickSummary cfg env))
      , ("queueDepth", .jnum env.queueDepthAtStart)
      , ("brainDurationMs", .jnum env.brainDurationMs)
      , ("brainMalformed", .jbool (tickValidation cfg env).malformed)
      , ("brainFailureStreak", .jnum (tickStreak cfg db env))] }

def tickDbG (cfg : AutonomyConfig) (db : AethernetDatabase) (env : TickEnv) :
    AethernetDatabase :=
  insertTurn (tickDbF cfg db env) (tickTurnRow cfg db env)

def tickTelemetryRow (cfg : AutonomyConfig) (db : AethernetDatabase) (env : TickEnv) :
    TelemetryRow :=
  { id := env.telemetryId, turnId := env.turnId, survivalTier := env.survivalTier
  , estimatedUsd := env.estimatedUsd, queueDepth := env.queueDepthAtStart
  , spendProxyUsd := env.estimatedUsd, actionsTotal := (tickExecutable cfg env).length
  , actionFailures := (tickLoop cfg db env).2.2.1, brainDurationMs := env.brainDurationMs
  , brainFailures := tickStreak cfg db env
  , metadata := .jobj [("inboundMessageCount", .jnum env.inboundCount)
      , ("summary", .jstr (tickSummary cfg env))]
  , createdAt := env.now }

def tickDbH (cfg : AutonomyConfig) (db : AethernetDatabase) (env : TickEnv) :
    AethernetDatabase :=
  insertTurnTelemetry (tickDbG cfg db env) (tickTelemetryRow cfg db env)

def tickDbI (cfg : AutonomyConfig) (db : AethernetDatabase) (env : TickEnv) :
    AethernetDatabase :=
  insertAudit (tickDbH cfg db env)
    { id := env.ids 9, timestamp := env.now, category := "runtime"
    , action := "run_tick"
    , details := some (str "messages=" ++ natToStr env.inboundCount
        ++ str " actions=" ++ natToStr (tickLoop cfg db env).2.1.length
        ++ str " actionFailures=" ++ natToStr (tickLoop cfg db env).2.2.1) }

def tickDbJ (cfg : AutonomyConfig) (acfg : AlertingConfig) (db : AethernetDatabase)
    (env : TickEnv) : AethernetDatabase :=
  evaluateAndRouteAlerts acfg (tickDbI cfg db env) env.now env.survivalTier
    env.queueDepthAtStart (tickStreak cfg db env) (tickLoop cfg db env).2.2.1
    env.alertIds

def runTick (cfg : AutonomyConfig) (acfg : AlertingConfig) (db : AethernetDatabase)
    (env : TickEnv) : AethernetDatabase × Except Str Str :=
  if db.emergency.enabled then
    (db, .error (str "Emergency stop is active: "
      ++ (db.emergency.reason.getD (str "no reason provided"))))
  else if env.survivalTier = "dead" then
    (tickDb1 db env, .error (str "Runtime halted: survival tier is dead"))
  else if env.dryRun then
    (setAgentState
      (insertAudit
        (insertTurn (tickDb1 db env)
          { id := env.turnId, timestamp := env.now, state := "running"
          , input := env.prompt, output := some dryRunOutput
          , metadata := .jobj [("dryRun", .jbool true), ("inboundMessageCount", .jnum 0)
              , ("actionCount", .jnum 0)] })
        { id := env.ids 0, timestamp := env.now, category := "runtime"
        , action := "run_dry", details := env.prompt })
      "sleeping" env.now,
     .ok dryRunOutput)
  else if cfg.maxBrainFailuresBeforeStop ≤ tickStreak cfg db env then
    (insertRuntimeIncident (tickDbD cfg db env)
      { id := env.ids 3, code := "BRAIN_REQUEST_FAILED", severity := "critical"
      , category := "brain"
      , message := str "Brain failure streak threshold reached ("
          ++ natToStr (tickStreak cfg db env) ++ str "/"
          ++ natToStr cfg.maxBrainFailuresBeforeStop ++ str ")."
      , metadata := .jobj [], timestamp := env.now },
     .error (str "Brain failure threshold reached; daemon entering fail-safe stop."))
  else
    (setAgentState (tickDbJ cfg acfg db env) "sleeping" env.now,
     .ok (tickOutput cfg db env))

/-! ### C3: one tick with the brain API key missing -/

/-- `OpenAiBrainProvider.generateTurn` when the key env is unset. -/
def openAiMissingApiKeyOutput (apiKeyEnv : String) : BrainTurnOutput :=
  { summary := some (str "Brain skipped: missing API key env " ++ apiKeyEnv.data ++ str ".")
  , nextActions := some [{ type := "noop", reason := some "missing_api_key", params := none }]
  , memoryWrites := none, sleepMs := none, integrity := some "malformed" }

/-- `OpenAiBrainProvider` fallback when the response body is not JSON. -/
def openAiInvalidJsonOutput : BrainTurnOutput :=
  { summary := some (str "Brain output was not valid JSON.")
  , nextActions := some [{ type := "noop", reason := some "invalid_json", params := none }]
  , memoryWrites := none, sleepMs := none, integrity := some "malformed" }

/-- The `noop` arm of `executeBrainAction`. -/
def execNoop : BrainActionRaw → Except Str Str := fun a =>
  if a.type = "noop" then .ok (str "noop:" ++ (a.reason.getD "none").data)
  else .error (str "Unsupported action type: " ++ a.type.data)

/-- The store right after `initialize()`, as far as these claims read it. -/
def initDb : AethernetDatabase := setKV emptyDb brainFailureStreakKey "0"

def c3Env : TickEnv :=
  { dryRun := false, prompt := none, survivalTier := "normal"
  , inboundCount := 0, queueDepthAtStart := 0, estimatedUsd := 100
  , brain := .ok (openAiMissingApiKeyOutput "AE_KEY")
  , brainDurationMs := 5
  , exec := execNoop
  , turnId := "t1", telemetryId := "tel1"
  , ids := fun n => String.mk ('i' :: natToStr n)
  , alertIds := fun n => (String.mk ('a' :: natToStr n), String.mk ('x' :: natToStr n))
  , now := 1000000 }

def metaField (t : TurnRow) (k : String) : Option JsonVal :=
  match t.metadata with
  | .jobj entries => (entries.find? (fun e => e.1 = k)).map Prod.snd
  | _ => none

/-- The metadata field of a turn when it is a JSON number. -/
def metaNat (t : TurnRow) (k : String) : Option Int :=
  match metaField t k with
  | some (.jnum n) => some n
  | _ => none

/-- C3 counterexample: the missing-API-key tick does not record
`metadata.actionCount = 0` — the validator's fail-closed noop is executed
and logged, so the count is 1. -/
theorem missing_api_key_actionCount_cx :
    ¬ ((runTick defaultAutonomy defaultAlerting initDb c3Env).1.turns.map
        (fun t => metaNat t "actionCount")) = [some 0] := by
  decide

/-- C3 (amended): one tick with `brain.apiKeyEnv="AE_KEY"` unset, empty
prompt and inbox, inserts exactly one Turn with `metadata.actionCount = 1`,
exactly one `BRAIN_OUTPUT_MALFORMED` incident of severity `error`, sets the
brain-failure-streak KV to `"1"`, and writes no alert row (streak 1 is below
the threshold of 3). -/
theorem missing_api_key_tick :
    ((runTick defaultAutonomy defaultAlerting initDb c3Env).1.turns.map
        (fun t => metaNat t "actionCount")) = [some 1]
    ∧ ((runTick defaultAutonomy defaultAlerting initDb c3Env).1.runtimeIncidents.filter
        (fun r => r.code = "BRAIN_OUTPUT_MALFORMED")).map IncidentRow.severity = ["error"]
    ∧ getKV (runTick defaultAutonomy defaultAlerting initDb c3Env).1 brainFailureStreakKey
      = some "1"
    ∧ (runTick defaultAutonomy defaultAlerting initDb c3Env).1.runtimeAlerts.length = 0 := by
  decide

/-! ### The daemon loop (runtime.ts: `runDaemon`)

One iteration per entry of the environment list; the heartbeat table is not
modeled.  `daemonRunning` is the in-memory loop flag; the loop exits only
when a tick throws a dead-tier message or the consecutive-error budget is
exhausted. -/

structure DaemonState where
  db : AethernetDatabase
  daemonRunning : Bool
  consecutiveErrors : Nat

def daemonTick (cfg : AutonomyConfig) (acfg : AlertingConfig) (s : DaemonState)
    (env : TickEnv) : DaemonState :=
  if s.daemonRunning = false then s
  else
    match runTick cfg acfg s.db env with
    | (db', .ok _) => { db := db', daemonRunning := true, consecutiveErrors := 0 }
    | (db', .error msg) =>
      let ce := s.consecutiveErrors + 1
      let deadState := containsSeg (str "survival tier is dead") msg
      let db2 := insertRuntimeIncident db'
        { id := env.ids 20, code := "DAEMON_FAILURE"
        , severity := if deadState then "critical" else "warning"
        , category := "daemon"
        , message := msg ++ str " (consecutiveErrors=" ++ natToStr ce ++ str ")"
        , metadata := .jobj [], timestamp := env.now }
      if deadState || decide (cfg.maxConsecutiveErrors ≤ ce) then
        { db := setAgentState db2 (if deadState then "dead" else "stopped") env.now
        , daemonRunning := false, consecutiveErrors := ce }
      else { db := db2, daemonRunning := true, consecutiveErrors := ce }

def runDaemonTicks (cfg : AutonomyConfig) (acfg : AlertingConfig) :
    DaemonState → List TickEnv → DaemonState
  | s, [] => s
  | s, e :: rest => runDaemonTicks cfg acfg (daemonTick cfg acfg s e) rest

/-! ### C1: brain failure streak does not stop the daemon -/

def c1Cfg : AutonomyConfig := { defaultAutonomy with maxConsecutiveErrors := 999 }

def c1Env : TickEnv := { c3Env with brain := .ok openAiInvalidJsonOutput }

def c1Final : DaemonState :=
  runDaemonTicks c1Cfg defaultAlerting
    { db := initDb, daemonRunning := true, consecutiveErrors := 0 }
    [c1Env, c1Env, c1Env, c1Env, c1Env]

/-- C1 (code bug): with `maxBrainFailuresBeforeStop = 5`,
`maxConsecutiveErrors = 999` and a brain persistently returning malformed
JSON, the 5th tick does insert the critical `BRAIN_REQUEST_FAILED` incident
whose message contains `5/5` and throws the fail-safe-stop error — but the
daemon loop swallows the throw as one consecutive error and keeps running:
after the 5th tick the loop flag is still set and the agent state is
`running`, not `stopped`. -/
theorem daemon_does_not_stop_after_streak :
    c1Final.daemonRunning = true
    ∧ ¬ getKV c1Final.db "agent_state" = some "stopped"
    ∧ getKV c1Final.db "agent_state" = some "running"
    ∧ ((c1Final.db.runtimeIncidents.filter (fun r =>
        r.code = "BRAIN_REQUEST_FAILED" && r.severity = "critical"
          && containsSeg (str "5/5") r.message)).length = 1) := by
  decide

/-! ### C4: turn / telemetry pairing -/

/-- Whether a stored turn carries `metadata.dryRun = true`. -/
def turnDry (t : TurnRow) : Bool :=
  match t.metadata with
  | .jobj entries =>
    match (entries.find? (fun e => e.1 = "dryRun")).map Prod.snd with
    | some (.jbool b) => b
    | _ => false
  | _ => false

/-- Each telemetry row references, in order, exactly the non-dry turns. -/
def PairedTelemetry (db : AethernetDatabase) : Prop :=
  db.turnTelemetry.map (fun r => r.turnId)
    = (db.turns.filter (fun t => !(turnDry t))).map (fun t => t.id)

theorem turnDry_metadata (t : TurnRow) (b : Bool) (rest : List (String × JsonVal))
    (hm : t.metadata = .jobj (("dryRun", .jbool b) :: rest)) : turnDry t = b := by
  unfold turnDry
  rw [hm]
  rfl

theorem redactUnknown_dryRun_cons (b : Bool) (rest : List (String × JsonVal)) :
    redactUnknown (.jobj (("dryRun", .jbool b) :: rest))
      = .jobj (("dryRun", .jbool b) :: redactUnknownEntries rest) := rfl

theorem routeAlertCandidate_preserves (route : String) (db : AethernetDatabase)
    (c : AlertCandidate) (now : Nat) (aid iid : String) :
    (routeAlertCandidate route db c now aid iid).turns = db.turns
    ∧ (routeAlertCandidate route db c now aid iid).turnTelemetry = db.turnTelemetry := by
  unfold routeAlertCandidate
  cases hm : getKV db (alertMarkerKey c) with
  | none =>
    simp only [hm]
    by_cases hlt : now - 0 < 60000
    · rw [if_pos hlt]
      exact ⟨rfl, rfl⟩
    · rw [if_neg hlt]
      exact ⟨rfl, rfl⟩
  | some v =>
    simp only [hm]
    cases hp : parseNat v.data with
    | none =>
      simp only [hp]
      exact ⟨rfl, rfl⟩
    | some t =>
      simp only [hp]
      by_cases hlt : now - t < 60000
      · rw [if_pos hlt]
        exact ⟨rfl, rfl⟩
      · rw [if_neg hlt]
        exact ⟨rfl, rfl⟩

theorem alertFold_preserves (route : String) (ids : Nat → String × String) (now : Nat) :
    ∀ (cands : List AlertCandidate) (acc : Nat × AethernetDatabase),
      ((cands.foldl (fun acc c =>
          routeAlertCandidate route acc.2 c now (ids acc.1).1 (ids acc.1).2
            |> fun db' => (acc.1 + 1, db')) acc).2.turns = acc.2.turns
       ∧ (cands.foldl (fun acc c =>
          routeAlertCandidate route acc.2 c now (ids acc.1).1 (ids acc.1).2
            |> fun db' => (acc.1 + 1, db')) acc).2.turnTelemetry = acc.2.turnTelemetry)
  | [], _ => ⟨rfl, rfl⟩
  | c :: cs, acc => by
    rw [List.foldl_cons]
    have h1 := routeAlertCandidate_preserves route acc.2 c now (ids acc.1).1 (ids acc.1).2
    have h2 := alertFold_preserves route ids now cs
      (acc.1 + 1, routeAlertCandidate route acc.2 c now (ids acc.1).1 (ids acc.1).2)
    exact ⟨h2.1.trans h1.1, h2.2.trans h1.2⟩

theorem evaluateAndRouteAlerts_preserves (acfg : AlertingConfig) (db : AethernetDatabase)
    (now : Nat) (tier : String) (qd bfs af : Nat) (ids : Nat → String × String) :
    (evaluateAndRouteAlerts acfg db now tier qd bfs af ids).turns = db.turns
    ∧ (evaluateAndRouteAlerts acfg db now tier qd bfs af ids).turnTelemetry
      = db.turnTelemetry := by
  unfold evaluateAndRouteAlerts
  by_cases he : acfg.enabled = false
  · rw [if_pos he]
    exact ⟨rfl, rfl⟩
  · rw [if_neg he]
    exact alertFold_preserves acfg.route ids now
      (buildAlertCandidates acfg db now tier qd bfs af) (0, db)

theorem runActionLoop_preserves (env : TickEnv) :
    ∀ (acts : List BrainActionRaw) (acc : AethernetDatabase × List Str × Nat × Nat),
      ((runActionLoop env acc acts).1.turns = acc.1.turns
       ∧ (runActionLoop env acc acts).1.turnTelemetry = acc.1.turnTelemetry)
  | [], _ => ⟨rfl, rfl⟩
  | a :: rest, (db, log, fails, i) => by
    unfold runActionLoop
    cases hx : env.exec a with
    | ok r =>
      simp only [hx]
      exact runActionLoop_preserves env rest _
    | error m =>
      simp only [hx]
      exact runActionLoop_preserves env rest _

theorem tickBrainDb_preserves (db1 : AethernetDatabase) (env : TickEnv) :
    (tickBrainDb db1 env).turns = db1.turns
    ∧ (tickBrainDb db1 env).turnTelemetry = db1.turnTelemetry := by
  unfold tickBrainDb
  cases env.brain <;> exact ⟨rfl, rfl⟩

theorem tickDbC_preserves (cfg : AutonomyConfig) (db : AethernetDatabase) (env : TickEnv) :
    (tickDbC cfg db env).turns = db.turns
    ∧ (tickDbC cfg db env).turnTelemetry = db.turnTelemetry := by
  unfold tickDbC
  by_cases hm : (tickValidation cfg env).malformed
  · rw [if_pos hm]
    exact tickBrainDb_preserves (tickDb1 db env) env
  · rw [if_neg hm]
    exact tickBrainDb_preserves (tickDb1 db env) env

/-- The ticked store either keeps the turn and telemetry tables untouched (a
throw), appends one dry turn and no telemetry row, or appends one non-dry
turn and exactly one telemetry row referencing its id. -/
theorem runTick_turns_shape (cfg : AutonomyConfig) (acfg : AlertingConfig)
    (db : AethernetDatabase) (env : TickEnv) :
    ((runTick cfg acfg db env).1.turns = db.turns
      ∧ (runTick cfg acfg db env).1.turnTelemetry = db.turnTelemetry)
    ∨ (∃ t, (runTick cfg acfg db env).1.turns = db.turns ++ [t]
        ∧ (runTick cfg acfg db env).1.turnTelemetry = db.turnTelemetry
        ∧ turnDry t = true)
    ∨ (∃ t r, (runTick cfg acfg db env).1.turns = db.turns ++ [t]
        ∧ (runTick cfg acfg db env).1.turnTelemetry = db.turnTelemetry ++ [r]
        ∧ TelemetryRow.turnId r = t.id ∧ turnDry t = false) := by
  unfold runTick
  by_cases h1 : db.emergency.enabled
  · rw [if_pos h1]
    exact Or.inl ⟨rfl, rfl⟩
  · rw [if_neg h1]
    by_cases h2 : env.survivalTier = "dead"
    · rw [if_pos h2]
      exact Or.inl ⟨rfl, rfl⟩
    · rw [if_neg h2]
      by_cases h3 : env.dryRun
      · rw [if_pos h3]
        refine Or.inr (Or.inl ⟨_, rfl, rfl, ?_⟩)
        exact turnDry_metadata _ true _ (redactUnknown_dryRun_cons true _)
      · rw [if_neg h3]
        by_cases h4 : cfg.maxBrainFailuresBeforeStop ≤ tickStreak cfg db env
        · rw [if_pos h4]
          refine Or.inl ⟨?_, ?_⟩
          · exact (tickDbC_preserves cfg db env).1
          · exact (tickDbC_preserves cfg db env).2
        · rw [if_neg h4]
          have hE := evaluateAndRouteAlerts_preserves acfg (tickDbI cfg db env) env.now
            env.survivalTier env.queueDepthAtStart (tickStreak cfg db env)
            (tickLoop cfg db env).2.2.1 env.alertIds
          have hL := runActionLoop_preserves env (tickExecutable cfg env)
            (tickDbD cfg db env, [], 0, 4)
          have hJ1 : (tickDbJ cfg acfg db env).turns = (tickDbI cfg db env).turns := by
            unfold tickDbJ
            exact hE.1
          have hJ2 : (tickDbJ cfg acfg db env).turnTelemetry
              = (tickDbI cfg db env).turnTelemetry := by
            unfold tickDbJ
            exact hE.2
          have hL1 : (tickLoop cfg db env).1.turns = (tickDbC cfg db env).turns := by
            unfold tickLoop
            exact hL.1
          have hL2 : (tickLoop cfg db env).1.turnTelemetry
              = (tickDbC cfg db env).turnTelemetry := by
            unfold tickLoop
            exact hL.2
          refine Or.inr (Or.inr ⟨{ tickTurnRow cfg db env with
              input := redactTextOpt (tickTurnRow cfg db env).input,
              output := redactTextOpt (tickTurnRow cfg db env).output,
              metadata := redactUnknown (tickTurnRow cfg db env).metadata },
            { tickTelemetryRow cfg db env with
              metadata := redactUnknown (tickTelemetryRow cfg db env).metadata },
            ?_, ?_, ?_, ?_⟩)
          · show (tickDbJ cfg acfg db env).turns = _
            rw [hJ1]
            show (tickDbF cfg db env).turns
              ++ [{ tickTurnRow cfg db env with
                    input := redactTextOpt (tickTurnRow cfg db env).input,
                    output := redactTextOpt (tickTurnRow cfg db env).output,
                    metadata := redactUnknown (tickTurnRow cfg db env).metadata }] = _
            show (tickLoop cfg db env).1.turns ++ _ = _
            rw [hL1, (tickDbC_preserves cfg db env).1]
          · show (tickDbJ cfg acfg db env).turnTelemetry = _
            rw [hJ2]
            show (tickDbF cfg db env).turnTelemetry
              ++ [{ tickTelemetryRow cfg db env with
                    metadata := redactUnknown (tickTelemetryRow cfg db env).metadata }] = _
            show (tickLoop cfg db env).1.turnTelemetry ++ _ = _
            rw [hL2, (tickDbC_preserves cfg db env).2]
          · rfl
          · exact turnDry_metadata _ false _ (redactUnknown_dryRun_cons false _)

def runTicks (cfg : AutonomyConfig) (acfg : AlertingConfig) :
    AethernetDatabase → List TickEnv → AethernetDatabase
  | db, [] => db
  | db, e :: rest => runTicks cfg acfg (runTick cfg acfg db e).1 rest

theorem pairedTelemetry_step (cfg : AutonomyConfig) (acfg : AlertingConfig)
    (db : AethernetDatabase) (env : TickEnv) (h : PairedTelemetry db) :
    PairedTelemetry (runTick cfg acfg db env).1 := by
  rcases runTick_turns_shape cfg acfg db env with ⟨h1, h2⟩ | ⟨t, h1, h2, h3⟩
    | ⟨t, r, h1, h2, h3, h4⟩
  · unfold PairedTelemetry at h ⊢
    rw [h1, h2]
    exact h
  · unfold PairedTelemetry at h ⊢
    rw [h1, h2, List.filter_append]
    have hz : [t].filter (fun t => !(turnDry t)) = [] := by
      rw [List.filter_singleton, h3]
      rfl
    rw [hz, List.append_nil]
    exact h
  · unfold PairedTelemetry at h ⊢
    rw [h1, h2, List.filter_append, List.map_append]
    have ho : [t].filter (fun t => !(turnDry t)) = [t] := by
      rw [List.filter_singleton, h4]
      rfl
    rw [ho, List.map_append, h]
    simp [h3]

/-- C4 counterexample: a dry-run tick inserts a Turn row but no telemetry
row, so that turn has no `TurnTelemetry` row referencing its id. -/
theorem dryRun_turn_without_telemetry :
    (runTick defaultAutonomy defaultAlerting initDb
        { c3Env with dryRun := true }).1.turns.length = 1
    ∧ (runTick defaultAutonomy defaultAlerting initDb
        { c3Env with dryRun := true }).1.turnTelemetry.length = 0
    ∧ ((runTick defaultAutonomy defaultAlerting initDb
        { c3Env with dryRun := true }).1.turns.map turnDry) = [true] := by
  decide

/-- C4 (amended): over any run of orchestrator ticks, the telemetry rows
reference, in order, exactly the ids of the non-dry turns: every turn
inserted by a completed non-dry tick has exactly one telemetry row
referencing it, and dry-run turns have none. -/
theorem turn_telemetry_pairing (cfg : AutonomyConfig) (acfg : AlertingConfig)
    (db0 : AethernetDatabase) (envs : List TickEnv) (h0 : PairedTelemetry db0) :
    PairedTelemetry (runTicks cfg acfg db0 envs) := by
  induction envs generalizing db0 with
  | nil => exact h0
  | cons e rest ih =>
    show PairedTelemetry (runTicks cfg acfg (runTick cfg acfg db0 e).1 rest)
    exact ih _ (pairedTelemetry_step cfg acfg db0 e h0)

theorem turn_telemetry_pairing_witness :
    PairedTelemetry (runTicks defaultAutonomy defaultAlerting initDb
      [c3Env, { c3Env with dryRun := true }]) :=
  turn_telemetry_pairing defaultAutonomy defaultAlerting initDb
    [c3Env, { c3Env with dryRun := true }] rfl

end Aethernet
